import Mathlib

/-!
# Time-travel debugging event log (`lib/Runtime/Debug/TTEventLog.cpp`)

A shallow embedding of the `TTD::EventLog` coordinator.

Representation choices
* The intrusive doubly linked event list is a `List EventLogEntry` in chronological order:
  the source's `m_events` pointer designates the last element, `GetPreviousEvent` walks towards
  the front, `GetNextEvent` towards the back. `InsertEventAtHead` therefore appends at the end.
* The replay cursor `m_currentEvent` is an index into that list (`none` is the null pointer).
* `int64`/`uint64` counters are `Int`/`Nat`. The event-time counter only ever moves by `+1` per
  logged action, so the model is exact for every log of fewer than `2^63` entries.
* A `double` is carried as its 64-bit pattern; the log only stores and returns it.
* `AssertMsg` failures, null dereferences and the end-of-log abort are outcomes that carry the
  coordinator state at the point where control left the function.
* The numeric values of the `TTDMode` enumeration and the engine entry points are declared
  outside `TTEventLog.cpp`; they are parameters of the model (`TTDModeEnum`, `Host`).
* The call-stack part follows the build with `ENABLE_TTD_DEBUGGING`, in which the
  return/exception frame members exist.
* Members that no modelled method reads are left out: the slab allocator, the snapshot
  extractor and the elapsed-time `double`. The breakpoint members are those of the build with
  `ENABLE_TTD_DEBUGGING_TEMP_WORKAROUND`.
* Loops whose progress depends on the engine (`ReplayActionLoopStep`, `ReplayToTime`,
  `ReplayFullTrace`) take an iteration bound; running out of it is the outcome `FuelExhausted`.
-/

namespace TTD

/-! ## Outcomes -/

/-- The ways control can leave a coordinator method other than by a normal return. -/
inductive TTDFailure where
  /-- an `AssertMsg` was violated (fatal invariant violation) -/
  | AssertFailed
  /-- a null pointer was dereferenced -/
  | NullDereference
  /-- `AbortReplayReturnToHost`: the end-of-log `TTDebuggerAbortException` -/
  | AbortEndOfLog
  /-- the iteration bound of the model ran out (no counterpart in the source) -/
  | FuelExhausted
  /-- `TTDebuggerAbortException::CreateTopLevelAbortRequest(optAbortTime, optAbortMsg)` -/
  | AbortTopLevel (optAbortTime : Int) (optAbortMsg : Option String)
  deriving DecidableEq, Repr

/-- Result of running a method on a state of type `σ`: a normal return with the new state and
the returned value, or a failure together with the state at the point of failure. -/
inductive Outcome (σ α : Type) where
  | ok (s : σ) (a : α)
  | fail (f : TTDFailure) (s : σ)
  deriving DecidableEq, Repr

/-! ## The `TTDMode` enumeration -/

/-- Numeric values of the enumerators of `enum class TTDMode` that `TTEventLog.cpp` uses. The
enumeration is declared in a header, so its values are a parameter here. -/
structure TTDModeEnum where
  Invalid : Nat
  Disabled : Nat
  Detached : Nat
  RecordEnabled : Nat
  DebuggingEnabled : Nat
  ExcludedExecution : Nat
  deriving DecidableEq, Repr

namespace TTDModeEnum

/-- `TTDActive = (RecordEnabled | DebuggingEnabled)`. -/
def TTDActive (E : TTDModeEnum) : Nat := E.RecordEnabled ||| E.DebuggingEnabled

/-- The enumerators accepted by `SetGlobalMode`. -/
def isBaseMode (E : TTDModeEnum) (m : Nat) : Bool :=
  m == E.Disabled || m == E.Detached || m == E.RecordEnabled || m == E.DebuggingEnabled

/-- The enumeration is a flag set: `Invalid` is the empty set, `Detached`, `RecordEnabled`,
`DebuggingEnabled` and `ExcludedExecution` are non-empty, and the five named modes have pairwise
disjoint bits (`Disabled` may be the empty set or a flag of its own). -/
def WellFormed (E : TTDModeEnum) : Prop :=
  E.Invalid = 0 ∧
  E.Detached ≠ 0 ∧ E.RecordEnabled ≠ 0 ∧ E.DebuggingEnabled ≠ 0 ∧ E.ExcludedExecution ≠ 0 ∧
  E.Disabled &&& E.Detached = 0 ∧ E.Disabled &&& E.RecordEnabled = 0 ∧
  E.Disabled &&& E.DebuggingEnabled = 0 ∧ E.Disabled &&& E.ExcludedExecution = 0 ∧
  E.Detached &&& E.RecordEnabled = 0 ∧ E.Detached &&& E.DebuggingEnabled = 0 ∧
  E.Detached &&& E.ExcludedExecution = 0 ∧
  E.RecordEnabled &&& E.DebuggingEnabled = 0 ∧ E.RecordEnabled &&& E.ExcludedExecution = 0 ∧
  E.DebuggingEnabled &&& E.ExcludedExecution = 0

instance (E : TTDModeEnum) : Decidable E.WellFormed := by
  unfold WellFormed; infer_instance

end TTDModeEnum

/-- A concrete flag assignment used to evaluate the model on examples. -/
def sampleModes : TTDModeEnum :=
  { Invalid := 0x0, Disabled := 0x1, Detached := 0x2, RecordEnabled := 0x4,
    DebuggingEnabled := 0x8, ExcludedExecution := 0x20 }

/-! ## Event entries -/

/-- A `double`, carried as its bit pattern. -/
structure JsDouble where
  bits : Nat
  deriving DecidableEq, Repr

/-- A `Js::Var`: an engine value handle. -/
structure Var where
  handle : Nat
  deriving DecidableEq, Repr

/-- `NSLogValue::ArgRetValue`: the log-safe flattening of an engine value. -/
structure ArgRetValue where
  repr : Nat
  deriving DecidableEq, Repr

/-- `SnapShot`: an immutable capture of the live contexts. -/
structure SnapShot where
  ident : Nat
  deriving DecidableEq, Repr

/-- Ready-to-run snapshot information attached to a root call action by
`SetReadyToRunSnapshotInfo(snap, logTag, idTag)`. -/
structure ReadyToRunSnapshotInfo where
  snap : SnapShot
  logTag : Nat
  identityTag : Nat
  deriving DecidableEq, Repr

/-- `JsRTActionType` together with the payload each `Record*` JsRT recorder stores. -/
inductive JsRTActionPayload where
  /-- `JsRTNumberAllocateAction(etime, ctxTag, useIntRepresentation, ival, dval)` -/
  | NumberAllocate (useIntRepresentation : Bool) (ival : Nat) (dval : JsDouble)
  /-- `JsRTVarConvertAction(etime, ctxTag, toBool, toNumber, toString, vval)` -/
  | VarConvert (toBool toNumber toString : Bool) (vval : ArgRetValue)
  /-- `JsRTGetAndClearExceptionAction(etime, ctxTag)` -/
  | GetAndClearException
  /-- `JsRTGetPropertyAction(etime, ctxTag, pid, val)` -/
  | GetProperty (pid : Int) (val : ArgRetValue)
  /-- `JsRTCallbackAction(etime, ctxTag, isCancel, isRepeating, hostCallbackId, fTag, createdCallbackId)` -/
  | CallbackOp (isCancel isRepeating : Bool) (currentCallbackId : Int) (fTag : Nat)
      (createdCallbackId : Int)
  /-- `JsRTCodeParseAction(etime, ctxTag, isExpression, sourceCode, documentID, srcUri, dir)` -/
  | CodeParse (isExpression : Bool) (sourceCode : String) (documentID : Nat) (srcUri : String)
      (dir : String)
  /-- `JsRTCallFunctionAction(etime, ctxTag, rootDepth, hostCallbackId, beginTime, fTag, argCount,
  argArray, execArgs)` with its optional ready-to-run snapshot -/
  | CallFunction (rootDepth : Int) (hostCallbackId : Int) (beginTime : JsDouble) (fTag : Nat)
      (args : List ArgRetValue) (rtrSnap : Option ReadyToRunSnapshotInfo)
  deriving DecidableEq, Repr

/-- `JsRTActionLogEntry`: the context tag plus the action payload. -/
structure JsRTActionLogEntry where
  ctxTag : Nat
  action : JsRTActionPayload
  deriving DecidableEq, Repr

/-- `EventLogEntry::EventKind`. -/
inductive EventKind where
  | SnapshotTag
  | DoubleTag
  | StringTag
  | UInt64Tag
  | PropertyEnumTag
  | SymbolCreationTag
  | ExternalCallBeginTag
  | ExternalCallEndTag
  | JsRTActionTag
  deriving DecidableEq, Repr

/-- Variant payload of an `EventLogEntry`, one constructor per entry class that
`TTEventLog.cpp` allocates. -/
inductive EventPayload where
  /-- `SnapshotEventLogEntry(etime, snap, restoreTime, logTag, idTag)`; `snap` is `none` once the
  in-memory body has been unloaded -/
  | Snapshot (snap : Option SnapShot) (restoreEventTime : Int) (restoreLogTag : Nat)
      (restoreIdentityTag : Nat)
  /-- `DoubleEventLogEntry(etime, value)` -/
  | DoubleValue (d : JsDouble)
  /-- `StringValueEventLogEntry(etime, str)` -/
  | StringValue (str : String)
  /-- `UInt64EventLogEntry(etime, value)` -/
  | UInt64Value (u : Nat)
  /-- `PropertyEnumStepEventLogEntry(etime, returnCode, pid, attributes, optName)` -/
  | PropertyEnumStep (returnCode : Bool) (pid : Int) (attributes : Nat) (optName : Option String)
  /-- `SymbolCreationEventLogEntry(etime, pid)` -/
  | SymbolCreation (pid : Int)
  /-- `ExternalCallEventBeginLogEntry(etime, rootDepth, beginTime)` -/
  | ExternalCallBegin (rootDepth : Int) (beginTime : JsDouble) (functionName : Option String)
  /-- `ExternalCallEventEndLogEntry(etime, rootDepth, retVal)` -/
  | ExternalCallEnd (rootDepth : Int) (retVal : ArgRetValue) (functionName : Option String)
  /-- any `JsRTActionLogEntry` -/
  | JsRTAction (a : JsRTActionLogEntry)
  deriving DecidableEq, Repr

/-- `EventLogEntry`: the event time and the variant payload. The previous/next links are the
position of the entry in the chronological list. -/
structure EventLogEntry where
  m_eventTime : Int
  payload : EventPayload
  deriving DecidableEq, Repr

namespace EventLogEntry

/-- `EventLogEntry::GetEventTime`. -/
def GetEventTime (e : EventLogEntry) : Int := e.m_eventTime

/-- `EventLogEntry::GetEventKind`. -/
def GetEventKind (e : EventLogEntry) : EventKind :=
  match e.payload with
  | .Snapshot _ _ _ _ => .SnapshotTag
  | .DoubleValue _ => .DoubleTag
  | .StringValue _ => .StringTag
  | .UInt64Value _ => .UInt64Tag
  | .PropertyEnumStep _ _ _ _ => .PropertyEnumTag
  | .SymbolCreation _ => .SymbolCreationTag
  | .ExternalCallBegin _ _ _ => .ExternalCallBeginTag
  | .ExternalCallEnd _ _ _ => .ExternalCallEndTag
  | .JsRTAction _ => .JsRTActionTag

/-- `JsRTActionLogEntry::As(e)`: the checked downcast, `none` when the kind does not match. -/
def AsJsRTAction (e : EventLogEntry) : Option JsRTActionLogEntry :=
  match e.payload with
  | .JsRTAction a => some a
  | _ => none

end EventLogEntry

namespace JsRTActionLogEntry

/-- Modelled from the spec: `JsRTActionLogEntry::IsRootCall` is declared outside the given
sources. A root call is the spec's top-level call event: a call-function action recorded at
root nesting depth 0. -/
def IsRootCall (a : JsRTActionLogEntry) : Bool :=
  match a.action with
  | .CallFunction rootDepth _ _ _ _ _ => rootDepth == 0
  | _ => false

/-- `JsRTCallFunctionAction::HasReadyToRunSnapshotInfo` (false for any other action). -/
def HasReadyToRunSnapshotInfo (a : JsRTActionLogEntry) : Bool :=
  match a.action with
  | .CallFunction _ _ _ _ _ rtrSnap => rtrSnap.isSome
  | _ => false

end JsRTActionLogEntry

/-! ## Coordinator state -/

/-- The attached `Js::ScriptContext`: its log tag and the mode mirrored onto it by
`SetMode_TTD`. -/
structure ScriptContext where
  ctxTag : Nat
  m_ttdMode : Nat
  deriving DecidableEq, Repr

/-- `SingleCallCounter`: bookkeeping for one active call frame. -/
structure SingleCallCounter where
  Function : Nat
  EventTime : Int
  FunctionTime : Nat
  LoopTime : Nat
  CurrentStatementIndex : Int
  CurrentStatementLoopTime : Nat
  LastStatementIndex : Int
  LastStatementLoopTime : Nat
  CurrentStatementBytecodeMin : Nat
  CurrentStatementBytecodeMax : Nat
  deriving DecidableEq, Repr

/-- A `Js::DynamicObject` as the property enumerator sees it: an engine handle. -/
structure DynamicObject where
  handle : Nat
  deriving DecidableEq, Repr

/-- `NSSnapType::SnapPropertyRecord`: the serialised descriptor of a property id. -/
structure SnapPropertyRecord where
  PropertyId : Int
  IsNumeric : Bool
  IsBound : Bool
  IsSymbol : Bool
  PropertyName : String
  deriving DecidableEq, Repr

/-- `Js::PropertyRecord`: a live property record. -/
structure PropertyRecord where
  PropertyId : Int
  IsNumeric : Bool
  IsBound : Bool
  IsSymbol : Bool
  Buffer : String
  deriving DecidableEq, Repr

/-- `InflateMap`: the identity-tag remapping table kept between restorations. -/
structure InflateMap where
  ident : Nat
  deriving DecidableEq, Repr

/-- The data members of `TTD::EventLog`. -/
structure EventLog where
  m_eventTimeCtr : Int
  m_runningFunctionTimeCtr : Nat
  m_topLevelCallbackEventTime : Int
  m_hostCallbackId : Int
  /-- chronological list; the source's `m_events` points at its last element -/
  m_events : List EventLogEntry
  /-- replay cursor: index into `m_events`, `none` for `nullptr` -/
  m_currentEvent : Option Nat
  m_callStack : List SingleCallCounter
  m_isReturnFrame : Bool
  m_isExceptionFrame : Bool
  m_lastFrame : SingleCallCounter
  m_modeStack : List Nat
  m_currentMode : Nat
  m_ttdContext : Option ScriptContext
  m_lastInflateSnapshotTime : Int
  m_lastInflateMap : Option InflateMap
  m_logInfoRootDir : String
  /-- the pinned property records (`ReferencePinSet`), in insertion order -/
  m_propertyRecordPinSet : List PropertyRecord
  m_propertyRecordList : List SnapPropertyRecord
  BPIsSet : Bool
  BPRootEventTime : Int
  BPFunctionTime : Nat
  BPLoopTime : Nat
  BPLine : Nat
  BPColumn : Nat
  BPSourceContextId : Nat
  BPBreakAtNextStmtInto : Bool
  BPBreakAtNextStmtDepth : Int
  /-- ghost trace, not a data member: the actions handed to the engine by
  `ReplayActionLoopStep`, oldest first -/
  executedActions : List JsRTActionLogEntry
  deriving DecidableEq, Repr

/-- The engine and build configuration the coordinator runs against. -/
structure Host where
  /-- values of the `TTDMode` enumerators -/
  modes : TTDModeEnum
  /-- `ENABLE_TTD_INTERNAL_DIAGNOSTICS` -/
  internalDiagnostics : Bool
  /-- `Js::Constants::NoProperty` -/
  NoProperty : Int
  /-- `TTD_INVALID_LOG_TAG` -/
  InvalidLogTag : Nat
  /-- `obj->GetScriptContext()->GetPropertyString(pid)` -/
  GetPropertyString : DynamicObject → Int → String
  /-- `obj->GetDynamicType()->GetTypeHandler()->GetPropertyIndex(GetPropertyName(pid))` -/
  GetPropertyIndex : DynamicObject → Int → Int
  /-- `obj->GetDynamicType()->GetTypeHandler()->GetPropertyCount()` -/
  GetPropertyCount : DynamicObject → Int
  /-- `NSLogValue::ExtractArgRetValueFromVar` -/
  ExtractArgRetValueFromVar : Var → ArgRetValue
  /-- `NSLogValue::InflateArgRetValueIntoVar` -/
  InflateArgRetValueIntoVar : ArgRetValue → Var
  /-- `TTDInfo->LookupTagForObject` -/
  LookupTagForObject : Var → Nat
  /-- display name of a function object (`func->GetDisplayName()->GetSz()`) -/
  GetDisplayName : Var → String
  /-- source url and source context id of the function body behind a function object -/
  GetSourceContextInfo : Var → String × Nat
  /-- the snapshot extractor run by `DoSnapshotExtract_Helper` on the attached context together
  with `GetTagsForSnapshot`: the snapshot, the log tag and the identity tag -/
  ExtractSnapshot : ScriptContext → Bool → SnapShot × Nat × Nat
  /-- `action->ExecuteAction(threadContext)`: the engine re-executes a logged action; it may call
  back into the coordinator and so transforms its state -/
  ExecuteAction : JsRTActionLogEntry → EventLog → Outcome EventLog Unit
  /-- `TotalNumberOfBuiltInProperties` -/
  TotalNumberOfBuiltInProperties : Int
  /-- `NSSnapType::InflatePropertyRecord` -/
  InflatePropertyRecord : SnapPropertyRecord → PropertyRecord
  /-- the snapshot body `EnsureSnapshotDeserialized` loads for the checkpoint with the given
  event time from the log directory -/
  DeserializeSnapshot : String → Int → SnapShot
  /-- `curr->UnloadSnapshot()`: the entry with its in-memory snapshot body evicted -/
  UnloadSnapshot : EventLogEntry → EventLogEntry
  /-- `fb->GetStatementStartOffset(index)` followed by `GetSourceLineFromStartOffset_TTD`: the
  source line (`ULONG`) and column (`LONG`) of a statement of a function body -/
  GetStatementLineColumn : Nat → Int → Nat × Int
  /-- `fb->GetSourceContextId()` -/
  GetSourceContextId : Nat → Nat
  /-- `fb->GetEnclosingStatementIndexFromByteCode(bytecodeOffset, true)`: the index of the
  statement enclosing a bytecode offset of a function body, -1 when there is none -/
  GetEnclosingStatementIndexFromByteCode : Nat → Nat → Int
  /-- `fb->GetStatementMaps()->Item(cIndex)->byteCodeSpan`: the `begin` and `end` (both `int`)
  of the bytecode span of a statement of a function body -/
  GetStatementSpan : Nat → Int → Int × Int
  /-- the debugger callback `BPDbgCallback(&optAbortTime, &optAbortMsg)`: it may set a new
  breakpoint or step request on the coordinator; it returns whether execution continues and
  the abort time and message it stored -/
  BPDbgCallback : EventLog → EventLog × Bool × Int × Option String

namespace EventLog

/-! ## Construction and small accessors -/

/-- A default `SingleCallCounter` (the value-initialised `m_lastFrame()`). -/
def emptyFrame : SingleCallCounter :=
  { Function := 0, EventTime := 0, FunctionTime := 0, LoopTime := 0,
    CurrentStatementIndex := 0, CurrentStatementLoopTime := 0,
    LastStatementIndex := 0, LastStatementLoopTime := 0,
    CurrentStatementBytecodeMin := 0, CurrentStatementBytecodeMax := 0 }

/-- `EventLog::EventLog(threadContext, logDir)`: the member initialisers followed by
`m_modeStack.Add(TTDMode::Disabled)`. -/
def create (H : Host) (logDir : String) : EventLog :=
  { m_eventTimeCtr := 0, m_runningFunctionTimeCtr := 0, m_topLevelCallbackEventTime := -1,
    m_hostCallbackId := -1, m_events := [], m_currentEvent := none, m_callStack := [],
    m_isReturnFrame := false, m_isExceptionFrame := false, m_lastFrame := emptyFrame,
    m_modeStack := [H.modes.Disabled], m_currentMode := H.modes.Disabled,
    m_ttdContext := none, m_lastInflateSnapshotTime := -1, m_lastInflateMap := none,
    m_logInfoRootDir := logDir, m_propertyRecordPinSet := [], m_propertyRecordList := [],
    BPIsSet := false, BPRootEventTime := -1, BPFunctionTime := 0, BPLoopTime := 0, BPLine := 0,
    BPColumn := 0, BPSourceContextId := 0, BPBreakAtNextStmtInto := false,
    BPBreakAtNextStmtDepth := -1, executedActions := [] }

/-- The entry the cursor points at (`*m_currentEvent`), `none` for a null cursor. -/
def currentEntry (s : EventLog) : Option EventLogEntry :=
  match s.m_currentEvent with
  | none => none
  | some i => s.m_events[i]?

/-- `m_currentEvent->GetNextEvent()` for a cursor at index `i`. -/
def nextEvent (s : EventLog) (i : Nat) : Option Nat :=
  if i + 1 < s.m_events.length then some (i + 1) else none

/-! ## Mode stack -/

/-- The loop of `UpdateComputedMode` from index `i` on, with `cm` the mode computed so far;
`none` when one of the assertions in the `switch` fails. -/
def computeModeFrom (E : TTDModeEnum) : List Nat → Nat → Nat → Option Nat
  | [], _, cm => some cm
  | m :: rest, i, cm =>
    if E.isBaseMode m then
      if i = 0 then computeModeFrom E rest (i + 1) m else none
    else if m = E.ExcludedExecution then
      if i ≠ 0 then computeModeFrom E rest (i + 1) (cm ||| m) else none
    else none

/-- `EventLog::UpdateComputedMode`. -/
def UpdateComputedMode (H : Host) (s : EventLog) : Outcome EventLog Unit :=
  match computeModeFrom H.modes s.m_modeStack 0 H.modes.Invalid with
  | none => .fail .AssertFailed s
  | some cm =>
    .ok { s with m_currentMode := cm,
                 m_ttdContext := s.m_ttdContext.map (fun ctx => { ctx with m_ttdMode := cm }) } ()

/-- `JsUtil::List::SetItem(0, m)`: overwrite slot 0, growing an empty list to one element. -/
def setItem0 (m : Nat) : List Nat → List Nat
  | [] => [m]
  | _ :: rest => m :: rest

/-- `EventLog::StartTimeTravelOnScript`. -/
def StartTimeTravelOnScript (_H : Host) (ctx : ScriptContext) (s : EventLog) :
    Outcome EventLog Unit :=
  if s.m_ttdContext.isSome then .fail .AssertFailed s
  else .ok { s with m_ttdContext := some { ctx with m_ttdMode := s.m_currentMode } } ()

/-- `EventLog::SetGlobalMode`. -/
def SetGlobalMode (H : Host) (m : Nat) (s : EventLog) : Outcome EventLog Unit :=
  if H.modes.isBaseMode m then
    UpdateComputedMode H { s with m_modeStack := setItem0 m s.m_modeStack }
  else .fail .AssertFailed s

/-- `EventLog::PushMode`. -/
def PushMode (H : Host) (m : Nat) (s : EventLog) : Outcome EventLog Unit :=
  if m = H.modes.ExcludedExecution then
    UpdateComputedMode H { s with m_modeStack := s.m_modeStack ++ [m] }
  else .fail .AssertFailed s

/-- `EventLog::PopMode`; `m_modeStack.Last()` asserts that the list is not empty. -/
def PopMode (H : Host) (m : Nat) (s : EventLog) : Outcome EventLog Unit :=
  if m = H.modes.ExcludedExecution then
    match s.m_modeStack.getLast? with
    | none => .fail .AssertFailed s
    | some top =>
      if top = m then
        UpdateComputedMode H { s with m_modeStack := s.m_modeStack.dropLast }
      else .fail .AssertFailed s
  else .fail .AssertFailed s

/-- `EventLog::SetIntoDebuggingMode`. -/
def SetIntoDebuggingMode (H : Host) (s : EventLog) : Outcome EventLog Unit :=
  match UpdateComputedMode H
      { s with m_modeStack := setItem0 H.modes.DebuggingEnabled s.m_modeStack } with
  | .fail f s1 => .fail f s1
  | .ok s1 _ =>
    match s1.m_ttdContext with
    | none => .fail .NullDereference s1
    | some _ => .ok s1 ()

/-- `EventLog::ShouldPerformRecordAction`. -/
def ShouldPerformRecordAction (H : Host) (s : EventLog) : Bool :=
  let modeIsRecord := (s.m_currentMode &&& H.modes.RecordEnabled) == H.modes.RecordEnabled
  let inRecordableCode := (s.m_currentMode &&& H.modes.ExcludedExecution) == H.modes.Invalid
  modeIsRecord && inRecordableCode

/-- `EventLog::ShouldPerformDebugAction`. -/
def ShouldPerformDebugAction (H : Host) (s : EventLog) : Bool :=
  let modeIsDebug := (s.m_currentMode &&& H.modes.DebuggingEnabled) == H.modes.DebuggingEnabled
  let inDebugableCode := (s.m_currentMode &&& H.modes.ExcludedExecution) == H.modes.Invalid
  modeIsDebug && inDebugableCode

/-- `EventLog::IsTTDActive`. -/
def IsTTDActive (H : Host) (s : EventLog) : Bool :=
  (s.m_currentMode &&& H.modes.TTDActive) != H.modes.Invalid

/-- `EventLog::IsTTDDetached`. -/
def IsTTDDetached (H : Host) (s : EventLog) : Bool :=
  (s.m_currentMode &&& H.modes.Detached) != H.modes.Invalid

/-- A mode stack as the data model describes it: a base mode at index 0 and only
`ExcludedExecution` above it. -/
def validModeStack (E : TTDModeEnum) : List Nat → Bool
  | [] => false
  | b :: rest => E.isBaseMode b && rest.all (fun m => m == E.ExcludedExecution)

/-- The state invariant of the mode stack: the stack is valid and the computed mode is its
bitwise union. -/
def ModeInv (H : Host) (s : EventLog) : Prop :=
  validModeStack H.modes s.m_modeStack = true ∧
    s.m_currentMode = s.m_modeStack.foldl (fun a b => a ||| b) 0

/-- The calls that touch the mode stack. -/
inductive ModeOp where
  | SetGlobalMode (m : Nat)
  | SetIntoDebuggingMode
  | PushMode (m : Nat)
  | PopMode (m : Nat)
  | StartTimeTravelOnScript (ctx : ScriptContext)
  deriving DecidableEq, Repr

/-- Perform one mode call. -/
def applyModeOp (H : Host) (op : ModeOp) (s : EventLog) : Outcome EventLog Unit :=
  match op with
  | .SetGlobalMode m => SetGlobalMode H m s
  | .SetIntoDebuggingMode => SetIntoDebuggingMode H s
  | .PushMode m => PushMode H m s
  | .PopMode m => PopMode H m s
  | .StartTimeTravelOnScript ctx => StartTimeTravelOnScript H ctx s

/-- Perform a sequence of mode calls, stopping at the first one that does not return. -/
def runModeOps (H : Host) : List ModeOp → EventLog → Outcome EventLog Unit
  | [], s => .ok s ()
  | op :: rest, s =>
    match applyModeOp H op s with
    | .ok s1 _ => runModeOps H rest s1
    | .fail f s1 => .fail f s1

/-- A push or a pop of the `ExcludedExecution` overlay. -/
inductive OverlayOp where
  | push
  | pop
  deriving DecidableEq, Repr

/-- Well-nestedness of a push/pop sequence entered with `depth` pushes still open: no pop
without an earlier unmatched push of the sequence, and nothing left open at the end. -/
def wellNested : Nat → List OverlayOp → Bool
  | depth, [] => depth == 0
  | depth, .push :: rest => wellNested (depth + 1) rest
  | 0, .pop :: _ => false
  | depth + 1, .pop :: rest => wellNested depth rest

/-- Run a sequence of `PushMode(ExcludedExecution)` / `PopMode(ExcludedExecution)` calls. -/
def runOverlayOps (H : Host) : List OverlayOp → EventLog → Outcome EventLog Unit
  | [], s => .ok s ()
  | .push :: rest, s =>
    match PushMode H H.modes.ExcludedExecution s with
    | .ok s1 _ => runOverlayOps H rest s1
    | .fail f s1 => .fail f s1
  | .pop :: rest, s =>
    match PopMode H H.modes.ExcludedExecution s with
    | .ok s1 _ => runOverlayOps H rest s1
    | .fail f s1 => .fail f s1

end EventLog

/-- A host over `sampleModes` whose engine actions leave the coordinator untouched. -/
def sampleHost : Host :=
  { modes := sampleModes, internalDiagnostics := false, NoProperty := -1, InvalidLogTag := 0,
    GetPropertyString := fun _ pid => toString pid,
    GetPropertyIndex := fun _ pid => pid,
    GetPropertyCount := fun _ => 3,
    ExtractArgRetValueFromVar := fun v => ⟨v.handle⟩,
    InflateArgRetValueIntoVar := fun a => ⟨a.repr⟩,
    LookupTagForObject := fun v => v.handle,
    GetDisplayName := fun _ => "f",
    GetSourceContextInfo := fun _ => ("file.js", 1),
    ExtractSnapshot := fun ctx _ => (⟨ctx.ctxTag⟩, 0, 0),
    ExecuteAction := fun _ s => .ok s (),
    TotalNumberOfBuiltInProperties := 100,
    InflatePropertyRecord := fun r => ⟨r.PropertyId, r.IsNumeric, r.IsBound, r.IsSymbol,
      r.PropertyName⟩,
    DeserializeSnapshot := fun _ t => ⟨t.toNat⟩,
    UnloadSnapshot := fun e =>
      match e.payload with
      | .Snapshot _ r l i => ⟨e.m_eventTime, .Snapshot none r l i⟩
      | _ => e,
    GetStatementLineColumn := fun f i => (f, i),
    GetSourceContextId := fun f => f,
    GetEnclosingStatementIndexFromByteCode := fun _ offset => offset / 10,
    GetStatementSpan := fun _ i => (10 * i, 10 * i + 9),
    BPDbgCallback := fun s => (s, true, 0, none) }

end TTD

namespace TTD

namespace EventLog

/-! ## Recording -/

/-- `EventLog::GetCurrentEventTimeAndAdvance`: the state with the counter advanced, and the
counter's previous value. -/
def GetCurrentEventTimeAndAdvance (s : EventLog) : EventLog × Int :=
  ({ s with m_eventTimeCtr := s.m_eventTimeCtr + 1 }, s.m_eventTimeCtr)

/-- `EventLog::InsertEventAtHead`: link the entry after the current last entry and make it the
entry `m_events` points at. -/
def InsertEventAtHead (evnt : EventLogEntry) (s : EventLog) : EventLog :=
  { s with m_events := s.m_events ++ [evnt] }

/-- The common tail of every recorder: `SlabNew<...>(GetCurrentEventTimeAndAdvance(), ...)`
followed by `InsertEventAtHead`. -/
def logEvent (payload : EventPayload) (s : EventLog) : EventLog :=
  InsertEventAtHead ⟨(GetCurrentEventTimeAndAdvance s).2, payload⟩
    (GetCurrentEventTimeAndAdvance s).1

/-- `EventLog::RecordDateTimeEvent`. -/
def RecordDateTimeEvent (H : Host) (time : JsDouble) (s : EventLog) : Outcome EventLog Unit :=
  if ShouldPerformRecordAction H s then .ok (logEvent (.DoubleValue time) s) ()
  else .fail .AssertFailed s

/-- `EventLog::RecordDateStringEvent`. -/
def RecordDateStringEvent (H : Host) (stringValue : String) (s : EventLog) :
    Outcome EventLog Unit :=
  if ShouldPerformRecordAction H s then .ok (logEvent (.StringValue stringValue) s) ()
  else .fail .AssertFailed s

/-- `EventLog::RecordExternalEntropyRandomEvent`. -/
def RecordExternalEntropyRandomEvent (H : Host) (seed : Nat) (s : EventLog) :
    Outcome EventLog Unit :=
  if ShouldPerformRecordAction H s then .ok (logEvent (.UInt64Value seed) s) ()
  else .fail .AssertFailed s

/-- `EventLog::RecordPropertyEnumEvent`. With internal diagnostics the name is copied when
`returnCode` is set; without, the copy made when `pid == NoProperty` goes to a local that
shadows `optName`, so the entry is built with a null name. `propertyName` is `none` for a null
string pointer. -/
def RecordPropertyEnumEvent (H : Host) (returnCode : Bool) (pid : Int) (attributes : Nat)
    (propertyName : Option String) (s : EventLog) : Outcome EventLog Unit :=
  if ShouldPerformRecordAction H s then
    if H.internalDiagnostics then
      if returnCode then
        match propertyName with
        | none => .fail .NullDereference s
        | some name =>
          .ok (logEvent (.PropertyEnumStep returnCode pid attributes (some name)) s) ()
      else .ok (logEvent (.PropertyEnumStep returnCode pid attributes none) s) ()
    else
      if pid = H.NoProperty then
        match propertyName with
        | none => .fail .NullDereference s
        | some _ => .ok (logEvent (.PropertyEnumStep returnCode pid attributes none) s) ()
      else .ok (logEvent (.PropertyEnumStep returnCode pid attributes none) s) ()
  else .fail .AssertFailed s

/-- `EventLog::RecordSymbolCreationEvent`. -/
def RecordSymbolCreationEvent (H : Host) (pid : Int) (s : EventLog) : Outcome EventLog Unit :=
  if ShouldPerformRecordAction H s then .ok (logEvent (.SymbolCreation pid) s) ()
  else .fail .AssertFailed s

/-- The function name stored on external-call entries in a diagnostics build. -/
def diagFunctionName (H : Host) (func : Var) : Option String :=
  if H.internalDiagnostics then some (H.GetDisplayName func) else none

/-- `EventLog::RecordExternalCallBeginEvent` (the returned entry is the new last entry). -/
def RecordExternalCallBeginEvent (H : Host) (func : Var) (rootDepth : Int)
    (beginTime : JsDouble) (s : EventLog) : Outcome EventLog Unit :=
  if ShouldPerformRecordAction H s then
    .ok (logEvent (.ExternalCallBegin rootDepth beginTime (diagFunctionName H func)) s) ()
  else .fail .AssertFailed s

/-- `EventLog::RecordExternalCallEndEvent`. -/
def RecordExternalCallEndEvent (H : Host) (func : Var) (rootDepth : Int) (value : Var)
    (s : EventLog) : Outcome EventLog Unit :=
  if ShouldPerformRecordAction H s then
    .ok (logEvent (.ExternalCallEnd rootDepth (H.ExtractArgRetValueFromVar value)
      (diagFunctionName H func)) s) ()
  else .fail .AssertFailed s

/-- `EventLog::RecordJsRTAllocateInt`. -/
def RecordJsRTAllocateInt (_H : Host) (ctx : ScriptContext) (ival : Nat) (s : EventLog) :
    Outcome EventLog Unit :=
  .ok (logEvent (.JsRTAction ⟨ctx.ctxTag, .NumberAllocate true ival ⟨0⟩⟩) s) ()

/-- `EventLog::RecordJsRTAllocateDouble`. -/
def RecordJsRTAllocateDouble (_H : Host) (ctx : ScriptContext) (dval : JsDouble)
    (s : EventLog) : Outcome EventLog Unit :=
  .ok (logEvent (.JsRTAction ⟨ctx.ctxTag, .NumberAllocate false 0 dval⟩) s) ()

/-- `EventLog::RecordJsRTVarConversion`. -/
def RecordJsRTVarConversion (H : Host) (ctx : ScriptContext) (var : Var)
    (toBool toNumber toString : Bool) (s : EventLog) : Outcome EventLog Unit :=
  .ok (logEvent (.JsRTAction ⟨ctx.ctxTag,
    .VarConvert toBool toNumber toString (H.ExtractArgRetValueFromVar var)⟩) s) ()

/-- `EventLog::RecordGetAndClearException`. -/
def RecordGetAndClearException (_H : Host) (ctx : ScriptContext) (s : EventLog) :
    Outcome EventLog Unit :=
  .ok (logEvent (.JsRTAction ⟨ctx.ctxTag, .GetAndClearException⟩) s) ()

/-- `EventLog::RecordGetProperty`. -/
def RecordGetProperty (H : Host) (ctx : ScriptContext) (pid : Int) (var : Var)
    (s : EventLog) : Outcome EventLog Unit :=
  .ok (logEvent (.JsRTAction ⟨ctx.ctxTag,
    .GetProperty pid (H.ExtractArgRetValueFromVar var)⟩) s) ()

/-- `EventLog::RecordJsRTCallbackOperation`; `func` is `none` for a null function. -/
def RecordJsRTCallbackOperation (H : Host) (ctx : ScriptContext) (isCancel isRepeating : Bool)
    (func : Option Var) (createdCallbackId : Int) (s : EventLog) : Outcome EventLog Unit :=
  let fTag := match func with
    | some f => H.LookupTagForObject f
    | none => H.InvalidLogTag
  .ok (logEvent (.JsRTAction ⟨ctx.ctxTag,
    .CallbackOp isCancel isRepeating s.m_hostCallbackId fTag createdCallbackId⟩) s) ()

/-- `EventLog::RecordCodeParse`. -/
def RecordCodeParse (H : Host) (ctx : ScriptContext) (isExpression : Bool) (func : Var)
    (srcCode : String) (s : EventLog) : Outcome EventLog Unit :=
  .ok (logEvent (.JsRTAction ⟨ctx.ctxTag,
    .CodeParse isExpression srcCode (H.GetSourceContextInfo func).2
      (H.GetSourceContextInfo func).1 s.m_logInfoRootDir⟩) s) ()

/-- `EventLog::RecordJsRTCallFunction` (the returned action is the new last entry). -/
def RecordJsRTCallFunction (H : Host) (ctx : ScriptContext) (rootDepth : Int)
    (hostCallbackId : Int) (beginTime : JsDouble) (func : Var) (args : List Var)
    (s : EventLog) : Outcome EventLog Unit :=
  .ok (logEvent (.JsRTAction ⟨ctx.ctxTag,
    .CallFunction rootDepth hostCallbackId beginTime (H.LookupTagForObject func)
      (args.map H.ExtractArgRetValueFromVar) none⟩) s) ()

/-- `EventLog::DoSnapshotExtract` with `DoSnapshotExtract_Helper`: both assert that a context
is attached; the new checkpoint entry restores to its own event time. -/
def DoSnapshotExtract (H : Host) (firstSnap : Bool) (s : EventLog) : Outcome EventLog Unit :=
  match s.m_ttdContext with
  | none => .fail .AssertFailed s
  | some ctx =>
    let r := H.ExtractSnapshot ctx firstSnap
    .ok (logEvent (.Snapshot (some r.1) s.m_eventTimeCtr r.2.1 r.2.2) s) ()

/-- The calls that append to the log. -/
inductive RecordOp where
  | DateTimeEvent (time : JsDouble)
  | DateStringEvent (stringValue : String)
  | ExternalEntropyRandomEvent (seed : Nat)
  | PropertyEnumEvent (returnCode : Bool) (pid : Int) (attributes : Nat)
      (propertyName : Option String)
  | SymbolCreationEvent (pid : Int)
  | ExternalCallBeginEvent (func : Var) (rootDepth : Int) (beginTime : JsDouble)
  | ExternalCallEndEvent (func : Var) (rootDepth : Int) (value : Var)
  | JsRTAllocateInt (ctx : ScriptContext) (ival : Nat)
  | JsRTAllocateDouble (ctx : ScriptContext) (dval : JsDouble)
  | JsRTVarConversion (ctx : ScriptContext) (var : Var) (toBool toNumber toString : Bool)
  | GetAndClearException (ctx : ScriptContext)
  | GetProperty (ctx : ScriptContext) (pid : Int) (var : Var)
  | JsRTCallbackOperation (ctx : ScriptContext) (isCancel isRepeating : Bool)
      (func : Option Var) (createdCallbackId : Int)
  | CodeParse (ctx : ScriptContext) (isExpression : Bool) (func : Var) (srcCode : String)
  | JsRTCallFunction (ctx : ScriptContext) (rootDepth : Int) (hostCallbackId : Int)
      (beginTime : JsDouble) (func : Var) (args : List Var)
  | SnapshotExtract (firstSnap : Bool)
  deriving DecidableEq, Repr

/-- Perform one recording call. -/
def applyRecordOp (H : Host) (op : RecordOp) (s : EventLog) : Outcome EventLog Unit :=
  match op with
  | .DateTimeEvent time => RecordDateTimeEvent H time s
  | .DateStringEvent str => RecordDateStringEvent H str s
  | .ExternalEntropyRandomEvent seed => RecordExternalEntropyRandomEvent H seed s
  | .PropertyEnumEvent rc pid attrs name => RecordPropertyEnumEvent H rc pid attrs name s
  | .SymbolCreationEvent pid => RecordSymbolCreationEvent H pid s
  | .ExternalCallBeginEvent f d t => RecordExternalCallBeginEvent H f d t s
  | .ExternalCallEndEvent f d v => RecordExternalCallEndEvent H f d v s
  | .JsRTAllocateInt ctx i => RecordJsRTAllocateInt H ctx i s
  | .JsRTAllocateDouble ctx d => RecordJsRTAllocateDouble H ctx d s
  | .JsRTVarConversion ctx v b n t => RecordJsRTVarConversion H ctx v b n t s
  | .GetAndClearException ctx => RecordGetAndClearException H ctx s
  | .GetProperty ctx pid v => RecordGetProperty H ctx pid v s
  | .JsRTCallbackOperation ctx c r f i => RecordJsRTCallbackOperation H ctx c r f i s
  | .CodeParse ctx e f src => RecordCodeParse H ctx e f src s
  | .JsRTCallFunction ctx d h t f args => RecordJsRTCallFunction H ctx d h t f args s
  | .SnapshotExtract firstSnap => DoSnapshotExtract H firstSnap s

/-- A call made while recording: a mode call or a recording call. -/
inductive LogOp where
  | mode (op : ModeOp)
  | record (op : RecordOp)
  deriving DecidableEq, Repr

/-- Perform a sequence of mode and recording calls, stopping at the first one that does not
return. -/
def runLogOps (H : Host) : List LogOp → EventLog → Outcome EventLog Unit
  | [], s => .ok s ()
  | .mode op :: rest, s =>
    match applyModeOp H op s with
    | .ok s1 _ => runLogOps H rest s1
    | .fail f s1 => .fail f s1
  | .record op :: rest, s =>
    match applyRecordOp H op s with
    | .ok s1 _ => runLogOps H rest s1
    | .fail f s1 => .fail f s1

end EventLog

end TTD

namespace TTD

namespace EventLog

/-- The recording invariant: event times increase strictly along the chronological list and all
lie below the time counter. -/
def TimeInv (s : EventLog) : Prop :=
  List.Pairwise (fun a b : EventLogEntry => a.GetEventTime < b.GetEventTime) s.m_events ∧
    ∀ e ∈ s.m_events, e.GetEventTime < s.m_eventTimeCtr

end EventLog

end TTD

namespace TTD

namespace EventLog

/-- A sample recording session: attach a context, enter record mode, take the first snapshot,
record a clock read, a root call, an entropy seed and a symbol creation. -/
def sampleRecording : List LogOp :=
  [.mode (.StartTimeTravelOnScript ⟨7, 0⟩), .mode (.SetGlobalMode 4),
   .record (.SnapshotExtract true), .record (.DateTimeEvent ⟨1234⟩),
   .record (.JsRTCallFunction ⟨7, 0⟩ 0 (-1) ⟨55⟩ ⟨9⟩ [⟨1⟩, ⟨2⟩]),
   .record (.ExternalEntropyRandomEvent 99), .record (.SymbolCreationEvent 17)]

/-- The coordinator state after `sampleRecording`. -/
def sampleRecorded : EventLog :=
  { create sampleHost "log" with
    m_eventTimeCtr := 5
    m_events :=
      [⟨0, .Snapshot (some ⟨7⟩) 0 0 0⟩, ⟨1, .DoubleValue ⟨1234⟩⟩,
       ⟨2, .JsRTAction ⟨7, .CallFunction 0 (-1) ⟨55⟩ 9 [⟨1⟩, ⟨2⟩] none⟩⟩,
       ⟨3, .UInt64Value 99⟩, ⟨4, .SymbolCreation 17⟩]
    m_modeStack := [4]
    m_currentMode := 4
    m_ttdContext := some ⟨7, 4⟩ }

end EventLog

end TTD

namespace TTD

namespace EventLog

/-! ## Checkpoint search -/

/-- The backward scan of `FindSnapTimeForEventTime`, over the entries in the order the loop
visits them (`m_events` first, then `GetPreviousEvent` repeatedly). -/
def findSnapTimeScan (targetTime : Int) : List EventLogEntry → Int
  | [] => -1
  | curr :: prev =>
    if curr.GetEventTime ≤ targetTime then
      if curr.GetEventKind = .SnapshotTag then curr.GetEventTime
      else
        match curr.AsJsRTAction with
        | some rootEntry =>
          if rootEntry.IsRootCall then
            if rootEntry.HasReadyToRunSnapshotInfo then curr.GetEventTime
            else findSnapTimeScan targetTime prev
          else findSnapTimeScan targetTime prev
        | none => findSnapTimeScan targetTime prev
    else findSnapTimeScan targetTime prev

/-- `EventLog::FindSnapTimeForEventTime`: the returned snapshot time and the value stored in
`*newCtxsNeeded`. -/
def FindSnapTimeForEventTime (s : EventLog) (targetTime : Int) : Int × Bool :=
  let snapTime := findSnapTimeScan targetTime s.m_events.reverse
  let newCtxsNeeded :=
    match s.m_lastInflateMap with
    | some _ => snapTime != s.m_lastInflateSnapshotTime
    | none => false
  (snapTime, newCtxsNeeded)

/-- The entries the specification lets a seek start from: a dedicated checkpoint entry, or a
root call action carrying ready-to-run snapshot information, at or before the target time. -/
def isCheckpointAtOrBefore (targetTime : Int) (e : EventLogEntry) : Bool :=
  decide (e.GetEventTime ≤ targetTime) &&
    (match e.payload with
      | .Snapshot _ _ _ _ => true
      | .JsRTAction a => a.IsRootCall && a.HasReadyToRunSnapshotInfo
      | _ => false)

/-! ## Replay -/

/-- `EventLog::AdvanceTimeAndPositionForReplay`. -/
def AdvanceTimeAndPositionForReplay (s : EventLog) : Outcome EventLog Unit :=
  match s.m_currentEvent with
  | none => .fail .NullDereference { s with m_eventTimeCtr := s.m_eventTimeCtr + 1 }
  | some i =>
    let s1 := { s with m_eventTimeCtr := s.m_eventTimeCtr + 1, m_currentEvent := nextEvent s i }
    match currentEntry s1 with
    | none => .ok s1 ()
    | some e =>
      if s1.m_eventTimeCtr ≤ e.GetEventTime then .ok s1 () else .fail .AssertFailed s1

/-- Attach a result value to a normal return of `AdvanceTimeAndPositionForReplay`. -/
def advanceReturning {α : Type} (a : α) (s : EventLog) : Outcome EventLog α :=
  match AdvanceTimeAndPositionForReplay s with
  | .ok s1 _ => .ok s1 a
  | .fail f s1 => .fail f s1

/-- `EventLog::ReplayDateTimeEvent`. -/
def ReplayDateTimeEvent (H : Host) (s : EventLog) : Outcome EventLog JsDouble :=
  if ShouldPerformDebugAction H s then
    match currentEntry s with
    | none => .fail .AbortEndOfLog s
    | some e =>
      if e.GetEventTime = s.m_eventTimeCtr then
        match e.payload with
        | .DoubleValue d => advanceReturning d s
        | _ => .fail .AssertFailed s
      else .fail .AssertFailed s
  else .fail .AssertFailed s

/-- `EventLog::ReplayDateStringEvent`. -/
def ReplayDateStringEvent (H : Host) (s : EventLog) : Outcome EventLog String :=
  if ShouldPerformDebugAction H s then
    match currentEntry s with
    | none => .fail .AbortEndOfLog s
    | some e =>
      if e.GetEventTime = s.m_eventTimeCtr then
        match e.payload with
        | .StringValue str => advanceReturning str s
        | _ => .fail .AssertFailed s
      else .fail .AssertFailed s
  else .fail .AssertFailed s

/-- `EventLog::ReplayExternalEntropyRandomEvent`. -/
def ReplayExternalEntropyRandomEvent (H : Host) (s : EventLog) : Outcome EventLog Nat :=
  if ShouldPerformDebugAction H s then
    match currentEntry s with
    | none => .fail .AbortEndOfLog s
    | some e =>
      if e.GetEventTime = s.m_eventTimeCtr then
        match e.payload with
        | .UInt64Value u => advanceReturning u s
        | _ => .fail .AssertFailed s
      else .fail .AssertFailed s
  else .fail .AssertFailed s

/-- The out-parameters of `ReplayPropertyEnumEvent`. -/
structure PropertyEnumResult where
  returnCode : Bool
  newIndex : Int
  pid : Int
  attributes : Nat
  propertyName : Option String
  deriving DecidableEq, Repr

/-- `EventLog::ReplayPropertyEnumEvent`. -/
def ReplayPropertyEnumEvent (H : Host) (obj : DynamicObject) (s : EventLog) :
    Outcome EventLog PropertyEnumResult :=
  if ShouldPerformDebugAction H s then
    match currentEntry s with
    | none => .fail .AbortEndOfLog s
    | some e =>
      if e.GetEventTime = s.m_eventTimeCtr then
        match e.payload with
        | .PropertyEnumStep returnCode pid attributes _ =>
          if returnCode then
            if pid ≠ H.NoProperty then
              advanceReturning
                { returnCode := returnCode, newIndex := H.GetPropertyIndex obj pid, pid := pid,
                  attributes := attributes, propertyName := some (H.GetPropertyString obj pid) } s
            else .fail .AssertFailed s
          else
            advanceReturning
              { returnCode := returnCode, newIndex := H.GetPropertyCount obj, pid := pid,
                attributes := attributes, propertyName := none } s
        | _ => .fail .AssertFailed s
      else .fail .AssertFailed s
  else .fail .AssertFailed s

/-- `EventLog::ReplaySymbolCreationEvent`. -/
def ReplaySymbolCreationEvent (H : Host) (s : EventLog) : Outcome EventLog Int :=
  if ShouldPerformDebugAction H s then
    match currentEntry s with
    | none => .fail .AbortEndOfLog s
    | some e =>
      if e.GetEventTime = s.m_eventTimeCtr then
        match e.payload with
        | .SymbolCreation pid => advanceReturning pid s
        | _ => .fail .AssertFailed s
      else .fail .AssertFailed s
  else .fail .AssertFailed s

/-- The `do ... while` loop of `ReplayActionLoopStep`; `fuel` bounds the number of iterations. -/
def ReplayActionLoop (H : Host) : Nat → EventLog → Outcome EventLog Unit
  | 0, s => .fail .FuelExhausted s
  | fuel + 1, s =>
    match currentEntry s with
    | none => .fail .NullDereference s
    | some e =>
      match e.AsJsRTAction with
      | none => .fail .AssertFailed s
      | some action =>
        match AdvanceTimeAndPositionForReplay s with
        | .fail f s1 => .fail f s1
        | .ok s1 _ =>
          match H.ExecuteAction action
              { s1 with executedActions := s1.executedActions ++ [action] } with
          | .fail f s2 => .fail f s2
          | .ok s2 _ =>
            let nextActionValid :=
              match currentEntry s2 with
              | some e2 => e2.GetEventKind == .JsRTActionTag
              | none => false
            let nextActionRootCall :=
              nextActionValid &&
                (match (currentEntry s2).bind EventLogEntry.AsJsRTAction with
                  | some a2 => a2.IsRootCall
                  | none => false)
            if nextActionValid && !nextActionRootCall then ReplayActionLoop H fuel s2
            else .ok s2 ()

/-- `EventLog::ReplayActionLoopStep`. -/
def ReplayActionLoopStep (H : Host) (fuel : Nat) (s : EventLog) : Outcome EventLog Unit :=
  if ShouldPerformDebugAction H s then
    match currentEntry s with
    | none => .fail .AssertFailed s
    | some e =>
      if e.GetEventKind = .JsRTActionTag then ReplayActionLoop H fuel s
      else .fail .AssertFailed s
  else .fail .AssertFailed s

/-- `EventLog::ReplayExternalCallEvent`. -/
def ReplayExternalCallEvent (H : Host) (fuel : Nat) (s : EventLog) : Outcome EventLog Var :=
  if ShouldPerformDebugAction H s then
    match currentEntry s with
    | none => .fail .AbortEndOfLog s
    | some e =>
      if e.GetEventTime = s.m_eventTimeCtr then
        match e.payload with
        | .ExternalCallBegin beginDepth _ _ =>
          match AdvanceTimeAndPositionForReplay s with
          | .fail f s1 => .fail f s1
          | .ok s1 _ =>
            match currentEntry s1 with
            | none => .fail .NullDereference s1
            | some e1 =>
              match (if e1.GetEventKind = .JsRTActionTag then ReplayActionLoopStep H fuel s1
                     else .ok s1 ()) with
              | .fail f s2 => .fail f s2
              | .ok s2 _ =>
                match currentEntry s2 with
                | none => .fail .AbortEndOfLog s2
                | some e2 =>
                  if e2.GetEventTime = s2.m_eventTimeCtr then
                    match e2.payload with
                    | .ExternalCallEnd endDepth retVal _ =>
                      match AdvanceTimeAndPositionForReplay s2 with
                      | .fail f s3 => .fail f s3
                      | .ok s3 _ =>
                        if beginDepth = endDepth then
                          .ok s3 (H.InflateArgRetValueIntoVar retVal)
                        else .fail .AssertFailed s3
                    | _ => .fail .AssertFailed s2
                  else .fail .AssertFailed s2
        | _ => .fail .AssertFailed s
      else .fail .AssertFailed s
  else .fail .AssertFailed s

/-- `EventLog::ReplaySingleEntry`; `fuel` bounds the action loop. -/
def ReplaySingleEntry (H : Host) (fuel : Nat) (s : EventLog) : Outcome EventLog Unit :=
  if ShouldPerformDebugAction H s then
    match currentEntry s with
    | none => .fail .AbortEndOfLog s
    | some e =>
      match e.GetEventKind with
      | .SnapshotTag => AdvanceTimeAndPositionForReplay s
      | .JsRTActionTag => ReplayActionLoopStep H fuel s
      | _ => .fail .AssertFailed s
  else .fail .AssertFailed s

/-- The `while` loop of `ReplayToTime`; `fuel` bounds the number of iterations and the action
loop inside each. -/
def ReplayToTimeLoop (H : Host) (eventTime : Int) : Nat → EventLog → Outcome EventLog Unit
  | 0, s => .fail .FuelExhausted s
  | fuel + 1, s =>
    match currentEntry s with
    | none => .fail .NullDereference s
    | some e =>
      if e.GetEventTime ≠ eventTime then
        match ReplaySingleEntry H fuel s with
        | .fail f s1 => .fail f s1
        | .ok s1 _ =>
          match currentEntry s1 with
          | none => .fail .AssertFailed s1
          | some e1 =>
            if e1.GetEventTime ≤ eventTime then ReplayToTimeLoop H eventTime fuel s1
            else .fail .AssertFailed s1
      else .ok s ()

/-- `EventLog::ReplayToTime`. -/
def ReplayToTime (H : Host) (fuel : Nat) (eventTime : Int) (s : EventLog) :
    Outcome EventLog Unit :=
  match currentEntry s with
  | none => .fail .AssertFailed s
  | some e =>
    if e.GetEventTime ≤ eventTime then ReplayToTimeLoop H eventTime fuel s
    else .fail .AssertFailed s

/-- `EventLog::ReplayFullTrace`: the loop and the final `AbortReplayReturnToHost`. -/
def ReplayFullTrace (H : Host) : Nat → EventLog → Outcome EventLog Unit
  | 0, s => .fail .FuelExhausted s
  | fuel + 1, s =>
    match currentEntry s with
    | none => .fail .AbortEndOfLog s
    | some _ =>
      match ReplaySingleEntry H fuel s with
      | .fail f s1 => .fail f s1
      | .ok s1 _ => ReplayFullTrace H fuel s1

end EventLog

end TTD

namespace TTD

namespace EventLog

/-- A sample log positioned for replay in debugging mode: a snapshot, a clock read, a root call
with ready-to-run snapshot information, a number allocation, an entropy seed and a symbol
creation; the cursor is on the first entry. -/
def sampleReplayLog : EventLog :=
  { create sampleHost "log" with
    m_eventTimeCtr := 0
    m_events :=
      [⟨0, .Snapshot (some ⟨7⟩) 0 0 0⟩, ⟨1, .DoubleValue ⟨1234⟩⟩,
       ⟨2, .JsRTAction ⟨7, .CallFunction 0 (-1) ⟨55⟩ 9 [⟨1⟩, ⟨2⟩] (some ⟨⟨8⟩, 1, 1⟩)⟩⟩,
       ⟨3, .JsRTAction ⟨7, .NumberAllocate true 5 ⟨0⟩⟩⟩,
       ⟨4, .UInt64Value 99⟩, ⟨5, .SymbolCreation 17⟩]
    m_currentEvent := some 0
    m_modeStack := [8]
    m_currentMode := 8
    m_ttdContext := some ⟨7, 8⟩ }

end EventLog

end TTD

namespace TTD

namespace EventLog

/-- The state `AdvanceTimeAndPositionForReplay` produces from a cursor at index `i`: the time
counter incremented and the cursor moved to the next entry. -/
def advanced (s : EventLog) (i : Nat) : EventLog :=
  { s with m_eventTimeCtr := s.m_eventTimeCtr + 1, m_currentEvent := nextEvent s i }

/-- A value handed to one of the scalar recorders. -/
inductive ScalarValue where
  /-- the `double` given to `RecordDateTimeEvent` -/
  | DateTime (time : JsDouble)
  /-- the seed given to `RecordExternalEntropyRandomEvent` -/
  | ExternalEntropyRandom (seed : Nat)
  /-- the property id given to `RecordSymbolCreationEvent` -/
  | SymbolCreation (pid : Int)
  deriving DecidableEq, Repr

/-- Which scalar recorder/replayer pair a value belongs to. -/
inductive ScalarKind where
  | DateTime
  | ExternalEntropyRandom
  | SymbolCreation
  deriving DecidableEq, Repr

/-- The kind of a scalar value. -/
def ScalarValue.kind : ScalarValue → ScalarKind
  | .DateTime _ => .DateTime
  | .ExternalEntropyRandom _ => .ExternalEntropyRandom
  | .SymbolCreation _ => .SymbolCreation

/-- Record one scalar value with the recorder of its kind. -/
def recordScalar (H : Host) (v : ScalarValue) (s : EventLog) : Outcome EventLog Unit :=
  match v with
  | .DateTime time => RecordDateTimeEvent H time s
  | .ExternalEntropyRandom seed => RecordExternalEntropyRandomEvent H seed s
  | .SymbolCreation pid => RecordSymbolCreationEvent H pid s

/-- Record a sequence of scalar values, in order. -/
def recordScalars (H : Host) : List ScalarValue → EventLog → Outcome EventLog Unit
  | [], s => .ok s ()
  | v :: rest, s =>
    match recordScalar H v s with
    | .ok s1 _ => recordScalars H rest s1
    | .fail f s1 => .fail f s1

/-- Call the replayer of the given kind and wrap what it returns. -/
def replayScalar (H : Host) (k : ScalarKind) (s : EventLog) : Outcome EventLog ScalarValue :=
  match k with
  | .DateTime =>
    match ReplayDateTimeEvent H s with
    | .ok s1 d => .ok s1 (.DateTime d)
    | .fail f s1 => .fail f s1
  | .ExternalEntropyRandom =>
    match ReplayExternalEntropyRandomEvent H s with
    | .ok s1 u => .ok s1 (.ExternalEntropyRandom u)
    | .fail f s1 => .fail f s1
  | .SymbolCreation =>
    match ReplaySymbolCreationEvent H s with
    | .ok s1 pid => .ok s1 (.SymbolCreation pid)
    | .fail f s1 => .fail f s1

/-- Call the replayers of the given kinds in order and collect what they return. -/
def replayScalars (H : Host) : List ScalarKind → EventLog → Outcome EventLog (List ScalarValue)
  | [], s => .ok s []
  | k :: rest, s =>
    match replayScalar H k s with
    | .fail f s1 => .fail f s1
    | .ok s1 v =>
      match replayScalars H rest s1 with
      | .fail f s2 => .fail f s2
      | .ok s2 vs => .ok s2 (v :: vs)

/-- The payload a scalar recorder stores for a value. -/
def scalarPayload : ScalarValue → EventPayload
  | .DateTime time => .DoubleValue time
  | .ExternalEntropyRandom seed => .UInt64Value seed
  | .SymbolCreation pid => .SymbolCreation pid

/-- The entries a run of scalar recordings appends when the time counter starts at `t`. -/
def scalarEntries : Int → List ScalarValue → List EventLogEntry
  | _, [] => []
  | t, v :: rest => ⟨t, scalarPayload v⟩ :: scalarEntries (t + 1) rest

end EventLog

end TTD

namespace TTD

namespace EventLog

/-- A sample log that `ReplayToTime`/`ReplayFullTrace` can drive directly (checkpoints and JsRT
actions only), in debugging mode with the cursor on the first entry. -/
def sampleSeekLog : EventLog :=
  { create sampleHost "log" with
    m_eventTimeCtr := 0
    m_events :=
      [⟨0, .Snapshot (some ⟨7⟩) 0 0 0⟩,
       ⟨2, .JsRTAction ⟨7, .CallFunction 0 (-1) ⟨55⟩ 9 [⟨1⟩, ⟨2⟩] (some ⟨⟨8⟩, 1, 1⟩)⟩⟩,
       ⟨3, .JsRTAction ⟨7, .NumberAllocate true 5 ⟨0⟩⟩⟩,
       ⟨4, .Snapshot (some ⟨9⟩) 4 2 2⟩,
       ⟨5, .JsRTAction ⟨7, .GetAndClearException⟩⟩]
    m_currentEvent := some 0
    m_modeStack := [8]
    m_currentMode := 8
    m_ttdContext := some ⟨7, 8⟩ }

end EventLog

end TTD

namespace TTD

namespace EventLog

/-- The engine executes every logged action to completion without calling back into the
replayer: the event list, the cursor, the time counter, the computed mode and the trace of
executed actions are as before the action. -/
def EngineLeavesLog (H : Host) : Prop :=
  ∀ (a : JsRTActionLogEntry) (s : EventLog), ∃ s1, H.ExecuteAction a s = .ok s1 () ∧
    s1.m_events = s.m_events ∧ s1.m_currentEvent = s.m_currentEvent ∧
    s1.m_eventTimeCtr = s.m_eventTimeCtr ∧ s1.m_currentMode = s.m_currentMode ∧
    s1.executedActions = s.executedActions

/-- The coordinator is in debugging mode with the log split into the entries `pre` already
passed and the entries `rem` from the cursor onward; the remaining entries are checkpoints and
JsRT actions with strictly increasing times, the first of them not yet overtaken by the time
counter. -/
def ReplayReady (H : Host) (s : EventLog) (pre rem : List EventLogEntry) : Prop :=
  s.m_events = pre ++ rem ∧
  (rem ≠ [] → s.m_currentEvent = some pre.length) ∧
  (rem = [] → s.m_currentEvent = none) ∧
  ShouldPerformDebugAction H s = true ∧
  List.Pairwise (fun a b : EventLogEntry => a.GetEventTime < b.GetEventTime) rem ∧
  (∀ e, rem.head? = some e → s.m_eventTimeCtr ≤ e.GetEventTime) ∧
  (∀ e ∈ rem, e.GetEventKind = .SnapshotTag ∨ e.GetEventKind = .JsRTActionTag)

end EventLog

end TTD

namespace TTD

namespace EventLog

/-! ## Call stack (build with `ENABLE_TTD_DEBUGGING`) -/

/-- `UINT32_MAX`. -/
def UINT32_MAX : Nat := 4294967295

/-- `EventLog::ClearReturnAndExceptionFrames`. -/
def ClearReturnAndExceptionFrames (s : EventLog) : EventLog :=
  { s with m_isReturnFrame := false, m_isExceptionFrame := false }

/-- `EventLog::HasImmediateReturnFrame`. -/
def HasImmediateReturnFrame (s : EventLog) : Bool := s.m_isReturnFrame

/-- `EventLog::HasImmediateExceptionFrame`. -/
def HasImmediateExceptionFrame (s : EventLog) : Bool := s.m_isExceptionFrame

/-- `EventLog::SetReturnAndExceptionFramesFromCurrent`. -/
def SetReturnAndExceptionFramesFromCurrent (H : Host) (setReturn setException : Bool)
    (s : EventLog) : Outcome EventLog Unit :=
  if IsTTDActive H s then
    match s.m_callStack.getLast? with
    | none => .fail .AssertFailed s
    | some last =>
      if (setReturn || setException) && (!setReturn || !setException) then
        .ok { s with m_isReturnFrame := setReturn, m_isExceptionFrame := setException,
                     m_lastFrame := last } ()
      else .fail .AssertFailed s
  else .fail .AssertFailed s

/-- The frame `PushCallEvent` builds for a function body. -/
def newCallCounter (s : EventLog) (fbody : Nat) : SingleCallCounter :=
  { Function := fbody, EventTime := s.m_eventTimeCtr,
    FunctionTime := s.m_runningFunctionTimeCtr + 1, LoopTime := 0,
    CurrentStatementIndex := -1, CurrentStatementLoopTime := 0,
    LastStatementIndex := -1, LastStatementLoopTime := 0,
    CurrentStatementBytecodeMin := UINT32_MAX, CurrentStatementBytecodeMax := UINT32_MAX }

/-- `EventLog::PushCallEvent`. -/
def PushCallEvent (H : Host) (fbody : Nat) (s : EventLog) : Outcome EventLog Unit :=
  if IsTTDActive H s then
    if ShouldPerformRecordAction H s || ShouldPerformDebugAction H s then
      .ok { ClearReturnAndExceptionFrames s with
            m_runningFunctionTimeCtr := s.m_runningFunctionTimeCtr + 1,
            m_callStack := s.m_callStack ++ [newCallCounter s fbody] } ()
    else .ok s ()
  else .fail .AssertFailed s

/-- The tail shared by the two pops: `m_runningFunctionTimeCtr++` followed by
`m_callStack.RemoveAtEnd()`, which asserts that the list is not empty. -/
def popFrame (s : EventLog) : Outcome EventLog Unit :=
  match s.m_callStack with
  | [] =>
    .fail .AssertFailed { s with m_runningFunctionTimeCtr := s.m_runningFunctionTimeCtr + 1 }
  | _ :: _ =>
    .ok { s with m_runningFunctionTimeCtr := s.m_runningFunctionTimeCtr + 1,
                 m_callStack := s.m_callStack.dropLast } ()

/-- `EventLog::PopCallEvent`. -/
def PopCallEvent (H : Host) (s : EventLog) : Outcome EventLog Unit :=
  if IsTTDActive H s then
    if ShouldPerformRecordAction H s || ShouldPerformDebugAction H s then
      match SetReturnAndExceptionFramesFromCurrent H true false s with
      | .fail f s1 => .fail f s1
      | .ok s1 _ => popFrame s1
    else .ok s ()
  else .fail .AssertFailed s

/-- `EventLog::PopCallEventException`. -/
def PopCallEventException (H : Host) (isFirstException : Bool) (s : EventLog) :
    Outcome EventLog Unit :=
  if IsTTDActive H s then
    if ShouldPerformRecordAction H s || ShouldPerformDebugAction H s then
      if isFirstException then
        match SetReturnAndExceptionFramesFromCurrent H false true s with
        | .fail f s1 => .fail f s1
        | .ok s1 _ => popFrame s1
      else popFrame s
    else .ok s ()
  else .fail .AssertFailed s

/-- `EventLog::UpdateLoopCountInfo`; `m_callStack.Last()` asserts that the list is not empty. -/
def UpdateLoopCountInfo (H : Host) (s : EventLog) : Outcome EventLog Unit :=
  if IsTTDActive H s then
    if ShouldPerformRecordAction H s || ShouldPerformDebugAction H s then
      match s.m_callStack.getLast? with
      | none => .fail .AssertFailed s
      | some cfinfo =>
        .ok { s with m_callStack :=
                s.m_callStack.dropLast ++ [{ cfinfo with LoopTime := cfinfo.LoopTime + 1 }] } ()
    else .ok s ()
  else .fail .AssertFailed s

/-- `EventLog::ResetCallStackForTopLevelCall`. -/
def ResetCallStackForTopLevelCall (topLevelCallbackEventTime hostCallbackId : Int)
    (s : EventLog) : Outcome EventLog Unit :=
  match s.m_callStack with
  | [] =>
    .ok (ClearReturnAndExceptionFrames
      { s with m_runningFunctionTimeCtr := 0,
               m_topLevelCallbackEventTime := topLevelCallbackEventTime,
               m_hostCallbackId := hostCallbackId }) ()
  | _ :: _ => .fail .AssertFailed s

/-- `TTDExceptionFramePopper`: the guard object; `m_log` is `true` while the guard is armed
(holds the log pointer) and `false` when it is null. -/
structure TTDExceptionFramePopper where
  m_log : Bool
  deriving DecidableEq, Repr

namespace TTDExceptionFramePopper

/-- `TTDExceptionFramePopper::TTDExceptionFramePopper`. -/
def create : TTDExceptionFramePopper := { m_log := false }

/-- `TTDExceptionFramePopper::PushInfo`. -/
def PushInfo (_g : TTDExceptionFramePopper) : TTDExceptionFramePopper := { m_log := true }

/-- `TTDExceptionFramePopper::PopInfo`. -/
def PopInfo (_g : TTDExceptionFramePopper) : TTDExceptionFramePopper := { m_log := false }

/-- `TTDExceptionFramePopper::~TTDExceptionFramePopper`. -/
def destroy (H : Host) (g : TTDExceptionFramePopper) (s : EventLog) : Outcome EventLog Unit :=
  if g.m_log then PopCallEventException H (!HasImmediateExceptionFrame s) s
  else .ok s ()

end TTDExceptionFramePopper

/-- An exception unwinding through `k` frames whose guards are armed: the guards are destroyed
one after the other, innermost first. -/
def unwindFrames (H : Host) : Nat → EventLog → Outcome EventLog Unit
  | 0, s => .ok s ()
  | k + 1, s =>
    match TTDExceptionFramePopper.destroy H { m_log := true } s with
    | .fail f s1 => .fail f s1
    | .ok s1 _ => unwindFrames H k s1

/-- The calls that move the call stack. -/
inductive CallOp where
  | PushCallEvent (fbody : Nat)
  | PopCallEvent
  | PopCallEventException (isFirstException : Bool)
  deriving DecidableEq, Repr

/-- Perform one call-stack call. -/
def applyCallOp (H : Host) (op : CallOp) (s : EventLog) : Outcome EventLog Unit :=
  match op with
  | .PushCallEvent fbody => PushCallEvent H fbody s
  | .PopCallEvent => PopCallEvent H s
  | .PopCallEventException isFirst => PopCallEventException H isFirst s

/-- Perform a sequence of call-stack calls, stopping at the first one that does not return. -/
def runCallOps (H : Host) : List CallOp → EventLog → Outcome EventLog Unit
  | [], s => .ok s ()
  | op :: rest, s =>
    match applyCallOp H op s with
    | .ok s1 _ => runCallOps H rest s1
    | .fail f s1 => .fail f s1

end EventLog

end TTD

namespace TTD

namespace EventLog

/-- A coordinator in record mode with the `ExcludedExecution` overlay pushed and one frame on
the call stack. -/
def sampleExcludedState : EventLog :=
  { create sampleHost "log" with
    m_modeStack := [4, 32]
    m_currentMode := 36
    m_runningFunctionTimeCtr := 1
    m_callStack := [newCallCounter (create sampleHost "log") 11] }

end EventLog

end TTD

namespace TTD

namespace EventLog

/-- A coordinator in debugging mode right after `ResetCallStackForTopLevelCall(0, 0)`. -/
def sampleTopLevel : EventLog :=
  { create sampleHost "log" with
    m_modeStack := [8]
    m_currentMode := 8
    m_topLevelCallbackEventTime := 0
    m_hostCallbackId := 0 }

/-- The state after `PushCallEvent(1)` and `PushCallEvent(2)` on `sampleTopLevel`. -/
def sampleTwoFrames : EventLog :=
  { sampleTopLevel with
    m_runningFunctionTimeCtr := 2
    m_callStack :=
      [newCallCounter sampleTopLevel 1,
       { newCallCounter sampleTopLevel 2 with FunctionTime := 2 }] }

/-- The state after an exception left the inner frame of `sampleTwoFrames` through its armed
guard: the inner frame is recorded as the exception frame and popped. -/
def sampleAfterException : EventLog :=
  { sampleTwoFrames with
    m_runningFunctionTimeCtr := 3
    m_callStack := [newCallCounter sampleTopLevel 1]
    m_isExceptionFrame := true
    m_lastFrame := { newCallCounter sampleTopLevel 2 with FunctionTime := 2 } }

end EventLog

end TTD

namespace TTD

namespace EventLog

/-! ## Checkpoint restoration -/

/-- The index at which a backward walk `for(curr = m_events; curr != nullptr;
curr = curr->GetPreviousEvent())` first meets an element satisfying `p`: the walk starts at the
last element, so this is the largest such index; `none` when the walk runs off the front. -/
def findBackward {α : Type} (p : α → Bool) : List α → Option Nat
  | [] => none
  | x :: xs =>
    match findBackward p xs with
    | some j => some (j + 1)
    | none => if p x then some 0 else none

/-- What the first loop of `DoSnapshotInflate` reads from the checkpoint it found. -/
structure RestoreInfo where
  snap : SnapShot
  restoreEventTime : Int
  restoreLogTagCtr : Nat
  restoreIdentityTagCtr : Nat
  deriving DecidableEq, Repr

/-- The body of the first loop of `DoSnapshotInflate` for the entry `curr` with the requested
time: a checkpoint entry has its snapshot body deserialised if it is not in memory and restores
to its recorded restore time; any other entry is downcast to a call-function action and
restores to its own event time. The result is the entry as the loop leaves it and the restore
information; `none` when a downcast assertion or `AssertMsg(snap != nullptr)` fails. -/
def restoreInfoOf (H : Host) (dir : String) (curr : EventLogEntry) :
    Option (EventLogEntry × RestoreInfo) :=
  match curr.payload with
  | .Snapshot snap restoreEventTime restoreLogTag restoreIdentityTag =>
    let body := match snap with
      | some b => b
      | none => H.DeserializeSnapshot dir curr.GetEventTime
    some (⟨curr.m_eventTime, .Snapshot (some body) restoreEventTime restoreLogTag
        restoreIdentityTag⟩,
      ⟨body, restoreEventTime, restoreLogTag, restoreIdentityTag⟩)
  | .JsRTAction a =>
    match a.action with
    | .CallFunction _ _ _ _ _ (some info) =>
      some (curr, ⟨info.snap, curr.GetEventTime, info.logTag, info.identityTag⟩)
    | _ => none
  | _ => none

/-- The loop that unloads every snapshot but the one being inflated. -/
def unloadOthers (H : Host) (etime : Int) (events : List EventLogEntry) : List EventLogEntry :=
  events.map (fun curr => if curr.GetEventTime ≠ etime then H.UnloadSnapshot curr else curr)

/-- The final block of `DoSnapshotInflate` (`if(this->m_events != nullptr)`): walk back from the
last entry to the entry whose time is the time counter, step over it if it is a checkpoint, and
reset the call-stack bookkeeping. -/
def positionCursor (s : EventLog) : Outcome EventLog Unit :=
  match s.m_events with
  | [] => .ok s ()
  | _ :: _ =>
    match findBackward (fun e : EventLogEntry => e.GetEventTime == s.m_eventTimeCtr)
        s.m_events with
    | none => .fail .NullDereference { s with m_currentEvent := none }
    | some j =>
      match s.m_events[j]? with
      | none => .fail .NullDereference { s with m_currentEvent := none }
      | some e =>
        if e.GetEventKind = .SnapshotTag then
          ResetCallStackForTopLevelCall (-1) (-1)
            { s with m_eventTimeCtr := s.m_eventTimeCtr + 1, m_currentEvent := nextEvent s j }
        else
          ResetCallStackForTopLevelCall (-1) (-1) { s with m_currentEvent := some j }

/-- The inflate-map branch of `DoSnapshotInflate`: an existing map is prepared for re-inflation
and kept; otherwise a new map is created, the inflate snapshot time is set and all other
snapshot bodies are unloaded. -/
def prepareInflateMap (H : Host) (etime : Int) (s : EventLog) : EventLog :=
  match s.m_lastInflateMap with
  | some _ => s
  | none =>
    { s with m_lastInflateMap := some ⟨0⟩, m_lastInflateSnapshotTime := etime,
             m_events := unloadOthers H etime s.m_events }

/-- `EventLog::DoSnapshotInflate`. -/
def DoSnapshotInflate (H : Host) (etime : Int) (s : EventLog) : Outcome EventLog Unit :=
  match findBackward (fun e : EventLogEntry => e.GetEventTime == etime) s.m_events with
  | none => .fail .AssertFailed s
  | some i =>
    match s.m_events[i]? with
    | none => .fail .AssertFailed s
    | some curr =>
      match restoreInfoOf H s.m_logInfoRootDir curr with
      | none => .fail .AssertFailed s
      | some (curr1, info) =>
        match s.m_ttdContext with
        | none => .fail .AssertFailed { s with m_events := s.m_events.set i curr1 }
        | some _ =>
          positionCursor
            { prepareInflateMap H etime { s with m_events := s.m_events.set i curr1 } with
              m_eventTimeCtr := info.restoreEventTime }

/-- `EventLog::UpdateInflateMapForFreshScriptContexts`. -/
def UpdateInflateMapForFreshScriptContexts (s : EventLog) : EventLog :=
  { s with m_ttdContext := none, m_lastInflateMap := none }

end EventLog

end TTD

namespace TTD

namespace EventLog

/-- The event time and kind of an entry: what cursor positioning looks at. -/
def shapeOf (e : EventLogEntry) : Int × EventKind := (e.GetEventTime, e.GetEventKind)

/-- Unloading the in-memory snapshot body of an entry changes neither its event time nor its
kind. -/
def UnloadKeepsShape (H : Host) : Prop :=
  ∀ e : EventLogEntry, shapeOf (H.UnloadSnapshot e) = shapeOf e

/-- The restore event time `DoSnapshotInflate` takes from the checkpoint it found: the recorded
restore time of a checkpoint entry, the entry's own event time for a root call. -/
def restoreTimeOf (c : EventLogEntry) : Int :=
  match c.payload with
  | .Snapshot _ restoreEventTime _ _ => restoreEventTime
  | _ => c.GetEventTime

end EventLog

end TTD

namespace TTD

namespace EventLog

/-! ## Breakpoints (build with `ENABLE_TTD_DEBUGGING_TEMP_WORKAROUND`) -/

/-- `EventLog::ClearBreakpointOnNextStatement`. -/
def ClearBreakpointOnNextStatement (s : EventLog) : EventLog :=
  { s with BPBreakAtNextStmtInto := false, BPBreakAtNextStmtDepth := -1 }

/-- `EventLog::SetBreakpointOnNextStatement`. -/
def SetBreakpointOnNextStatement (into : Bool) (s : EventLog) : EventLog :=
  { s with BPBreakAtNextStmtInto := into, BPBreakAtNextStmtDepth := s.m_callStack.length }

/-- `EventLog::GetTopCallCounter`: `none` when its assertion `m_callStack.Count() != 0` fails. -/
def GetTopCallCounter (s : EventLog) : Option SingleCallCounter := s.m_callStack.getLast?

/-- The value of the local `bpHit` of `BPCheckAndAction` when the action block is reached, for
the top call counter `cfinfo`. `(uint32)srcLine` and `(uint32)srcColumn` are the casts of the
`ULONG` line and the `LONG` column. -/
def bpHit (H : Host) (s : EventLog) (cfinfo : SingleCallCounter) : Bool :=
  let bpHit0 :=
    if s.BPBreakAtNextStmtDepth ≠ -1 then
      if s.BPBreakAtNextStmtInto then true
      else decide ((s.m_callStack.length : Int) ≤ s.BPBreakAtNextStmtDepth)
    else false
  if !bpHit0 then
    let src := H.GetStatementLineColumn cfinfo.Function cfinfo.CurrentStatementIndex
    let lineMatch := s.BPLine == src.1 % 2 ^ 32
    let columnMatch := s.BPColumn == (src.2 % 2 ^ 32).toNat
    let srcMatch := s.BPSourceContextId == H.GetSourceContextId cfinfo.Function
    let etimeMatch := s.BPRootEventTime == s.m_topLevelCallbackEventTime
    let ftimeMatch := s.BPFunctionTime == cfinfo.FunctionTime
    let ltimeMatch := s.BPLoopTime == cfinfo.LoopTime
    lineMatch && columnMatch && srcMatch && etimeMatch && ftimeMatch && ltimeMatch
  else bpHit0

/-- `EventLog::BPCheckAndAction`; the printing of the call stack and of the source line has no
effect on the coordinator. -/
def BPCheckAndAction (H : Host) (s : EventLog) : Outcome EventLog Unit :=
  if ShouldPerformDebugAction H s then
    match GetTopCallCounter s with
    | none => .fail .AssertFailed s
    | some cfinfo =>
      if bpHit H s cfinfo then
        match H.BPDbgCallback
            (ClearBreakpointOnNextStatement { s with BPIsSet := false, BPRootEventTime := -1 }) with
        | (s1, continueExecution, optAbortTime, optAbortMsg) =>
          if continueExecution then .ok s1 ()
          else .fail (.AbortTopLevel optAbortTime optAbortMsg) s1
      else .ok s ()
  else .fail .AssertFailed s

/-- A coordinator in debugging mode inside a top-level call, two frames deep, with a step-over
request recorded when the stack had one frame and a breakpoint stored for line 7. -/
def sampleStepOver : EventLog :=
  { sampleTwoFrames with
    BPIsSet := true, BPRootEventTime := 0, BPFunctionTime := 2, BPLoopTime := 0,
    BPLine := 7, BPColumn := 4294967295, BPSourceContextId := 2,
    BPBreakAtNextStmtInto := false, BPBreakAtNextStmtDepth := 1 }

end EventLog

end TTD

namespace TTD

/-! ## Persisted log (`EmitLog` / `ParseLogInto`) -/

/-- `NSTokens::Separator`, the layout hint handed to every writer call. -/
inductive Separator where
  | NoSeparator
  | CommaSeparator
  | BigSpaceSeparator
  | CommaAndBigSpaceSeparator
  deriving DecidableEq, Repr

/-- Modelled from the spec: the enumeration is declared outside the given sources. A separator
puts a comma in front of the item exactly when its name says so; the big space is layout and
carries no information. -/
def Separator.hasComma : Separator → Bool
  | .CommaSeparator => true
  | .CommaAndBigSpaceSeparator => true
  | _ => false

/-- Modelled from the spec: the items of the record-structured stream behind the pluggable
writer and reader (begin/end record, begin/end sequence, scalars), whose byte encoding is an
external collaborator. `EventItems` and `PropertyItem` are the items a per-entry codec may use
for an event list and for a property descriptor. -/
inductive LogToken where
  | Comma
  | RecordStart
  | RecordEnd
  | SequenceStart
  | SequenceEnd
  | LengthValue (n : Nat)
  | EventItems (es : List EventLogEntry)
  | PropertyItem (r : SnapPropertyRecord)
  deriving DecidableEq, Repr

/-- Modelled from the spec: what a writer call puts in front of its item for a separator. -/
def writeSeparator (sep : Separator) : List LogToken :=
  if sep.hasComma then [.Comma] else []

/-- Modelled from the spec: the reader's handling of `readSeparator`: a comma is consumed when
one is expected; `none` when it is missing. -/
def readSeparator (expected : Bool) (ts : List LogToken) : Option (List LogToken) :=
  if expected then
    match ts with
    | .Comma :: rest => some rest
    | _ => none
  else some ts

/-- Modelled from the spec: a reader call that expects the structural item `t` next (after the
separator, if one is expected); `none` when the stream holds something else. -/
def readToken (t : LogToken) (expected : Bool) (ts : List LogToken) : Option (List LogToken) :=
  match readSeparator expected ts with
  | some (t1 :: rest) => if t1 = t then some rest else none
  | _ => none

/-- Modelled from the spec: `JSONReader::ReadLengthValue(readSeparator)`. -/
def ReadLengthValue (expected : Bool) (ts : List LogToken) : Option (Nat × List LogToken) :=
  match readSeparator expected ts with
  | some (.LengthValue n :: rest) => some (n, rest)
  | _ => none

/-- The serialisation helpers `EmitLog` and `ParseLogInto` call, which are declared outside the
given sources, and the build switch of `EmitLog`. -/
structure LogCodec where
  /-- `TTD_WRITE_JSON_OUTPUT || TTD_WRITE_BINARY_OUTPUT` -/
  writeOutput : Bool
  /-- `EventLogEntry::EmitEventList(m_events, m_logInfoRootDir, &writer, threadContext, sep)` -/
  EmitEventList : List EventLogEntry → String → Separator → List LogToken
  /-- `EventLogEntry::ParseEventList(readSeparator, threadContext, &reader, alloc)` -/
  ParseEventList : Bool → List LogToken → Option (List EventLogEntry × List LogToken)
  /-- `NSSnapType::EmitSnapPropertyRecord(record, &writer, sep)` -/
  EmitSnapPropertyRecord : SnapPropertyRecord → Separator → List LogToken
  /-- `NSSnapType::ParseSnapPropertyRecord(record, readSeparator, &reader, alloc)` -/
  ParseSnapPropertyRecord : Bool → List LogToken → Option (SnapPropertyRecord × List LogToken)
  /-- the contents of `*record` when the reader asserts inside `ParseSnapPropertyRecord` -/
  FailedSnapPropertyRecord : Bool → List LogToken → SnapPropertyRecord

/-- Modelled from the spec: the round-trip contract of the per-entry helpers, which are declared
outside the given sources: parsing what was emitted, with a separator expected exactly when one
was written, gives back the same entries (count, order, event times, payloads), respectively the
same descriptor, and consumes exactly what was emitted. -/
def LogCodec.RoundTrips (C : LogCodec) : Prop :=
  (∀ (es : List EventLogEntry) (dir : String) (sep : Separator) (rest : List LogToken),
    C.ParseEventList sep.hasComma (C.EmitEventList es dir sep ++ rest) = some (es, rest)) ∧
  (∀ (r : SnapPropertyRecord) (sep : Separator) (rest : List LogToken),
    C.ParseSnapPropertyRecord sep.hasComma (C.EmitSnapPropertyRecord r sep ++ rest)
      = some (r, rest))

/-- A sample codec: an event list is one item, a property descriptor is one item. -/
def sampleCodec : LogCodec :=
  { writeOutput := true,
    EmitEventList := fun es _ sep => writeSeparator sep ++ [.EventItems es],
    ParseEventList := fun expected ts =>
      match readSeparator expected ts with
      | some (.EventItems es :: rest) => some (es, rest)
      | _ => none,
    EmitSnapPropertyRecord := fun r sep => writeSeparator sep ++ [.PropertyItem r],
    ParseSnapPropertyRecord := fun expected ts =>
      match readSeparator expected ts with
      | some (.PropertyItem r :: rest) => some (r, rest)
      | _ => none,
    FailedSnapPropertyRecord := fun _ _ => ⟨0, false, false, false, ""⟩ }

namespace EventLog

/-- The descriptor `EmitLog` fills in for a pinned property record. -/
def toSnapPropertyRecord (pRecord : PropertyRecord) : SnapPropertyRecord :=
  { PropertyId := pRecord.PropertyId, IsNumeric := pRecord.IsNumeric,
    IsBound := pRecord.IsBound, IsSymbol := pRecord.IsSymbol,
    PropertyName := pRecord.Buffer }

/-- The loop of `EmitLog` that emits the property descriptors; `first` is the loop's flag. -/
def emitPropertyRecords (C : LogCodec) : Bool → List SnapPropertyRecord → List LogToken
  | _, [] => []
  | first, r :: rs =>
    C.EmitSnapPropertyRecord r
        (if !first then .CommaAndBigSpaceSeparator else .BigSpaceSeparator)
      ++ emitPropertyRecords C false rs

/-- `EventLog::EmitLog`: the coordinator afterwards (the property list is filled from the pin
set if it was empty) and the stream written; nothing is done in a build that writes no
output. -/
def EmitLog (C : LogCodec) (s : EventLog) : EventLog × List LogToken :=
  if C.writeOutput then
    let s1 :=
      if s.m_propertyRecordList.length = 0 then
        { s with m_propertyRecordList := s.m_propertyRecordPinSet.map toSnapPropertyRecord }
      else s
    (s1,
      [.RecordStart]
        ++ C.EmitEventList s.m_events s.m_logInfoRootDir .BigSpaceSeparator
        ++ (writeSeparator .CommaSeparator ++ [.LengthValue s1.m_propertyRecordList.length])
        ++ (writeSeparator .CommaSeparator ++ [.SequenceStart])
        ++ emitPropertyRecords C true s1.m_propertyRecordList
        ++ (writeSeparator .BigSpaceSeparator ++ [.SequenceEnd])
        ++ (writeSeparator .BigSpaceSeparator ++ [.RecordEnd]))
  else (s, [])

/-- The loop of `ParseLogInto` that reads `propertyCount` descriptors; `notFirst` is the value of
`i != 0`. The result is the entries taken from `m_propertyRecordList.NextOpenEntry()`, in
order, and the stream after the last descriptor, or `none` when the reader asserted while an
entry was being filled (that entry is then the last one taken). -/
def parsePropertyRecords (C : LogCodec) :
    Nat → Bool → List LogToken → List SnapPropertyRecord × Option (List LogToken)
  | 0, _, ts => ([], some ts)
  | n + 1, notFirst, ts =>
    match C.ParseSnapPropertyRecord notFirst ts with
    | none => ([C.FailedSnapPropertyRecord notFirst ts], none)
    | some (r, ts1) =>
      (r :: (parsePropertyRecords C n true ts1).1, (parsePropertyRecords C n true ts1).2)

/-- `EventLog::ParseLogInto` on the stream `ts`. A reader call that does not find what it
expects is an assertion failure; the state carried by the failure has what was stored before
it: the parsed event list once `ParseEventList` has returned, and every descriptor entry taken
from the list before the reader asserted. -/
def ParseLogInto (C : LogCodec) (ts : List LogToken) (s : EventLog) : Outcome EventLog Unit :=
  match readToken .RecordStart false ts with
  | none => .fail .AssertFailed s
  | some ts1 =>
    match C.ParseEventList false ts1 with
    | none => .fail .AssertFailed s
    | some (events, ts2) =>
      let s1 := { s with m_events := events }
      match ReadLengthValue true ts2 with
      | none => .fail .AssertFailed s1
      | some (propertyCount, ts3) =>
        match readToken .SequenceStart true ts3 with
        | none => .fail .AssertFailed s1
        | some ts4 =>
          let parsed := parsePropertyRecords C propertyCount false ts4
          let s2 := { s1 with m_propertyRecordList := s1.m_propertyRecordList ++ parsed.1 }
          match parsed.2 with
          | none => .fail .AssertFailed s2
          | some ts5 =>
            match readToken .SequenceEnd false ts5 with
            | none => .fail .AssertFailed s2
            | some ts6 =>
              match readToken .RecordEnd false ts6 with
              | none => .fail .AssertFailed s2
              | some _ => .ok s2 ()

/-- The second loop of `InitForTTDReplay`, with `n` ids left to visit from `cpid` on: look the
id up in `pidMap` (a missing id fails the gap assertion), inflate its descriptor and pin the
record unless the pin set holds it already. -/
def pinPropertyRange (H : Host) (pidMap : Int → Option SnapPropertyRecord) :
    Nat → Int → EventLog → Outcome EventLog Unit
  | 0, _, s => .ok s ()
  | n + 1, cpid, s =>
    match pidMap cpid with
    | none => .fail .AssertFailed s
    | some spRecord =>
      let newPropertyRecord := H.InflatePropertyRecord spRecord
      let s1 :=
        if s.m_propertyRecordPinSet.contains newPropertyRecord then s
        else { s with m_propertyRecordPinSet := s.m_propertyRecordPinSet ++ [newPropertyRecord] }
      pinPropertyRange H pidMap n (cpid + 1) s1

/-- `EventLog::InitForTTDReplay` reading the stream `ts`. `pidMap` is the dictionary after the
first loop: `AddNew` leaves the entry of a key that is already present in place, so a lookup
finds the first descriptor with the id. The second loop runs for `cpid` from
`TotalNumberOfBuiltInProperties + 1` to `maxPid` inclusive. -/
def InitForTTDReplay (H : Host) (C : LogCodec) (ts : List LogToken) (s : EventLog) :
    Outcome EventLog Unit :=
  match ParseLogInto C ts s with
  | .fail f s1 => .fail f s1
  | .ok s1 _ =>
    let maxPid := s1.m_propertyRecordList.foldl (fun m r => max m r.PropertyId)
      (H.TotalNumberOfBuiltInProperties + 1)
    let pidMap := fun (pid : Int) => s1.m_propertyRecordList.find? (fun r => r.PropertyId == pid)
    pinPropertyRange H pidMap (maxPid - (H.TotalNumberOfBuiltInProperties + 1) + 1).toNat
      (H.TotalNumberOfBuiltInProperties + 1) s1

/-- A recording coordinator whose pin set holds the two custom property records 101 and 102. -/
def samplePinned : EventLog :=
  { sampleRecorded with
    m_propertyRecordPinSet := [⟨101, false, true, false, "x"⟩, ⟨102, false, true, true, "sym"⟩] }

end EventLog

end TTD

namespace TTD

namespace EventLog

/-- The breakpoint members of the coordinator: the stored breakpoint (set flag, root event time,
function time, loop time, line, column, source id) and the break-at-next-statement request. -/
def breakpointState (s : EventLog) : Bool × Int × Nat × Nat × Nat × Nat × Nat × Bool × Int :=
  (s.BPIsSet, s.BPRootEventTime, s.BPFunctionTime, s.BPLoopTime, s.BPLine, s.BPColumn,
    s.BPSourceContextId, s.BPBreakAtNextStmtInto, s.BPBreakAtNextStmtDepth)

/-- The state `BPCheckAndAction` hands to the debugger callback on a hit: the breakpoint marked
unset, its root event time reset and the break-at-next-statement request cleared. -/
def disarmed (s : EventLog) : EventLog :=
  ClearBreakpointOnNextStatement { s with BPIsSet := false, BPRootEventTime := -1 }

/-- A coordinator in debugging mode inside a top-level call, two frames deep, with a step-into
request pending and a breakpoint stored for line 7. -/
def sampleStepInto : EventLog :=
  { sampleTwoFrames with
    BPIsSet := true, BPRootEventTime := 0, BPFunctionTime := 2, BPLoopTime := 0,
    BPLine := 7, BPColumn := 4294967295, BPSourceContextId := 2,
    BPBreakAtNextStmtInto := true, BPBreakAtNextStmtDepth := 2 }

/-- The sample host with a debugger callback that asks for a restart at event time 3. -/
def sampleAbortHost : Host :=
  { sampleHost with BPDbgCallback := fun s => (s, false, 3, some "restart") }

end EventLog

end TTD

namespace TTD

namespace EventLog

/-! ## Invariants of recording, replay and call tracking -/

/-- The number of recording calls (`Record*` and `DoSnapshotExtract`) in a call sequence. -/
def recordCalls : List LogOp → Nat
  | [] => 0
  | .mode _ :: rest => recordCalls rest
  | .record _ :: rest => recordCalls rest + 1

/-- Dense event times: the entry at index `i` of the chronological list has event time `i` and
restores to its own event time, and the time counter is the number of entries. -/
def DenseInv (s : EventLog) : Prop :=
  (∀ (i : Nat) (e : EventLogEntry), s.m_events[i]? = some e →
    e.GetEventTime = i ∧ restoreTimeOf e = e.GetEventTime) ∧
  s.m_eventTimeCtr = s.m_events.length

/-- The event times of a list are consecutive integers. -/
def Consecutive (l : List EventLogEntry) : Prop :=
  ∀ (k : Nat) (a b : EventLogEntry), l[k]? = some a → l[k + 1]? = some b →
    b.GetEventTime = a.GetEventTime + 1

/-- The cursor is null, or on an entry whose event time is the time counter (what the "Out of
Sync" assertion of every `Replay*` call tests). -/
def InSync (s : EventLog) : Prop :=
  ∀ e, currentEntry s = some e → e.GetEventTime = s.m_eventTimeCtr

/-- The calls that touch the return/exception frame flags, and the mode calls that enable
them. -/
inductive TrackOp where
  | mode (op : ModeOp)
  | call (op : CallOp)
  | ResetCallStackForTopLevelCall (topLevelCallbackEventTime hostCallbackId : Int)
  | ClearReturnAndExceptionFrames
  deriving DecidableEq, Repr

/-- Perform one call-tracking call. -/
def applyTrackOp (H : Host) (op : TrackOp) (s : EventLog) : Outcome EventLog Unit :=
  match op with
  | .mode m => applyModeOp H m s
  | .call c => applyCallOp H c s
  | .ResetCallStackForTopLevelCall tl hid => ResetCallStackForTopLevelCall tl hid s
  | .ClearReturnAndExceptionFrames => .ok (ClearReturnAndExceptionFrames s) ()

/-- Perform a sequence of call-tracking calls, stopping at the first one that does not
return. -/
def runTrackOps (H : Host) : List TrackOp → EventLog → Outcome EventLog Unit
  | [], s => .ok s ()
  | op :: rest, s =>
    match applyTrackOp H op s with
    | .ok s1 _ => runTrackOps H rest s1
    | .fail f s1 => .fail f s1

/-- At most one of the immediate-return and immediate-exception flags is set. -/
def FlagsExclusive (s : EventLog) : Prop :=
  ¬ (HasImmediateReturnFrame s = true ∧ HasImmediateExceptionFrame s = true)

end EventLog

end TTD

namespace TTD

namespace EventLog

/-! ## Statement tracking (build with `ENABLE_TTD_DEBUGGING`) -/

/-- `(int)bytecodeOffset`: a `uint` reinterpreted as a signed 32-bit integer. -/
def toInt32 (n : Nat) : Int :=
  if n % 2 ^ 32 < 2 ^ 31 then ((n % 2 ^ 32 : Nat) : Int) else ((n % 2 ^ 32 : Nat) : Int) - 2 ^ 32

/-- `(uint32)x`: an `int` reinterpreted as an unsigned 32-bit integer. -/
def toUInt32 (x : Int) : Nat := (x % 2 ^ 32).toNat

/-- The top frame as `UpdateCurrentStatementInfo` leaves it when it has moved to statement
`cIndex` with bytecode span `span`. -/
def enterStatement (cfinfo : SingleCallCounter) (cIndex : Int) (span : Int × Int) :
    SingleCallCounter :=
  { cfinfo with
    LastStatementIndex := cfinfo.CurrentStatementIndex,
    LastStatementLoopTime := cfinfo.CurrentStatementLoopTime,
    CurrentStatementIndex := cIndex,
    CurrentStatementLoopTime := cfinfo.LoopTime,
    CurrentStatementBytecodeMin := toUInt32 span.1,
    CurrentStatementBytecodeMax := toUInt32 span.2 }

/-- `EventLog::UpdateCurrentStatementInfo` for a `uint` offset (a value below 2^32); the frame
`cfinfo` is a reference to the top element of the call stack, which the assignments update in
place. -/
def UpdateCurrentStatementInfo (H : Host) (bytecodeOffset : Nat) (s : EventLog) :
    Outcome EventLog Bool :=
  match GetTopCallCounter s with
  | none => .fail .AssertFailed s
  | some cfinfo =>
    if cfinfo.CurrentStatementBytecodeMin ≤ bytecodeOffset ∧
        bytecodeOffset ≤ cfinfo.CurrentStatementBytecodeMax then
      .ok s false
    else
      let cIndex := H.GetEnclosingStatementIndexFromByteCode cfinfo.Function bytecodeOffset
      if cIndex = -1 then .fail .AssertFailed s
      else
        let span := H.GetStatementSpan cfinfo.Function cIndex
        let newstmt := decide (cIndex ≠ cfinfo.CurrentStatementIndex) &&
          decide (span.1 ≤ toInt32 bytecodeOffset) && decide (toInt32 bytecodeOffset ≤ span.2)
        if newstmt then
          .ok { s with m_callStack := s.m_callStack.dropLast ++ [enterStatement cfinfo cIndex span] }
            true
        else .ok s false

end EventLog

end TTD

namespace TTD

namespace EventLog

/-- An engine whose execution of a logged action enters a function (`PushCallEvent`) and runs
the breakpoint check at its first statement (`BPCheckAndAction`) against the debugger callback
of `sampleAbortHost`; a normal return leaves the function through `PopCallEvent`, an abort
unwinds through the frame's armed guard and is passed on. -/
def breakingEngine (_a : JsRTActionLogEntry) (s : EventLog) : Outcome EventLog Unit :=
  match PushCallEvent sampleAbortHost 1 s with
  | .fail f s1 => .fail f s1
  | .ok s1 _ =>
    match BPCheckAndAction sampleAbortHost s1 with
    | .ok s2 _ => PopCallEvent sampleAbortHost s2
    | .fail f s2 =>
      match TTDExceptionFramePopper.destroy sampleAbortHost { m_log := true } s2 with
      | .ok s3 _ => .fail f s3
      | .fail f3 s3 => .fail f3 s3

/-- The sample host with the engine `breakingEngine`. -/
def sampleBreakingHost : Host :=
  { sampleAbortHost with ExecuteAction := breakingEngine }

/-- The sample seek log with a step-into request pending. -/
def sampleSeekStepInto : EventLog :=
  { sampleSeekLog with BPBreakAtNextStmtInto := true, BPBreakAtNextStmtDepth := 0 }

end EventLog

end TTD

/-! # Theorems -/

namespace TTD

namespace EventLog

/-! ## Mode stack: auxiliary facts -/

/-- The bitwise union of a mode stack. -/
theorem foldl_or_cons (m : Nat) (rest : List Nat) :
    (m :: rest).foldl (fun a b => a ||| b) 0 = rest.foldl (fun a b => a ||| b) m := by
  simp [List.foldl]

/-- Whenever the loop of `UpdateComputedMode` completes, its result is the running mode or-ed
with the remaining entries; started at index 0 on a non-empty stack it is the union of the
stack. -/
theorem computeModeFrom_sound (E : TTDModeEnum) :
    ∀ (st : List Nat) (i cm r : Nat), computeModeFrom E st i cm = some r →
      (i ≠ 0 → r = st.foldl (fun a b => a ||| b) cm) ∧
      (i = 0 → st ≠ [] → r = st.foldl (fun a b => a ||| b) 0) := by
  intro st
  induction st with
  | nil =>
    intro i cm r h
    simp [computeModeFrom] at h
    subst h
    simp
  | cons m rest ih =>
    intro i cm r h
    unfold computeModeFrom at h
    by_cases hb : E.isBaseMode m = true
    · simp only [hb, if_true] at h
      by_cases hi : i = 0
      · simp only [hi, if_true] at h
        have := (ih (0 + 1) m r h).1 (by omega)
        subst hi
        refine ⟨fun h0 => absurd rfl h0, fun _ _ => ?_⟩
        rw [foldl_or_cons]; exact this
      · simp [hi] at h
    · simp only [hb] at h
      by_cases hx : m = E.ExcludedExecution
      · by_cases hi : i = 0
        · simp [hx, hi] at h
        · simp only [hx, if_true, ne_eq, hi, not_false_eq_true] at h
          have := (ih (i + 1) (cm ||| E.ExcludedExecution) r h).1 (by omega)
          refine ⟨fun _ => ?_, fun h0 => absurd h0 hi⟩
          simp only [List.foldl, hx]; exact this
      · simp [hx] at h

/-- On a well-formed enumeration the overlay is not a base mode. -/
theorem excluded_not_base (E : TTDModeEnum) (hwf : E.WellFormed) :
    E.isBaseMode E.ExcludedExecution = false := by
  obtain ⟨_, _, _, _, hx, h1, h2, h3, h4, h5, h6, h7, h8, h9, h10⟩ := hwf
  simp only [TTDModeEnum.isBaseMode, Bool.or_eq_false_iff, beq_eq_false_iff_ne, ne_eq]
  refine ⟨⟨⟨?_, ?_⟩, ?_⟩, ?_⟩ <;> intro he
  · rw [← he, Nat.and_self] at h4; exact hx h4
  · rw [← he, Nat.and_self] at h7; exact hx h7
  · rw [← he, Nat.and_self] at h9; exact hx h9
  · rw [← he, Nat.and_self] at h10; exact hx h10

/-- The loop of `UpdateComputedMode` passes over a run of overlays above index 0. -/
theorem computeModeFrom_overlays (E : TTDModeEnum) (hwf : E.WellFormed) :
    ∀ (rest : List Nat) (i cm : Nat), i ≠ 0 →
      rest.all (fun m => m == E.ExcludedExecution) = true →
      (computeModeFrom E rest i cm).isSome = true := by
  intro rest
  induction rest with
  | nil => intro i cm _ _; simp [computeModeFrom]
  | cons m rest ih =>
    intro i cm hi hall
    simp only [List.all_cons, Bool.and_eq_true, beq_iff_eq] at hall
    obtain ⟨hm, hrest⟩ := hall
    subst hm
    unfold computeModeFrom
    simp only [excluded_not_base E hwf, Bool.false_eq_true, if_false, if_true, ne_eq, hi,
      not_false_eq_true]
    exact ih (i + 1) _ (by omega) hrest

/-- On a valid mode stack `UpdateComputedMode` raises no assertion and computes the union. -/
theorem computeModeFrom_valid (E : TTDModeEnum) (hwf : E.WellFormed) (st : List Nat)
    (hv : validModeStack E st = true) :
    computeModeFrom E st 0 E.Invalid = some (st.foldl (fun a b => a ||| b) 0) := by
  cases st with
  | nil => simp [validModeStack] at hv
  | cons b rest =>
    simp only [validModeStack, Bool.and_eq_true] at hv
    have hsome : (computeModeFrom E (b :: rest) 0 E.Invalid).isSome = true := by
      unfold computeModeFrom
      simp only [hv.1, if_true]
      exact computeModeFrom_overlays E hwf rest (0 + 1) b (by omega) hv.2
    obtain ⟨r, hr⟩ := Option.isSome_iff_exists.mp hsome
    rw [hr, (computeModeFrom_sound E _ _ _ _ hr).2 rfl (by simp)]

/-- `UpdateComputedMode` on a valid stack: it returns, leaves the stack alone and stores the
union of the stack. -/
theorem UpdateComputedMode_valid (H : Host) (hwf : H.modes.WellFormed) (s : EventLog)
    (hv : validModeStack H.modes s.m_modeStack = true) :
    ∃ s1, UpdateComputedMode H s = .ok s1 () ∧ s1.m_modeStack = s.m_modeStack ∧
      s1.m_currentMode = s.m_modeStack.foldl (fun a b => a ||| b) 0 := by
  unfold UpdateComputedMode
  rw [computeModeFrom_valid H.modes hwf _ hv]
  exact ⟨_, rfl, rfl, rfl⟩

/-- Any normal return of `UpdateComputedMode` keeps the stack and, if the stack is non-empty or
`Invalid` is the empty flag set, stores the union of the stack. -/
theorem UpdateComputedMode_ok (H : Host) (s s1 : EventLog)
    (h : UpdateComputedMode H s = .ok s1 ()) :
    s1.m_modeStack = s.m_modeStack ∧
      (s.m_modeStack ≠ [] ∨ H.modes.Invalid = 0 →
        s1.m_currentMode = s.m_modeStack.foldl (fun a b => a ||| b) 0) := by
  unfold UpdateComputedMode at h
  cases hc : computeModeFrom H.modes s.m_modeStack 0 H.modes.Invalid with
  | none => rw [hc] at h; simp at h
  | some cm =>
    rw [hc] at h
    simp only [Outcome.ok.injEq, and_true] at h
    subst h
    refine ⟨rfl, fun hne => ?_⟩
    by_cases he : s.m_modeStack = []
    · rw [he] at hc
      simp only [computeModeFrom, Option.some.injEq] at hc
      cases hne with
      | inl h1 => exact absurd he h1
      | inr h0 => simp [he, ← hc, h0]
    · exact (computeModeFrom_sound _ _ _ _ _ hc).2 rfl he

end EventLog

end TTD

namespace TTD

namespace EventLog

/-- The overlay pushed on a valid stack gives a valid stack. -/
theorem validModeStack_append (E : TTDModeEnum) (st : List Nat)
    (hv : validModeStack E st = true) :
    validModeStack E (st ++ [E.ExcludedExecution]) = true := by
  cases st with
  | nil => simp [validModeStack] at hv
  | cons b rest =>
    simp only [validModeStack, Bool.and_eq_true] at hv
    simp [validModeStack, hv.1, hv.2]

/-- Replacing slot 0 of a valid stack by a base mode gives a valid stack. -/
theorem validModeStack_setItem0 (E : TTDModeEnum) (m : Nat) (st : List Nat)
    (hm : E.isBaseMode m = true) (hv : validModeStack E st = true) :
    validModeStack E (setItem0 m st) = true := by
  cases st with
  | nil => simp [validModeStack] at hv
  | cons b rest =>
    simp only [validModeStack, Bool.and_eq_true] at hv
    simp [setItem0, validModeStack, hm, hv.2]

/-- Removing the top overlay of a valid stack gives a valid stack. -/
theorem validModeStack_dropLast (E : TTDModeEnum) (hwf : E.WellFormed) (st : List Nat)
    (hv : validModeStack E st = true) (hl : st.getLast? = some E.ExcludedExecution) :
    validModeStack E st.dropLast = true := by
  cases st with
  | nil => simp [validModeStack] at hv
  | cons b rest =>
    simp only [validModeStack, Bool.and_eq_true] at hv
    cases rest with
    | nil =>
      simp only [List.getLast?_singleton, Option.some.injEq] at hl
      have := excluded_not_base E hwf
      rw [← hl, hv.1] at this
      exact absurd this (by simp)
    | cons x rest2 =>
      simp only [List.dropLast_cons₂, validModeStack, hv.1, Bool.true_and]
      rw [List.all_eq_true] at *
      intro y hy
      exact hv.2 y (List.mem_of_mem_dropLast hy)

/-- A freshly constructed coordinator satisfies the mode invariant. -/
theorem ModeInv_create (H : Host) (dir : String) : ModeInv H (create H dir) := by
  simp [ModeInv, create, validModeStack, TTDModeEnum.isBaseMode]

/-- Every mode call that returns preserves the mode invariant. -/
theorem ModeInv_applyModeOp (H : Host) (hwf : H.modes.WellFormed) (op : ModeOp)
    (s s1 : EventLog) (hinv : ModeInv H s) (h : applyModeOp H op s = .ok s1 ()) :
    ModeInv H s1 := by
  obtain ⟨hv, hc⟩ := hinv
  cases op with
  | SetGlobalMode m =>
    simp only [applyModeOp, SetGlobalMode] at h
    by_cases hm : H.modes.isBaseMode m = true
    · simp only [hm, if_true] at h
      have hv1 := validModeStack_setItem0 H.modes m _ hm hv
      obtain ⟨s2, h2, hst, hcur⟩ := UpdateComputedMode_valid H hwf
        { s with m_modeStack := setItem0 m s.m_modeStack } hv1
      rw [h2] at h
      simp only [Outcome.ok.injEq, and_true] at h
      subst h
      exact ⟨by rw [hst]; exact hv1, by rw [hcur, hst]⟩
    · simp [hm] at h
  | SetIntoDebuggingMode =>
    simp only [applyModeOp, SetIntoDebuggingMode] at h
    have hm : H.modes.isBaseMode H.modes.DebuggingEnabled = true := by
      simp [TTDModeEnum.isBaseMode]
    have hv1 := validModeStack_setItem0 H.modes _ _ hm hv
    obtain ⟨s2, h2, hst, hcur⟩ := UpdateComputedMode_valid H hwf
      { s with m_modeStack := setItem0 H.modes.DebuggingEnabled s.m_modeStack } hv1
    rw [h2] at h
    cases hctx : s2.m_ttdContext with
    | none => simp [hctx] at h
    | some c =>
      simp only [hctx, Outcome.ok.injEq, and_true] at h
      subst h
      exact ⟨by rw [hst]; exact hv1, by rw [hcur, hst]⟩
  | PushMode m =>
    simp only [applyModeOp, PushMode] at h
    by_cases hm : m = H.modes.ExcludedExecution
    · subst hm
      simp only [if_true] at h
      have hv1 := validModeStack_append H.modes _ hv
      obtain ⟨s2, h2, hst, hcur⟩ := UpdateComputedMode_valid H hwf
        { s with m_modeStack := s.m_modeStack ++ [H.modes.ExcludedExecution] } hv1
      rw [h2] at h
      simp only [Outcome.ok.injEq, and_true] at h
      subst h
      exact ⟨by rw [hst]; exact hv1, by rw [hcur, hst]⟩
    · simp [hm] at h
  | PopMode m =>
    simp only [applyModeOp, PopMode] at h
    by_cases hm : m = H.modes.ExcludedExecution
    · subst hm
      simp only [if_true] at h
      cases hl : s.m_modeStack.getLast? with
      | none => simp [hl] at h
      | some top =>
        simp only [hl] at h
        by_cases ht : top = H.modes.ExcludedExecution
        · subst ht
          simp only [if_true] at h
          have hv1 := validModeStack_dropLast H.modes hwf _ hv hl
          obtain ⟨s2, h2, hst, hcur⟩ := UpdateComputedMode_valid H hwf
            { s with m_modeStack := s.m_modeStack.dropLast } hv1
          rw [h2] at h
          simp only [Outcome.ok.injEq, and_true] at h
          subst h
          exact ⟨by rw [hst]; exact hv1, by rw [hcur, hst]⟩
        · simp [ht] at h
    · simp [hm] at h
  | StartTimeTravelOnScript ctx =>
    simp only [applyModeOp, StartTimeTravelOnScript] at h
    by_cases hn : s.m_ttdContext.isSome = true
    · simp [hn] at h
    · simp only [hn, Bool.false_eq_true, if_false, Outcome.ok.injEq, and_true] at h
      subst h
      exact ⟨hv, hc⟩

/-- The mode invariant holds after every sequence of mode calls that all return. -/
theorem ModeInv_runModeOps (H : Host) (hwf : H.modes.WellFormed) :
    ∀ (ops : List ModeOp) (s s1 : EventLog), ModeInv H s →
      runModeOps H ops s = .ok s1 () → ModeInv H s1 := by
  intro ops
  induction ops with
  | nil =>
    intro s s1 hinv h
    simp only [runModeOps, Outcome.ok.injEq, and_true] at h
    subst h; exact hinv
  | cons op rest ih =>
    intro s s1 hinv h
    simp only [runModeOps] at h
    cases hop : applyModeOp H op s with
    | fail f s2 => simp [hop] at h
    | ok s2 u =>
      cases u
      rw [hop] at h
      exact ih s2 s1 (ModeInv_applyModeOp H hwf op s s2 hinv hop) h

end EventLog

end TTD

namespace TTD

namespace EventLog

/-! ## Mode stack: the computed mode of a valid stack -/

/-- Or-ing a run of overlays into an accumulator. -/
theorem foldl_or_overlays (X : Nat) :
    ∀ (rest : List Nat) (acc : Nat), rest.all (fun m => m == X) = true →
      rest.foldl (fun a b => a ||| b) acc = if rest = [] then acc else acc ||| X := by
  intro rest
  induction rest with
  | nil => intro acc _; simp
  | cons m rest ih =>
    intro acc hall
    simp only [List.all_cons, Bool.and_eq_true, beq_iff_eq] at hall
    obtain ⟨hm, hrest⟩ := hall
    subst hm
    simp only [List.foldl, ih (acc ||| m) hrest]
    by_cases hr : rest = []
    · simp [hr]
    · simp [hr, Nat.or_assoc]

/-- A base mode of a well-formed enumeration has no overlay bit, and contains the record
(debugging) flag only if it is the record (debugging) mode. -/
theorem base_bits (E : TTDModeEnum) (hwf : E.WellFormed) (b : Nat)
    (hb : E.isBaseMode b = true) :
    b &&& E.ExcludedExecution = 0 ∧ b ≠ E.ExcludedExecution ∧
      (b &&& E.RecordEnabled = E.RecordEnabled ↔ b = E.RecordEnabled) ∧
      (b &&& E.DebuggingEnabled = E.DebuggingEnabled ↔ b = E.DebuggingEnabled) := by
  have hnb := excluded_not_base E hwf
  obtain ⟨_, hdet, hrec, hdbg, hx, h1, h2, h3, h4, h5, h6, h7, h8, h9, h10⟩ := hwf
  have hne : b ≠ E.ExcludedExecution := by
    intro he; rw [he, hnb] at hb; exact absurd hb (by simp)
  simp only [TTDModeEnum.isBaseMode, Bool.or_eq_true, beq_iff_eq] at hb
  rcases hb with ((hb | hb) | hb) | hb <;> subst hb
  · refine ⟨h4, hne, ⟨fun h => ?_, fun h => ?_⟩, ⟨fun h => ?_, fun h => ?_⟩⟩
    · rw [h2] at h; exact absurd h.symm hrec
    · rw [h, Nat.and_self]
    · rw [h3] at h; exact absurd h.symm hdbg
    · rw [h, Nat.and_self]
  · refine ⟨h7, hne, ⟨fun h => ?_, fun h => ?_⟩, ⟨fun h => ?_, fun h => ?_⟩⟩
    · rw [h5] at h; exact absurd h.symm hrec
    · rw [h, Nat.and_self]
    · rw [h6] at h; exact absurd h.symm hdbg
    · rw [h, Nat.and_self]
  · refine ⟨h9, hne, ⟨fun _ => rfl, fun _ => Nat.and_self _⟩, ⟨fun h => ?_, fun h => ?_⟩⟩
    · rw [h8] at h; exact absurd h.symm hdbg
    · rw [h, Nat.and_self]
  · refine ⟨h10, hne, ⟨fun h => ?_, fun h => ?_⟩, ⟨fun _ => rfl, fun _ => Nat.and_self _⟩⟩
    · rw [Nat.and_comm, h8] at h; exact absurd h.symm hrec
    · rw [h, Nat.and_self]

/-- The record and debug predicates read off a state that satisfies the mode invariant. -/
theorem should_perform_of_ModeInv (H : Host) (hwf : H.modes.WellFormed) (s : EventLog)
    (hinv : ModeInv H s) :
    (ShouldPerformRecordAction H s = true ↔
        s.m_modeStack.head? = some H.modes.RecordEnabled ∧
          H.modes.ExcludedExecution ∉ s.m_modeStack) ∧
      (ShouldPerformDebugAction H s = true ↔
        s.m_modeStack.head? = some H.modes.DebuggingEnabled ∧
          H.modes.ExcludedExecution ∉ s.m_modeStack) := by
  obtain ⟨hv, hc⟩ := hinv
  have hinv0 : H.modes.Invalid = 0 := hwf.1
  have hx0 : H.modes.ExcludedExecution ≠ 0 := hwf.2.2.2.2.1
  cases hst : s.m_modeStack with
  | nil => rw [hst] at hv; simp [validModeStack] at hv
  | cons b rest =>
    rw [hst] at hv hc
    simp only [validModeStack, Bool.and_eq_true] at hv
    obtain ⟨hbX, hneX, hrec, hdbg⟩ := base_bits H.modes hwf b hv.1
    rw [foldl_or_cons, foldl_or_overlays _ rest b hv.2] at hc
    by_cases hr : rest = []
    · subst hr
      simp only [if_true] at hc
      simp only [ShouldPerformRecordAction, ShouldPerformDebugAction, hc, hbX, hinv0,
        Bool.and_eq_true, beq_iff_eq, and_true, List.head?_cons, Option.some.injEq,
        List.mem_singleton, beq_self_eq_true]
      exact ⟨⟨fun h => ⟨hrec.mp h, fun h2 => hneX h2.symm⟩, fun h => hrec.mpr h.1⟩,
        ⟨fun h => ⟨hdbg.mp h, fun h2 => hneX h2.symm⟩, fun h => hdbg.mpr h.1⟩⟩
    · simp only [hr, if_false] at hc
      have hmem : H.modes.ExcludedExecution ∈ b :: rest := by
        cases rest with
        | nil => exact absurd rfl hr
        | cons x rest2 =>
          simp only [List.all_cons, Bool.and_eq_true, beq_iff_eq] at hv
          simp [hv.2.1]
      have hand : (b ||| H.modes.ExcludedExecution) &&& H.modes.ExcludedExecution
          = H.modes.ExcludedExecution := by
        rw [Nat.and_comm, Nat.and_or_distrib_left, Nat.and_comm _ b, hbX, Nat.and_self, Nat.zero_or]
      simp only [ShouldPerformRecordAction, ShouldPerformDebugAction, hc, hand, hinv0,
        Bool.and_eq_true, beq_iff_eq, hx0, and_false, false_iff, not_and, not_not]
      exact ⟨fun _ => hmem, fun _ => hmem⟩

/-- A valid stack extended by any number of overlays is valid. -/
theorem validModeStack_append_replicate (E : TTDModeEnum) (st : List Nat)
    (hv : validModeStack E st = true) (d : Nat) :
    validModeStack E (st ++ List.replicate d E.ExcludedExecution) = true := by
  cases st with
  | nil => simp [validModeStack] at hv
  | cons b rest =>
    simp only [validModeStack, Bool.and_eq_true] at hv
    simp only [List.cons_append, validModeStack, hv.1, Bool.true_and, List.all_append, hv.2]
    simp

/-- Well-nested overlay calls on a valid stack carrying `d` open overlays all return and leave
the stack below those overlays with its computed mode. -/
theorem runOverlayOps_nested (H : Host) (hwf : H.modes.WellFormed) (st : List Nat)
    (hv : validModeStack H.modes st = true) :
    ∀ (ops : List OverlayOp) (d : Nat) (s : EventLog),
      s.m_modeStack = st ++ List.replicate d H.modes.ExcludedExecution →
      s.m_currentMode = s.m_modeStack.foldl (fun a b => a ||| b) 0 →
      wellNested d ops = true →
      ∃ s1, runOverlayOps H ops s = .ok s1 () ∧ s1.m_modeStack = st ∧
        s1.m_currentMode = st.foldl (fun a b => a ||| b) 0 := by
  intro ops
  induction ops with
  | nil =>
    intro d s hs hc hn
    simp only [wellNested, beq_iff_eq] at hn
    subst hn
    simp only [List.replicate_zero, List.append_nil] at hs
    exact ⟨s, rfl, hs, by rw [hc, hs]⟩
  | cons op rest ih =>
    intro d s hs hc hn
    cases op with
    | push =>
      simp only [wellNested] at hn
      have hstk : s.m_modeStack ++ [H.modes.ExcludedExecution]
          = st ++ List.replicate (d + 1) H.modes.ExcludedExecution := by
        rw [hs, List.replicate_succ', List.append_assoc]
      have hv1 : validModeStack H.modes
          ({ s with m_modeStack := s.m_modeStack ++ [H.modes.ExcludedExecution] }).m_modeStack
          = true := by
        show validModeStack H.modes (s.m_modeStack ++ [H.modes.ExcludedExecution]) = true
        rw [hstk]; exact validModeStack_append_replicate H.modes st hv (d + 1)
      obtain ⟨s2, h2, hst2, hcur2⟩ := UpdateComputedMode_valid H hwf _ hv1
      obtain ⟨s3, h3, hst3, hcur3⟩ := ih (d + 1) s2 (by rw [hst2]; exact hstk)
        (by rw [hcur2, hst2]) hn
      refine ⟨s3, ?_, hst3, hcur3⟩
      simp only [runOverlayOps, PushMode, if_true, h2]
      exact h3
    | pop =>
      cases d with
      | zero => simp [wellNested] at hn
      | succ d =>
        simp only [wellNested] at hn
        have hstk : s.m_modeStack
            = (st ++ List.replicate d H.modes.ExcludedExecution) ++ [H.modes.ExcludedExecution] := by
          rw [hs, List.replicate_succ', List.append_assoc]
        have hlast : s.m_modeStack.getLast? = some H.modes.ExcludedExecution := by
          rw [hstk]; simp
        have hdrop : s.m_modeStack.dropLast
            = st ++ List.replicate d H.modes.ExcludedExecution := by
          rw [hstk]; simp
        have hv1 : validModeStack H.modes
            ({ s with m_modeStack := s.m_modeStack.dropLast }).m_modeStack = true := by
          show validModeStack H.modes s.m_modeStack.dropLast = true
          rw [hdrop]; exact validModeStack_append_replicate H.modes st hv d
        obtain ⟨s2, h2, hst2, hcur2⟩ := UpdateComputedMode_valid H hwf _ hv1
        obtain ⟨s3, h3, hst3, hcur3⟩ := ih d s2 (by rw [hst2]; exact hdrop)
          (by rw [hcur2, hst2]) hn
        refine ⟨s3, ?_, hst3, hcur3⟩
        simp only [runOverlayOps, PopMode, if_true, hlast, h2]
        exact h3

end EventLog

end TTD

namespace TTD

namespace EventLog

/-! ## Mode stack: the claims -/

/-- C3 (mode stack symmetry): on a coordinator whose mode stack is valid and whose computed mode
is the one computed for that stack, every well-nested sequence of
`PushMode(ExcludedExecution)` / `PopMode(ExcludedExecution)` calls returns, and afterwards the
mode stack and the computed mode are what they were before the sequence. -/
theorem mode_stack_symmetry (H : Host) (hwf : H.modes.WellFormed) (s : EventLog)
    (ops : List OverlayOp) (hinv : ModeInv H s) (hn : wellNested 0 ops = true) :
    ∃ s1, runOverlayOps H ops s = .ok s1 () ∧ s1.m_modeStack = s.m_modeStack ∧
      s1.m_currentMode = s.m_currentMode := by
  obtain ⟨s1, h1, h2, h3⟩ := runOverlayOps_nested H hwf s.m_modeStack hinv.1 ops 0 s
    (by simp) hinv.2 hn
  exact ⟨s1, h1, h2, by rw [h3, ← hinv.2]⟩

/-- Witness for C3: two nested push/pop pairs on a coordinator in record mode. -/
theorem mode_stack_symmetry_witness :
    ∃ s1, runOverlayOps sampleHost [.push, .push, .pop, .pop, .push, .pop]
        { create sampleHost "log" with m_modeStack := [4], m_currentMode := 4 } = .ok s1 () ∧
      s1.m_modeStack = [4] ∧ s1.m_currentMode = 4 :=
  mode_stack_symmetry sampleHost (by decide)
    { create sampleHost "log" with m_modeStack := [4], m_currentMode := 4 }
    [.push, .push, .pop, .pop, .push, .pop] ⟨by decide, by decide⟩ (by decide)

/-- C4 (an unmatched pop is rejected): `PopMode(m)` ends in an assertion failure, with the
coordinator state (the mode stack in particular) exactly as it was, whenever `m` is not the
`ExcludedExecution` overlay or the top of the mode stack is not an `ExcludedExecution` overlay;
a stack holding only its base mode is such a case. -/
theorem PopMode_unmatched_rejected (H : Host) (m : Nat) (s : EventLog)
    (h : m ≠ H.modes.ExcludedExecution ∨
      s.m_modeStack.getLast? ≠ some H.modes.ExcludedExecution) :
    PopMode H m s = .fail .AssertFailed s := by
  unfold PopMode
  by_cases hm : m = H.modes.ExcludedExecution
  · subst hm
    simp only [if_true]
    cases hl : s.m_modeStack.getLast? with
    | none => rfl
    | some top =>
      have : top ≠ H.modes.ExcludedExecution := by
        intro ht
        rcases h with h | h
        · exact h rfl
        · exact h (by rw [hl, ht])
      simp [this]
  · simp [hm]

/-- Witness for C4: popping the overlay from the stack of a fresh coordinator, which holds only
the base mode. -/
theorem PopMode_unmatched_rejected_witness :
    (sampleHost.modes.ExcludedExecution ≠ sampleHost.modes.ExcludedExecution ∨
      (create sampleHost "log").m_modeStack.getLast? ≠ some sampleHost.modes.ExcludedExecution) ∧
    PopMode sampleHost sampleHost.modes.ExcludedExecution (create sampleHost "log")
      = .fail .AssertFailed (create sampleHost "log") :=
  ⟨Or.inr (by decide),
    PopMode_unmatched_rejected sampleHost _ (create sampleHost "log") (Or.inr (by decide))⟩

/-- C5: in every state reached from a fresh coordinator through mode calls that return,
`ShouldPerformRecordAction()` holds exactly when the base mode at index 0 is `RecordEnabled` and
no `ExcludedExecution` overlay is on the stack, and `ShouldPerformDebugAction()` holds exactly
when the base mode is `DebuggingEnabled` and no overlay is on the stack. -/
theorem should_perform_iff_base_and_no_overlay (H : Host) (hwf : H.modes.WellFormed)
    (dir : String) (ops : List ModeOp) (s : EventLog)
    (h : runModeOps H ops (create H dir) = .ok s ()) :
    (ShouldPerformRecordAction H s = true ↔
        s.m_modeStack.head? = some H.modes.RecordEnabled ∧
          H.modes.ExcludedExecution ∉ s.m_modeStack) ∧
      (ShouldPerformDebugAction H s = true ↔
        s.m_modeStack.head? = some H.modes.DebuggingEnabled ∧
          H.modes.ExcludedExecution ∉ s.m_modeStack) :=
  should_perform_of_ModeInv H hwf s
    (ModeInv_runModeOps H hwf ops _ s (ModeInv_create H dir) h)

/-- Witness for C5: record mode with one overlay pushed and popped again. -/
theorem should_perform_iff_base_and_no_overlay_witness :
    runModeOps sampleHost [.SetGlobalMode 4, .PushMode 32, .PopMode 32] (create sampleHost "log")
        = .ok { create sampleHost "log" with m_modeStack := [4], m_currentMode := 4 } () ∧
      (ShouldPerformRecordAction sampleHost
          { create sampleHost "log" with m_modeStack := [4], m_currentMode := 4 } = true ↔
        [4].head? = some sampleHost.modes.RecordEnabled ∧
          sampleHost.modes.ExcludedExecution ∉ [4]) :=
  ⟨by decide,
    (should_perform_iff_base_and_no_overlay sampleHost (by decide) "log"
      [.SetGlobalMode 4, .PushMode 32, .PopMode 32]
      { create sampleHost "log" with m_modeStack := [4], m_currentMode := 4 } (by decide)).1⟩

/-- C6 (mode stack invariant): after every sequence of `SetGlobalMode`, `SetIntoDebuggingMode`,
`PushMode` and `PopMode` calls (and context attachments) that all return, started on a fresh
coordinator, the mode stack is non-empty, its entry at index 0 is one of `Disabled`, `Detached`,
`RecordEnabled`, `DebuggingEnabled`, and every entry above it is `ExcludedExecution`. -/
theorem mode_stack_invariant (H : Host) (hwf : H.modes.WellFormed) (dir : String)
    (ops : List ModeOp) (s : EventLog) (h : runModeOps H ops (create H dir) = .ok s ()) :
    ∃ b rest, s.m_modeStack = b :: rest ∧
      (b = H.modes.Disabled ∨ b = H.modes.Detached ∨ b = H.modes.RecordEnabled ∨
        b = H.modes.DebuggingEnabled) ∧
      ∀ m ∈ rest, m = H.modes.ExcludedExecution := by
  have hv := (ModeInv_runModeOps H hwf ops _ s (ModeInv_create H dir) h).1
  cases hst : s.m_modeStack with
  | nil => rw [hst] at hv; simp [validModeStack] at hv
  | cons b rest =>
    rw [hst] at hv
    simp only [validModeStack, Bool.and_eq_true, TTDModeEnum.isBaseMode, Bool.or_eq_true,
      beq_iff_eq, List.all_eq_true] at hv
    refine ⟨b, rest, rfl, ?_, hv.2⟩
    rcases hv.1 with ((h1 | h1) | h1) | h1
    · exact Or.inl h1
    · exact Or.inr (Or.inl h1)
    · exact Or.inr (Or.inr (Or.inl h1))
    · exact Or.inr (Or.inr (Or.inr h1))

/-- Witness for C6: attach a context, switch to debugging and push two overlays. -/
theorem mode_stack_invariant_witness :
    runModeOps sampleHost
        [.StartTimeTravelOnScript ⟨7, 0⟩, .SetIntoDebuggingMode, .PushMode 32, .PushMode 32]
        (create sampleHost "log")
      = .ok { create sampleHost "log" with
                m_modeStack := [8, 32, 32], m_currentMode := 40,
                m_ttdContext := some ⟨7, 40⟩ } () ∧
    ∃ b rest, ({ create sampleHost "log" with
                m_modeStack := [8, 32, 32], m_currentMode := 40,
                m_ttdContext := some ⟨7, 40⟩ } : EventLog).m_modeStack = b :: rest ∧
      (b = sampleHost.modes.Disabled ∨ b = sampleHost.modes.Detached ∨
        b = sampleHost.modes.RecordEnabled ∨ b = sampleHost.modes.DebuggingEnabled) ∧
      ∀ m ∈ rest, m = sampleHost.modes.ExcludedExecution :=
  ⟨by decide, mode_stack_invariant sampleHost (by decide) "log"
    [.StartTimeTravelOnScript ⟨7, 0⟩, .SetIntoDebuggingMode, .PushMode 32, .PushMode 32] _
    (by decide)⟩

/-- C7: whenever `SetGlobalMode`, `PushMode` or `PopMode` returns (on a valid mode stack, and in
fact on any stack), the computed mode `m_currentMode` is the bitwise OR of all entries of the
resulting mode stack. -/
theorem computed_mode_is_union (H : Host) (hwf : H.modes.WellFormed) (s s1 : EventLog)
    (m : Nat)
    (h : SetGlobalMode H m s = .ok s1 () ∨ PushMode H m s = .ok s1 () ∨
      PopMode H m s = .ok s1 ()) :
    s1.m_currentMode = s1.m_modeStack.foldl (fun a b => a ||| b) 0 := by
  have hfin : ∀ (t : EventLog), UpdateComputedMode H t = .ok s1 () →
      s1.m_currentMode = s1.m_modeStack.foldl (fun a b => a ||| b) 0 := by
    intro t ht
    obtain ⟨h1, h2⟩ := UpdateComputedMode_ok H t s1 ht
    rw [h1]; exact h2 (Or.inr hwf.1)
  rcases h with h | h | h
  · unfold SetGlobalMode at h
    by_cases hm : H.modes.isBaseMode m = true
    · simp only [hm, if_true] at h; exact hfin _ h
    · simp [hm] at h
  · unfold PushMode at h
    by_cases hm : m = H.modes.ExcludedExecution
    · simp only [hm, if_true] at h; exact hfin _ h
    · simp [hm] at h
  · unfold PopMode at h
    by_cases hm : m = H.modes.ExcludedExecution
    · simp only [hm, if_true] at h
      cases hl : s.m_modeStack.getLast? with
      | none => simp [hl] at h
      | some top =>
        simp only [hl] at h
        by_cases ht : top = H.modes.ExcludedExecution
        · simp only [ht, if_true] at h; exact hfin _ h
        · simp [ht] at h
    · simp [hm] at h

/-- Witness for C7: pushing the overlay in record mode gives the union `0x4 ||| 0x20`. -/
theorem computed_mode_is_union_witness :
    PushMode sampleHost 32 { create sampleHost "log" with m_modeStack := [4], m_currentMode := 4 }
        = .ok { create sampleHost "log" with m_modeStack := [4, 32], m_currentMode := 36 } () ∧
      ({ create sampleHost "log" with m_modeStack := [4, 32], m_currentMode := 36 } :
          EventLog).m_currentMode
        = ({ create sampleHost "log" with m_modeStack := [4, 32], m_currentMode := 36 } :
          EventLog).m_modeStack.foldl (fun a b => a ||| b) 0 :=
  ⟨by decide, computed_mode_is_union sampleHost (by decide)
    { create sampleHost "log" with m_modeStack := [4], m_currentMode := 4 } _ 32
    (Or.inr (Or.inl (by decide)))⟩

end EventLog

end TTD

namespace TTD

namespace EventLog

/-! ## Recording -/

/-- What `logEvent` does to the list and the counter. -/
theorem logEvent_events (payload : EventPayload) (s : EventLog) :
    (logEvent payload s).m_events = s.m_events ++ [⟨s.m_eventTimeCtr, payload⟩] ∧
      (logEvent payload s).m_eventTimeCtr = s.m_eventTimeCtr + 1 :=
  ⟨rfl, rfl⟩

/-- Every recording call that returns has appended one entry through `logEvent`. -/
theorem applyRecordOp_ok (H : Host) (op : RecordOp) (s s1 : EventLog)
    (h : applyRecordOp H op s = .ok s1 ()) : ∃ payload, s1 = logEvent payload s := by
  cases op <;>
    simp only [applyRecordOp, RecordDateTimeEvent, RecordDateStringEvent,
      RecordExternalEntropyRandomEvent, RecordPropertyEnumEvent, RecordSymbolCreationEvent,
      RecordExternalCallBeginEvent, RecordExternalCallEndEvent, RecordJsRTAllocateInt,
      RecordJsRTAllocateDouble, RecordJsRTVarConversion, RecordGetAndClearException,
      RecordGetProperty, RecordJsRTCallbackOperation, RecordCodeParse, RecordJsRTCallFunction,
      DoSnapshotExtract] at h
  all_goals (repeat' (split at h))
  all_goals
    first
    | (simp only [Outcome.ok.injEq, and_true] at h; exact ⟨_, h.symm⟩)
    | (simp at h)

/-- `UpdateComputedMode` touches only the computed mode and the context's mirror of it. -/
theorem UpdateComputedMode_frame (H : Host) (s s1 : EventLog)
    (h : UpdateComputedMode H s = .ok s1 ()) :
    s1.m_events = s.m_events ∧ s1.m_eventTimeCtr = s.m_eventTimeCtr := by
  unfold UpdateComputedMode at h
  split at h
  · simp at h
  · simp only [Outcome.ok.injEq, and_true] at h
    subst h
    exact ⟨rfl, rfl⟩

/-- Mode calls leave the event list and the time counter alone. -/
theorem applyModeOp_frame (H : Host) (op : ModeOp) (s s1 : EventLog)
    (h : applyModeOp H op s = .ok s1 ()) :
    s1.m_events = s.m_events ∧ s1.m_eventTimeCtr = s.m_eventTimeCtr := by
  cases op with
  | SetGlobalMode m =>
    simp only [applyModeOp, SetGlobalMode] at h
    split at h
    · exact (UpdateComputedMode_frame H _ s1 h :)
    · simp at h
  | SetIntoDebuggingMode =>
    simp only [applyModeOp, SetIntoDebuggingMode] at h
    split at h
    · simp at h
    · rename_i s2 u hu
      split at h
      · simp at h
      · simp only [Outcome.ok.injEq, and_true] at h
        subst h
        exact (UpdateComputedMode_frame H _ s2 hu :)
  | PushMode m =>
    simp only [applyModeOp, PushMode] at h
    split at h
    · exact (UpdateComputedMode_frame H _ s1 h :)
    · simp at h
  | PopMode m =>
    simp only [applyModeOp, PopMode] at h
    split at h
    · split at h
      · simp at h
      · split at h
        · exact (UpdateComputedMode_frame H _ s1 h :)
        · simp at h
    · simp at h
  | StartTimeTravelOnScript ctx =>
    simp only [applyModeOp, StartTimeTravelOnScript] at h
    split at h
    · simp at h
    · simp only [Outcome.ok.injEq, and_true] at h
      subst h
      exact ⟨rfl, rfl⟩

/-- Appending through `logEvent` preserves the recording invariant. -/
theorem TimeInv_logEvent (payload : EventPayload) (s : EventLog) (hinv : TimeInv s) :
    TimeInv (logEvent payload s) := by
  obtain ⟨hp, hlt⟩ := hinv
  obtain ⟨he, hc⟩ := logEvent_events payload s
  refine ⟨?_, ?_⟩
  · rw [he, List.pairwise_append]
    refine ⟨hp, List.pairwise_singleton _ _, ?_⟩
    intro a ha b hb
    simp only [List.mem_singleton] at hb
    subst hb
    exact hlt a ha
  · intro e hmem
    rw [he] at hmem
    rw [hc]
    simp only [List.mem_append, List.mem_singleton] at hmem
    rcases hmem with hm | hm
    · have := hlt e hm; omega
    · subst hm; simp [EventLogEntry.GetEventTime]

/-- The recording invariant holds after every sequence of mode and recording calls that all
return. -/
theorem TimeInv_runLogOps (H : Host) :
    ∀ (ops : List LogOp) (s s1 : EventLog), TimeInv s →
      runLogOps H ops s = .ok s1 () → TimeInv s1 := by
  intro ops
  induction ops with
  | nil =>
    intro s s1 hinv h
    simp only [runLogOps, Outcome.ok.injEq, and_true] at h
    subst h; exact hinv
  | cons op rest ih =>
    intro s s1 hinv h
    cases op with
    | mode m =>
      simp only [runLogOps] at h
      cases hop : applyModeOp H m s with
      | fail f s2 => simp [hop] at h
      | ok s2 u =>
        cases u
        rw [hop] at h
        obtain ⟨h1, h2⟩ := applyModeOp_frame H m s s2 hop
        exact ih s2 s1 ⟨by rw [h1]; exact hinv.1, by rw [h1, h2]; exact hinv.2⟩ h
    | record r =>
      simp only [runLogOps] at h
      cases hop : applyRecordOp H r s with
      | fail f s2 => simp [hop] at h
      | ok s2 u =>
        cases u
        rw [hop] at h
        obtain ⟨payload, hp⟩ := applyRecordOp_ok H r s s2 hop
        exact ih s2 s1 (hp ▸ TimeInv_logEvent payload s hinv) h

end EventLog

end TTD

namespace TTD

namespace EventLog

/-- C1 (time monotonicity): in every log built from a freshly constructed coordinator by a
sequence of `Record*` and `DoSnapshotExtract` calls (interleaved with the mode calls that
enable them) that all return, each entry of the chronological list has a strictly smaller event
time than the entry that follows it. -/
theorem event_times_strictly_increasing (H : Host) (dir : String) (ops : List LogOp)
    (s : EventLog) (h : runLogOps H ops (create H dir) = .ok s ()) :
    ∀ (i : Nat) (hi : i + 1 < s.m_events.length),
      (s.m_events[i]).GetEventTime < (s.m_events[i + 1]).GetEventTime := by
  have hinv : TimeInv (create H dir) := by
    simp [TimeInv, create]
  have hp := (TimeInv_runLogOps H ops _ s hinv h).1
  intro i hi
  exact List.pairwise_iff_getElem.mp hp i (i + 1) (by omega) hi (by omega)

/-- Witness for C1: the sample recording session yields five entries with times 0..4. -/
theorem event_times_strictly_increasing_witness :
    runLogOps sampleHost sampleRecording (create sampleHost "log") = .ok sampleRecorded () ∧
      ∀ (i : Nat) (hi : i + 1 < sampleRecorded.m_events.length),
        (sampleRecorded.m_events[i]).GetEventTime
          < (sampleRecorded.m_events[i + 1]).GetEventTime :=
  ⟨by decide, event_times_strictly_increasing sampleHost "log" sampleRecording sampleRecorded
    (by decide)⟩

/-- C20 (the log is append-only): every `Record*` call and every `DoSnapshotExtract` call that
returns has added exactly one entry, placed after all previously existing entries (which are
unchanged in number, order, event times and payloads), with event time equal to the value the
time counter had before the call, and has advanced the time counter by exactly one. -/
theorem log_is_append_only (H : Host) (op : RecordOp) (s s1 : EventLog)
    (h : applyRecordOp H op s = .ok s1 ()) :
    ∃ e : EventLogEntry, s1.m_events = s.m_events ++ [e] ∧
      e.GetEventTime = s.m_eventTimeCtr ∧ s1.m_eventTimeCtr = s.m_eventTimeCtr + 1 := by
  obtain ⟨payload, hp⟩ := applyRecordOp_ok H op s s1 h
  subst hp
  exact ⟨⟨s.m_eventTimeCtr, payload⟩, rfl, rfl, rfl⟩

/-- Witness for C20: a symbol creation recorded after the sample session becomes entry 5 with
event time 5. -/
theorem log_is_append_only_witness :
    applyRecordOp sampleHost (.SymbolCreationEvent 3) sampleRecorded
        = .ok (logEvent (.SymbolCreation 3) sampleRecorded) () ∧
      ∃ e : EventLogEntry,
        (logEvent (.SymbolCreation 3) sampleRecorded).m_events = sampleRecorded.m_events ++ [e] ∧
        e.GetEventTime = sampleRecorded.m_eventTimeCtr ∧
        (logEvent (.SymbolCreation 3) sampleRecorded).m_eventTimeCtr
          = sampleRecorded.m_eventTimeCtr + 1 :=
  ⟨by decide, log_is_append_only sampleHost (.SymbolCreationEvent 3) sampleRecorded _
    (by decide)⟩

/-- Counterexample to C15 as stated: on a fresh coordinator (mode `Disabled`, so
`ShouldPerformRecordAction()` is false) `RecordJsRTAllocateInt` is no violation: it returns,
appends an entry and advances the time counter. -/
theorem jsrt_recorder_ignores_mode :
    ShouldPerformRecordAction sampleHost (create sampleHost "log") = false ∧
      ∃ s1, RecordJsRTAllocateInt sampleHost ⟨7, 0⟩ 5 (create sampleHost "log") = .ok s1 () ∧
        s1.m_events = [⟨0, .JsRTAction ⟨7, .NumberAllocate true 5 ⟨0⟩⟩⟩] ∧
        s1.m_eventTimeCtr = 1 :=
  ⟨by decide, _, rfl, rfl, rfl⟩

/-- C15 (amended): when `ShouldPerformRecordAction()` is false, each of `RecordDateTimeEvent`,
`RecordDateStringEvent`, `RecordExternalEntropyRandomEvent`, `RecordPropertyEnumEvent`,
`RecordSymbolCreationEvent`, `RecordExternalCallBeginEvent` and `RecordExternalCallEndEvent`
fails its assertion and leaves the coordinator (event list and time counter included)
untouched; the JsRT recorders `RecordJsRTAllocateInt`, `RecordJsRTAllocateDouble`,
`RecordJsRTVarConversion`, `RecordGetAndClearException`, `RecordGetProperty`,
`RecordJsRTCallbackOperation`, `RecordCodeParse` and `RecordJsRTCallFunction` make no such
check: they append their entry and advance the time counter in every mode. -/
theorem record_mode_check (H : Host) (s : EventLog)
    (hmode : ShouldPerformRecordAction H s = false) :
    (∀ time, RecordDateTimeEvent H time s = .fail .AssertFailed s) ∧
    (∀ str, RecordDateStringEvent H str s = .fail .AssertFailed s) ∧
    (∀ seed, RecordExternalEntropyRandomEvent H seed s = .fail .AssertFailed s) ∧
    (∀ rc pid attrs name, RecordPropertyEnumEvent H rc pid attrs name s
      = .fail .AssertFailed s) ∧
    (∀ pid, RecordSymbolCreationEvent H pid s = .fail .AssertFailed s) ∧
    (∀ f d t, RecordExternalCallBeginEvent H f d t s = .fail .AssertFailed s) ∧
    (∀ f d v, RecordExternalCallEndEvent H f d v s = .fail .AssertFailed s) ∧
    (∀ op : RecordOp,
      (match op with
        | .JsRTAllocateInt _ _ | .JsRTAllocateDouble _ _ | .JsRTVarConversion _ _ _ _ _
        | .GetAndClearException _ | .GetProperty _ _ _ | .JsRTCallbackOperation _ _ _ _ _
        | .CodeParse _ _ _ _ | .JsRTCallFunction _ _ _ _ _ _ => true
        | _ => false) = true →
      ∃ s1 e, applyRecordOp H op s = .ok s1 () ∧ s1.m_events = s.m_events ++ [e] ∧
        e.GetEventTime = s.m_eventTimeCtr ∧ s1.m_eventTimeCtr = s.m_eventTimeCtr + 1) := by
  refine ⟨?_, ?_, ?_, ?_, ?_, ?_, ?_, ?_⟩
  · intro t; simp [RecordDateTimeEvent, hmode]
  · intro t; simp [RecordDateStringEvent, hmode]
  · intro t; simp [RecordExternalEntropyRandomEvent, hmode]
  · intro a b c d; simp [RecordPropertyEnumEvent, hmode]
  · intro t; simp [RecordSymbolCreationEvent, hmode]
  · intro a b c; simp [RecordExternalCallBeginEvent, hmode]
  · intro a b c; simp [RecordExternalCallEndEvent, hmode]
  · intro op hop
    cases op <;> simp at hop <;> exact ⟨_, _, rfl, rfl, rfl, rfl⟩

/-- Witness for C15 (amended): the fresh coordinator, whose mode is `Disabled`. -/
theorem record_mode_check_witness :
    ShouldPerformRecordAction sampleHost (create sampleHost "log") = false ∧
      (∀ time, RecordDateTimeEvent sampleHost time (create sampleHost "log")
        = .fail .AssertFailed (create sampleHost "log")) :=
  ⟨by decide, (record_mode_check sampleHost (create sampleHost "log") (by decide)).1⟩

end EventLog

end TTD

namespace TTD

namespace EventLog

/-! ## Checkpoint search -/

/-- The first element satisfying `p` is the head of the filtered list. -/
theorem head?_filter_eq_find? {α : Type} (p : α → Bool) (l : List α) :
    (l.filter p).head? = l.find? p := by
  induction l with
  | nil => rfl
  | cons a l ih =>
    by_cases h : p a = true
    · simp [List.filter_cons, List.find?_cons, h]
    · simp [List.filter_cons, List.find?_cons, h, ih]

/-- The scan stops at the first visited entry that is a checkpoint at or before the target. -/
theorem findSnapTimeScan_eq_find? (t : Int) (l : List EventLogEntry) :
    findSnapTimeScan t l =
      match l.find? (isCheckpointAtOrBefore t) with
      | some e => e.GetEventTime
      | none => -1 := by
  induction l with
  | nil => rfl
  | cons curr prev ih =>
    obtain ⟨time, payload⟩ := curr
    by_cases hle : time ≤ t
    · cases payload with
      | JsRTAction a =>
        by_cases hr : a.IsRootCall = true
        · by_cases hs : a.HasReadyToRunSnapshotInfo = true
          · simp [findSnapTimeScan, List.find?_cons, isCheckpointAtOrBefore,
              EventLogEntry.GetEventTime, EventLogEntry.GetEventKind,
              EventLogEntry.AsJsRTAction, hle, hr, hs]
          · simp [findSnapTimeScan, List.find?_cons, isCheckpointAtOrBefore,
              EventLogEntry.GetEventTime, EventLogEntry.GetEventKind,
              EventLogEntry.AsJsRTAction, hle, hr, hs, ih]
        · simp [findSnapTimeScan, List.find?_cons, isCheckpointAtOrBefore,
            EventLogEntry.GetEventTime, EventLogEntry.GetEventKind,
            EventLogEntry.AsJsRTAction, hle, hr, ih]
      | _ =>
        simp [findSnapTimeScan, List.find?_cons, isCheckpointAtOrBefore,
          EventLogEntry.GetEventTime, EventLogEntry.GetEventKind,
          EventLogEntry.AsJsRTAction, hle, ih]
    · simp [findSnapTimeScan, List.find?_cons, isCheckpointAtOrBefore,
        EventLogEntry.GetEventTime, hle, ih]

/-- In a list with strictly increasing times, the last element of a sublist selection has the
largest time among the selected elements. -/
theorem getLast?_filter_max (p : EventLogEntry → Bool) :
    ∀ (l : List EventLogEntry),
      List.Pairwise (fun a b : EventLogEntry => a.GetEventTime < b.GetEventTime) l →
      ∀ e last, e ∈ l → p e = true → (l.filter p).getLast? = some last →
        e.GetEventTime ≤ last.GetEventTime := by
  intro l
  induction l using List.reverseRecOn with
  | nil => intro _ e last he; simp at he
  | append_singleton l x ih =>
    intro hp e last he hpe hlast
    rw [List.pairwise_append] at hp
    obtain ⟨hpl, _, hlx⟩ := hp
    rw [List.filter_append] at hlast
    simp only [List.mem_append, List.mem_singleton] at he
    by_cases hx : p x = true
    · simp only [List.filter_cons, hx, if_true, List.filter_nil, List.getLast?_append,
        List.getLast?_singleton, Option.or, Option.some.injEq] at hlast
      subst hlast
      rcases he with he | he
      · exact le_of_lt (hlx e he x (by simp))
      · subst he; exact le_refl _
    · simp only [List.filter_cons, hx, Bool.false_eq_true, if_false, List.filter_nil,
        List.append_nil] at hlast
      rcases he with he | he
      · exact ih hpl e last he hpe hlast
      · subst he; exact absurd hpe hx

/-- C8: on a log with strictly increasing event times, `FindSnapTimeForEventTime(target)`
returns the event time of the latest entry whose time is at most `target` and which is a
checkpoint entry or a root call action carrying ready-to-run snapshot information (no such
entry has a larger time), and `-1` when there is no such entry; a non-negative result is at
most `target`. -/
theorem FindSnapTimeForEventTime_latest_checkpoint (s : EventLog) (target : Int)
    (hsorted : List.Pairwise
      (fun a b : EventLogEntry => a.GetEventTime < b.GetEventTime) s.m_events) :
    (match (s.m_events.filter (isCheckpointAtOrBefore target)).getLast? with
      | some e => (FindSnapTimeForEventTime s target).1 = e.GetEventTime
      | none => (FindSnapTimeForEventTime s target).1 = -1) ∧
    (∀ e ∈ s.m_events, isCheckpointAtOrBefore target e = true →
      e.GetEventTime ≤ (FindSnapTimeForEventTime s target).1) ∧
    (0 ≤ (FindSnapTimeForEventTime s target).1 →
      (FindSnapTimeForEventTime s target).1 ≤ target) := by
  have hfind : s.m_events.reverse.find? (isCheckpointAtOrBefore target)
      = (s.m_events.filter (isCheckpointAtOrBefore target)).getLast? := by
    rw [← head?_filter_eq_find?, List.filter_reverse, List.head?_reverse]
  have hres : (FindSnapTimeForEventTime s target).1
      = match (s.m_events.filter (isCheckpointAtOrBefore target)).getLast? with
        | some e => e.GetEventTime
        | none => -1 := by
    simp only [FindSnapTimeForEventTime]
    rw [findSnapTimeScan_eq_find?, hfind]
  cases hl : (s.m_events.filter (isCheckpointAtOrBefore target)).getLast? with
  | none =>
    simp only [hl] at hres
    refine ⟨hres, ?_, ?_⟩
    · intro e he hpe
      have hmem : e ∈ s.m_events.filter (isCheckpointAtOrBefore target) :=
        List.mem_filter.mpr ⟨he, hpe⟩
      rw [List.getLast?_eq_none_iff] at hl
      rw [hl] at hmem
      simp at hmem
    · intro h0; rw [hres] at h0; omega
  | some last =>
    simp only [hl] at hres
    refine ⟨hres, ?_, ?_⟩
    · intro e he hpe
      rw [hres]
      exact getLast?_filter_max _ s.m_events hsorted e last he hpe hl
    · intro _
      rw [hres]
      have hmem : last ∈ s.m_events.filter (isCheckpointAtOrBefore target) :=
        List.mem_of_getLast?_eq_some hl
      have := (List.mem_filter.mp hmem).2
      simp only [isCheckpointAtOrBefore, Bool.and_eq_true, decide_eq_true_eq] at this
      exact this.1

/-- Witness for C8: in the sample log extended with a ready-to-run root call, the search for
time 3 stops at the root call at time 2, and the search for time 1 at the snapshot at time 0. -/
theorem FindSnapTimeForEventTime_latest_checkpoint_witness :
    List.Pairwise (fun a b : EventLogEntry => a.GetEventTime < b.GetEventTime)
        sampleReplayLog.m_events ∧
      (FindSnapTimeForEventTime sampleReplayLog 3).1 = 2 ∧
      (FindSnapTimeForEventTime sampleReplayLog 1).1 = 0 ∧
      (∀ e ∈ sampleReplayLog.m_events, isCheckpointAtOrBefore 3 e = true →
        e.GetEventTime ≤ (FindSnapTimeForEventTime sampleReplayLog 3).1) :=
  ⟨by decide, by decide, by decide,
    (FindSnapTimeForEventTime_latest_checkpoint sampleReplayLog 3 (by decide)).2.1⟩

/-- Counterexample to C9 as stated: on a freshly constructed coordinator (no inflate map) the
first `FindSnapTimeForEventTime` call stores `false` in `newCtxsNeeded`. -/
theorem first_find_snap_reports_no_new_context :
    (create sampleHost "log").m_lastInflateMap = none ∧
      (FindSnapTimeForEventTime (create sampleHost "log") 0).2 = false ∧
      sampleReplayLog.m_lastInflateMap = none ∧
      (FindSnapTimeForEventTime sampleReplayLog 3) = (2, false) :=
  ⟨rfl, by decide, rfl, by decide⟩

/-- C9 (amended): while no inflate map exists (no checkpoint has been inflated yet),
`FindSnapTimeForEventTime` reports that no fresh execution context is required; once an inflate
map exists it reports one exactly when the checkpoint time it chose differs from
`m_lastInflateSnapshotTime`. -/
theorem newCtxsNeeded_spec (s : EventLog) (target : Int) :
    (s.m_lastInflateMap = none → (FindSnapTimeForEventTime s target).2 = false) ∧
    (s.m_lastInflateMap ≠ none →
      ((FindSnapTimeForEventTime s target).2 = true ↔
        (FindSnapTimeForEventTime s target).1 ≠ s.m_lastInflateSnapshotTime)) := by
  constructor
  · intro h
    simp [FindSnapTimeForEventTime, h]
  · intro h
    cases hm : s.m_lastInflateMap with
    | none => exact absurd hm h
    | some m => simp [FindSnapTimeForEventTime, hm]

end EventLog

end TTD

namespace TTD

namespace EventLog

/-! ## Replay: moving the cursor -/

/-- After an advance from index `i` the cursor designates entry `i + 1`, if there is one. -/
theorem currentEntry_advanced (s : EventLog) (i : Nat) :
    currentEntry (advanced s i) = s.m_events[i + 1]? := by
  simp only [currentEntry, advanced, nextEvent]
  by_cases h : i + 1 < s.m_events.length
  · simp [h]
  · simp only [h, if_false]
    exact (List.getElem?_eq_none (by omega)).symm

/-- `AdvanceTimeAndPositionForReplay` from a cursor at index `i`: it asserts that the
incremented counter does not overtake the next entry. -/
theorem Advance_eq (s : EventLog) (i : Nat) (hc : s.m_currentEvent = some i) :
    AdvanceTimeAndPositionForReplay s =
      match s.m_events[i + 1]? with
      | none => .ok (advanced s i) ()
      | some e =>
        if s.m_eventTimeCtr + 1 ≤ e.GetEventTime then .ok (advanced s i) ()
        else .fail .AssertFailed (advanced s i) := by
  unfold AdvanceTimeAndPositionForReplay
  simp only [hc]
  have h := currentEntry_advanced s i
  simp only [advanced] at h
  rw [h]
  cases s.m_events[i + 1]? <;> rfl

/-- An advance that meets no entry, or an entry the counter has not overtaken, returns. -/
theorem Advance_ok (s : EventLog) (i : Nat) (hc : s.m_currentEvent = some i)
    (hnext : ∀ e, s.m_events[i + 1]? = some e → s.m_eventTimeCtr + 1 ≤ e.GetEventTime) :
    AdvanceTimeAndPositionForReplay s = .ok (advanced s i) () := by
  rw [Advance_eq s i hc]
  cases h : s.m_events[i + 1]? with
  | none => rfl
  | some e => simp [hnext e h]

/-- The replay predicates only read the computed mode. -/
theorem ShouldPerformDebugAction_congr (H : Host) (s t : EventLog)
    (h : t.m_currentMode = s.m_currentMode) :
    ShouldPerformDebugAction H t = ShouldPerformDebugAction H s := by
  simp [ShouldPerformDebugAction, h]

/-- The record predicate only reads the computed mode. -/
theorem ShouldPerformRecordAction_congr (H : Host) (s t : EventLog)
    (h : t.m_currentMode = s.m_currentMode) :
    ShouldPerformRecordAction H t = ShouldPerformRecordAction H s := by
  simp [ShouldPerformRecordAction, h]

/-- C13 (end-of-log is a clean abort): in debugging mode with a null cursor, each of
`ReplayDateTimeEvent`, `ReplayDateStringEvent`, `ReplayExternalEntropyRandomEvent`,
`ReplayPropertyEnumEvent`, `ReplaySymbolCreationEvent`, `ReplayExternalCallEvent` and
`ReplaySingleEntry` ends in the end-of-log abort, carrying the coordinator state exactly as it
was (time counter, cursor, event list and call stack included) and producing no result
value. -/
theorem replay_at_end_of_log_aborts (H : Host) (s : EventLog)
    (hmode : ShouldPerformDebugAction H s = true) (hnull : s.m_currentEvent = none) :
    ReplayDateTimeEvent H s = .fail .AbortEndOfLog s ∧
    ReplayDateStringEvent H s = .fail .AbortEndOfLog s ∧
    ReplayExternalEntropyRandomEvent H s = .fail .AbortEndOfLog s ∧
    (∀ obj, ReplayPropertyEnumEvent H obj s = .fail .AbortEndOfLog s) ∧
    ReplaySymbolCreationEvent H s = .fail .AbortEndOfLog s ∧
    (∀ fuel, ReplayExternalCallEvent H fuel s = .fail .AbortEndOfLog s) ∧
    (∀ fuel, ReplaySingleEntry H fuel s = .fail .AbortEndOfLog s) := by
  have hcur : currentEntry s = none := by simp [currentEntry, hnull]
  refine ⟨?_, ?_, ?_, ?_, ?_, ?_, ?_⟩
  · simp [ReplayDateTimeEvent, hmode, hcur]
  · simp [ReplayDateStringEvent, hmode, hcur]
  · simp [ReplayExternalEntropyRandomEvent, hmode, hcur]
  · intro obj; simp [ReplayPropertyEnumEvent, hmode, hcur]
  · simp [ReplaySymbolCreationEvent, hmode, hcur]
  · intro fuel; simp [ReplayExternalCallEvent, hmode, hcur]
  · intro fuel; simp [ReplaySingleEntry, hmode, hcur]

/-- Witness for C13: the sample replay log with the cursor past its last entry. -/
theorem replay_at_end_of_log_aborts_witness :
    ShouldPerformDebugAction sampleHost { sampleReplayLog with m_currentEvent := none } = true ∧
      ReplayDateTimeEvent sampleHost { sampleReplayLog with m_currentEvent := none }
        = .fail .AbortEndOfLog { sampleReplayLog with m_currentEvent := none } :=
  ⟨by decide, (replay_at_end_of_log_aborts sampleHost
    { sampleReplayLog with m_currentEvent := none } (by decide) rfl).1⟩

end EventLog

end TTD

namespace TTD

namespace EventLog

/-- Witness for C9 (amended): the sample replay log has no inflate map, and the same log with an
inflate map for checkpoint time 0 reports a fresh context for target 3 (checkpoint 2). -/
theorem newCtxsNeeded_spec_witness :
    sampleReplayLog.m_lastInflateMap = none ∧
      (FindSnapTimeForEventTime sampleReplayLog 3).2 = false ∧
      ((FindSnapTimeForEventTime
          { sampleReplayLog with m_lastInflateMap := some ⟨1⟩, m_lastInflateSnapshotTime := 0 }
          3).2 = true ↔
        (FindSnapTimeForEventTime
          { sampleReplayLog with m_lastInflateMap := some ⟨1⟩, m_lastInflateSnapshotTime := 0 }
          3).1 ≠ 0) :=
  ⟨rfl, (newCtxsNeeded_spec sampleReplayLog 3).1 rfl,
    (newCtxsNeeded_spec
      { sampleReplayLog with m_lastInflateMap := some ⟨1⟩, m_lastInflateSnapshotTime := 0 }
      3).2 (by decide)⟩

/-! ## Replay to a time -/

/-- Whenever the loop of `ReplayToTime` returns, the cursor is on an entry with the target
time. -/
theorem ReplayToTimeLoop_ok (H : Host) (t : Int) :
    ∀ (fuel : Nat) (s s1 : EventLog), ReplayToTimeLoop H t fuel s = .ok s1 () →
      ∃ e, currentEntry s1 = some e ∧ e.GetEventTime = t := by
  intro fuel
  induction fuel with
  | zero => intro s s1 h; simp [ReplayToTimeLoop] at h
  | succ fuel ih =>
    intro s s1 h
    unfold ReplayToTimeLoop at h
    cases hc : currentEntry s with
    | none => simp [hc] at h
    | some e =>
      simp only [hc] at h
      by_cases ht : e.GetEventTime = t
      · simp only [ht, ne_eq, not_true_eq_false, if_false, Outcome.ok.injEq, and_true] at h
        subst h
        exact ⟨e, hc, ht⟩
      · simp only [ne_eq, ht, not_false_eq_true, if_true] at h
        cases hr : ReplaySingleEntry H fuel s with
        | fail f s2 => simp [hr] at h
        | ok s2 u =>
          simp only [hr] at h
          cases hc2 : currentEntry s2 with
          | none => simp [hc2] at h
          | some e2 =>
            simp only [hc2] at h
            by_cases hle : e2.GetEventTime ≤ t
            · simp only [hle, if_true] at h
              exact ih s2 s1 h
            · simp [hle] at h

/-- C10: whenever `ReplayToTime(t)` returns normally the cursor is non-null and the entry under
it has event time exactly `t`; and when it is called with the cursor already on an entry whose
time is `t` it returns at once with the coordinator state (time counter, cursor and the trace
of executed actions included) unchanged. -/
theorem ReplayToTime_exact (H : Host) (fuel : Nat) (t : Int) (s : EventLog) :
    (∀ s1, ReplayToTime H fuel t s = .ok s1 () →
      ∃ e, currentEntry s1 = some e ∧ e.GetEventTime = t) ∧
    (∀ e, currentEntry s = some e → e.GetEventTime = t →
      ReplayToTime H (fuel + 1) t s = .ok s ()) := by
  constructor
  · intro s1 h
    unfold ReplayToTime at h
    cases hc : currentEntry s with
    | none => simp [hc] at h
    | some e =>
      simp only [hc] at h
      by_cases hle : e.GetEventTime ≤ t
      · simp only [hle, if_true] at h
        exact ReplayToTimeLoop_ok H t fuel s s1 h
      · simp [hle] at h
  · intro e hc ht
    simp [ReplayToTime, ReplayToTimeLoop, hc, ht]

/-- Witness for C10: replaying the sample log from its start to time 2 passes the snapshot
(the clock read at time 1 is not replayable directly, so the log used here drops it) and stops
on the root call; called again there it changes nothing. -/
theorem ReplayToTime_exact_witness :
    (∃ e, currentEntry sampleSeekLog = some e ∧ e.GetEventTime = 0) ∧
      ReplayToTime sampleHost 5 2 sampleSeekLog
        = .ok { sampleSeekLog with m_eventTimeCtr := 1, m_currentEvent := some 1 } () ∧
      (∃ e, currentEntry { sampleSeekLog with m_eventTimeCtr := 1, m_currentEvent := some 1 }
          = some e ∧ e.GetEventTime = 2) ∧
      ReplayToTime sampleHost 1 2
          { sampleSeekLog with m_eventTimeCtr := 1, m_currentEvent := some 1 }
        = .ok { sampleSeekLog with m_eventTimeCtr := 1, m_currentEvent := some 1 } () :=
  ⟨⟨_, rfl, rfl⟩, by decide,
    (ReplayToTime_exact sampleHost 5 2 sampleSeekLog).1 _ (by decide),
    (ReplayToTime_exact sampleHost 0 2
      { sampleSeekLog with m_eventTimeCtr := 1, m_currentEvent := some 1 }).2 _ rfl rfl⟩

/-- Counterexample to C11 as stated: with the cursor on the last entry of the log (a snapshot
at time 0) and target time 5, `ReplayToTime` steps past the snapshot, finds the cursor null and
ends in an assertion failure, not in the end-of-log abort. -/
theorem ReplayToTime_end_of_log_is_fatal :
    ReplayToTime sampleHost 5 5
        { sampleSeekLog with m_events := [⟨0, .Snapshot (some ⟨7⟩) 0 0 0⟩] }
      = .fail .AssertFailed
          { sampleSeekLog with m_events := [⟨0, .Snapshot (some ⟨7⟩) 0 0 0⟩],
                               m_eventTimeCtr := 1, m_currentEvent := none } := by
  decide

/-- C11 (amended): if a `ReplaySingleEntry` inside `ReplayToTime(t)` returns with the cursor
null (the end of the log was reached before an entry with event time `t`), then `ReplayToTime`
ends in the assertion failure that follows the step (a fatal violation), carrying the state
that step produced; this holds for the loop at any iteration and for the call as a whole when it
happens in the first iteration. -/
theorem ReplayToTime_null_cursor_asserts (H : Host) (fuel : Nat) (t : Int)
    (s s1 : EventLog) (e : EventLogEntry)
    (hc : currentEntry s = some e) (hne : e.GetEventTime ≠ t)
    (hstep : ReplaySingleEntry H fuel s = .ok s1 ()) (hnull : currentEntry s1 = none) :
    ReplayToTimeLoop H t (fuel + 1) s = .fail .AssertFailed s1 ∧
    (e.GetEventTime ≤ t → ReplayToTime H (fuel + 1) t s = .fail .AssertFailed s1) := by
  have hloop : ReplayToTimeLoop H t (fuel + 1) s = .fail .AssertFailed s1 := by
    simp [ReplayToTimeLoop, hc, hne, hstep, hnull]
  refine ⟨hloop, fun hle => ?_⟩
  simp [ReplayToTime, hc, hle, hloop]

/-- Witness for C11 (amended): the one-snapshot log of the counterexample. -/
theorem ReplayToTime_null_cursor_asserts_witness :
    ReplayToTime sampleHost (4 + 1) 5
        { sampleSeekLog with m_events := [⟨0, .Snapshot (some ⟨7⟩) 0 0 0⟩] }
      = .fail .AssertFailed
          { sampleSeekLog with m_events := [⟨0, .Snapshot (some ⟨7⟩) 0 0 0⟩],
                               m_eventTimeCtr := 1, m_currentEvent := none } :=
  (ReplayToTime_null_cursor_asserts sampleHost 4 5
    { sampleSeekLog with m_events := [⟨0, .Snapshot (some ⟨7⟩) 0 0 0⟩] }
    { sampleSeekLog with m_events := [⟨0, .Snapshot (some ⟨7⟩) 0 0 0⟩],
                         m_eventTimeCtr := 1, m_currentEvent := none }
    ⟨0, .Snapshot (some ⟨7⟩) 0 0 0⟩ rfl (by decide) (by decide) rfl).2 (by decide)

end EventLog

end TTD

namespace TTD

namespace EventLog

/-! ## Replay of external calls and property enumeration -/

/-- The state after an advance keeps the event list and the computed mode. -/
theorem advanced_frame (s : EventLog) (i : Nat) :
    (advanced s i).m_events = s.m_events ∧ (advanced s i).m_currentMode = s.m_currentMode ∧
      (advanced s i).m_eventTimeCtr = s.m_eventTimeCtr + 1 ∧
      (advanced s i).m_currentEvent = nextEvent s i :=
  ⟨rfl, rfl, rfl, rfl⟩

/-- C14: in debugging mode with the cursor in sync on an external-call begin entry that is
directly followed by its end entry, `ReplayExternalCallEvent` consumes both entries (the time
counter advances by 2 and the cursor moves past the end entry); if the two root nesting depths
are equal it returns the value reconstructed from the end entry's recorded return value, and if
they differ it ends in an assertion failure and yields no result. -/
theorem ReplayExternalCallEvent_begin_end (H : Host) (fuel : Nat) (s : EventLog) (i : Nat)
    (beginDepth endDepth : Int) (beginTime : JsDouble) (bname ename : Option String)
    (retVal : ArgRetValue)
    (hmode : ShouldPerformDebugAction H s = true)
    (hcur : s.m_currentEvent = some i)
    (hbegin : s.m_events[i]? =
      some ⟨s.m_eventTimeCtr, .ExternalCallBegin beginDepth beginTime bname⟩)
    (hend : s.m_events[i + 1]? =
      some ⟨s.m_eventTimeCtr + 1, .ExternalCallEnd endDepth retVal ename⟩)
    (hnext : ∀ e, s.m_events[i + 2]? = some e → s.m_eventTimeCtr + 2 ≤ e.GetEventTime) :
    (advanced (advanced s i) (i + 1)).m_eventTimeCtr = s.m_eventTimeCtr + 2 ∧
    currentEntry (advanced (advanced s i) (i + 1)) = s.m_events[i + 2]? ∧
    (beginDepth = endDepth →
      ReplayExternalCallEvent H fuel s
        = .ok (advanced (advanced s i) (i + 1)) (H.InflateArgRetValueIntoVar retVal)) ∧
    (beginDepth ≠ endDepth →
      ReplayExternalCallEvent H fuel s
        = .fail .AssertFailed (advanced (advanced s i) (i + 1))) := by
  have hlen : i + 1 < s.m_events.length := by
    by_contra hcon
    rw [List.getElem?_eq_none (by omega)] at hend
    exact absurd hend (by simp)
  have hce : currentEntry s
      = some ⟨s.m_eventTimeCtr, .ExternalCallBegin beginDepth beginTime bname⟩ := by
    simp [currentEntry, hcur, hbegin]
  have hadv1 : AdvanceTimeAndPositionForReplay s = .ok (advanced s i) () :=
    Advance_ok s i hcur (by
      intro e he
      rw [hend] at he
      simp only [Option.some.injEq] at he
      subst he
      simp [EventLogEntry.GetEventTime])
  have hce1 : currentEntry (advanced s i)
      = some ⟨s.m_eventTimeCtr + 1, .ExternalCallEnd endDepth retVal ename⟩ := by
    rw [currentEntry_advanced, hend]
  have hcur1 : (advanced s i).m_currentEvent = some (i + 1) := by
    simp [advanced, nextEvent, hlen]
  have hadv2 : AdvanceTimeAndPositionForReplay (advanced s i)
      = .ok (advanced (advanced s i) (i + 1)) () :=
    Advance_ok (advanced s i) (i + 1) hcur1 (by
      intro e he
      have := hnext e he
      simp only [advanced]
      omega)
  have hctr : (advanced (advanced s i) (i + 1)).m_eventTimeCtr = s.m_eventTimeCtr + 2 := by
    simp only [advanced]; omega
  refine ⟨hctr, ?_, ?_, ?_⟩
  · rw [currentEntry_advanced]; rfl
  · intro hd
    have hc1 : (advanced s i).m_eventTimeCtr = s.m_eventTimeCtr + 1 := rfl
    simp [ReplayExternalCallEvent, hmode, hce, EventLogEntry.GetEventTime, hadv1, hce1,
      EventLogEntry.GetEventKind, hadv2, hd, hc1]
  · intro hd
    have hc1 : (advanced s i).m_eventTimeCtr = s.m_eventTimeCtr + 1 := rfl
    simp [ReplayExternalCallEvent, hmode, hce, EventLogEntry.GetEventTime, hadv1, hce1,
      EventLogEntry.GetEventKind, hadv2, hd, hc1]

/-- Witness for C14: a begin/end pair at depth 0 with recorded return value 42. -/
theorem ReplayExternalCallEvent_begin_end_witness :
    ReplayExternalCallEvent sampleHost 3
        { sampleSeekLog with
          m_events := [⟨0, .ExternalCallBegin 0 ⟨5⟩ none⟩, ⟨1, .ExternalCallEnd 0 ⟨42⟩ none⟩] }
      = .ok (advanced (advanced
          { sampleSeekLog with
            m_events := [⟨0, .ExternalCallBegin 0 ⟨5⟩ none⟩, ⟨1, .ExternalCallEnd 0 ⟨42⟩ none⟩] }
          0) (0 + 1)) (sampleHost.InflateArgRetValueIntoVar ⟨42⟩) :=
  (ReplayExternalCallEvent_begin_end sampleHost 3
    { sampleSeekLog with
      m_events := [⟨0, .ExternalCallBegin 0 ⟨5⟩ none⟩, ⟨1, .ExternalCallEnd 0 ⟨42⟩ none⟩] }
    0 0 0 ⟨5⟩ none none ⟨42⟩ (by decide) rfl rfl rfl (by intro e he; simp at he)).2.2.1 rfl

/-- What a returning `RecordPropertyEnumEvent` appended. -/
theorem RecordPropertyEnumEvent_ok (H : Host) (rc : Bool) (pid : Int) (attrs : Nat)
    (name : Option String) (s s1 : EventLog)
    (h : RecordPropertyEnumEvent H rc pid attrs name s = .ok s1 ()) :
    ∃ optName, s1 = logEvent (.PropertyEnumStep rc pid attrs optName) s := by
  unfold RecordPropertyEnumEvent at h
  repeat' (split at h)
  all_goals
    first
    | (simp only [Outcome.ok.injEq, and_true] at h; exact ⟨_, h.symm⟩)
    | (simp at h)

/-- C16: a property-enumeration step recorded by `RecordPropertyEnumEvent` and replayed by
`ReplayPropertyEnumEvent` against an object: whatever the replay returns has the recorded
return flag, property id and attributes; with the flag set the index is the one the object's
current type handler gives for the property id and the name is the property string of that id;
with the flag clear the name is null and the index is the object's current property count. The
replay does return unless the flag is set on `NoProperty`. The replaying coordinator is in
debugging mode, in sync on the recorded entry, and its log may continue after that entry. -/
theorem property_enum_replay (H : Host) (obj : DynamicObject) (rc : Bool) (pid : Int)
    (attrs : Nat) (name : Option String) (s s1 s2 : EventLog)
    (post : List EventLogEntry)
    (hrec : RecordPropertyEnumEvent H rc pid attrs name s = .ok s1 ())
    (hev : s2.m_events = s1.m_events ++ post)
    (hpost : ∀ e, post.head? = some e → s.m_eventTimeCtr + 1 ≤ e.GetEventTime)
    (hcur : s2.m_currentEvent = some s.m_events.length)
    (hctr : s2.m_eventTimeCtr = s.m_eventTimeCtr)
    (hmode : ShouldPerformDebugAction H s2 = true) :
    (∀ s3 r, ReplayPropertyEnumEvent H obj s2 = .ok s3 r →
      r.returnCode = rc ∧ r.pid = pid ∧ r.attributes = attrs ∧
      (rc = true → r.newIndex = H.GetPropertyIndex obj pid ∧
        r.propertyName = some (H.GetPropertyString obj pid)) ∧
      (rc = false → r.propertyName = none ∧ r.newIndex = H.GetPropertyCount obj)) ∧
    ((rc = true → pid ≠ H.NoProperty) →
      ∃ s3 r, ReplayPropertyEnumEvent H obj s2 = .ok s3 r) := by
  obtain ⟨optName, hs1⟩ := RecordPropertyEnumEvent_ok H rc pid attrs name s s1 hrec
  have hevs : s2.m_events
      = s.m_events ++ (⟨s.m_eventTimeCtr, .PropertyEnumStep rc pid attrs optName⟩ :: post) := by
    rw [hev, hs1, (logEvent_events _ s).1]; simp
  have hce : currentEntry s2
      = some ⟨s.m_eventTimeCtr, .PropertyEnumStep rc pid attrs optName⟩ := by
    simp only [currentEntry, hcur, hevs]
    rw [List.getElem?_append_right (le_refl _)]
    simp
  have hadv : AdvanceTimeAndPositionForReplay s2 = .ok (advanced s2 s.m_events.length) () :=
    Advance_ok s2 _ hcur (by
      intro e he
      rw [hevs, List.getElem?_append_right (by omega)] at he
      have hh : post.head? = some e := by
        cases post with
        | nil => simp at he
        | cons p ps => simpa using he
      rw [hctr]
      exact hpost e hh)
  constructor
  · intro s3 r h
    unfold ReplayPropertyEnumEvent at h
    simp only [hmode, if_true, hce, EventLogEntry.GetEventTime, hctr, advanceReturning,
      hadv] at h
    cases rc with
    | true =>
      by_cases hp : pid = H.NoProperty
      · simp [hp] at h
      · simp only [if_true, ne_eq, hp, not_false_eq_true, Outcome.ok.injEq] at h
        obtain ⟨_, hr⟩ := h
        subst hr
        simp
    | false =>
      simp only [Bool.false_eq_true, if_false, Outcome.ok.injEq] at h
      obtain ⟨_, hr⟩ := h
      subst hr
      simp
  · intro hp
    unfold ReplayPropertyEnumEvent
    simp only [hmode, if_true, hce, EventLogEntry.GetEventTime, hctr, advanceReturning, hadv]
    cases rc with
    | true => simp [hp rfl]
    | false => simp

/-- Witness for C16: a successful step for property 2 recorded in the sample session and
replayed on the same log in debugging mode. -/
theorem property_enum_replay_witness :
    ∃ s3 r, ReplayPropertyEnumEvent sampleHost ⟨1⟩
      { logEvent (.PropertyEnumStep true 2 6 none) sampleRecorded with
        m_currentEvent := some 5, m_eventTimeCtr := 5, m_modeStack := [8], m_currentMode := 8 }
      = .ok s3 r :=
  (property_enum_replay sampleHost ⟨1⟩ true 2 6 (some "x") sampleRecorded
    (logEvent (.PropertyEnumStep true 2 6 none) sampleRecorded)
    { logEvent (.PropertyEnumStep true 2 6 none) sampleRecorded with
      m_currentEvent := some 5, m_eventTimeCtr := 5, m_modeStack := [8], m_currentMode := 8 }
    [] (by decide) rfl (by intro e he; simp at he) rfl rfl (by decide)).2 (by decide)

end EventLog

end TTD

namespace TTD

namespace EventLog

/-! ## Determinism of scalar events -/

/-- Recording a run of scalar values in record mode returns and appends exactly
`scalarEntries` for the counter value at the start. -/
theorem recordScalars_ok (H : Host) :
    ∀ (vs : List ScalarValue) (s : EventLog), ShouldPerformRecordAction H s = true →
      ∃ s1, recordScalars H vs s = .ok s1 () ∧
        s1.m_events = s.m_events ++ scalarEntries s.m_eventTimeCtr vs := by
  intro vs
  induction vs with
  | nil => intro s _; exact ⟨s, rfl, by simp [scalarEntries]⟩
  | cons v rest ih =>
    intro s hmode
    have hstep : recordScalar H v s = .ok (logEvent (scalarPayload v) s) () := by
      cases v <;>
        simp [recordScalar, RecordDateTimeEvent, RecordExternalEntropyRandomEvent,
          RecordSymbolCreationEvent, hmode, scalarPayload]
    have hmode1 : ShouldPerformRecordAction H (logEvent (scalarPayload v) s) = true :=
      (ShouldPerformRecordAction_congr H s (logEvent (scalarPayload v) s) rfl).trans hmode
    obtain ⟨s1, h1, h2⟩ := ih (logEvent (scalarPayload v) s) hmode1
    refine ⟨s1, ?_, ?_⟩
    · simp only [recordScalars, hstep]; exact h1
    · rw [h2, (logEvent_events _ s).1, (logEvent_events _ s).2]
      simp [scalarEntries]

/-- Replaying, kind by kind, a run of scalar entries with consecutive times on which cursor and
time counter are placed returns the recorded values in order; the log may continue after the
run with entries the counter will not have overtaken. -/
theorem replayScalars_ok (H : Host) :
    ∀ (vs : List ScalarValue) (pre post : List EventLogEntry) (t : Int) (s2 : EventLog),
      ShouldPerformDebugAction H s2 = true →
      s2.m_events = pre ++ (scalarEntries t vs ++ post) → s2.m_eventTimeCtr = t →
      (∀ e, post.head? = some e → t + vs.length ≤ e.GetEventTime) →
      (vs ≠ [] → s2.m_currentEvent = some pre.length) →
      ∃ s3, replayScalars H (vs.map ScalarValue.kind) s2 = .ok s3 vs := by
  intro vs
  induction vs with
  | nil => intro pre post t s2 _ _ _ _ _; exact ⟨s2, rfl⟩
  | cons v rest ih =>
    intro pre post t s2 hmode hev hctr hpost hcur
    have hcur := hcur (by simp)
    have hev2 : s2.m_events
        = (pre ++ [⟨t, scalarPayload v⟩]) ++ (scalarEntries (t + 1) rest ++ post) := by
      rw [hev]; simp [scalarEntries]
    have hce : currentEntry s2 = some ⟨t, scalarPayload v⟩ := by
      simp only [currentEntry, hcur, hev, scalarEntries]
      rw [List.getElem?_append_right (le_refl _)]
      simp
    have hadv : AdvanceTimeAndPositionForReplay s2 = .ok (advanced s2 pre.length) () :=
      Advance_ok s2 _ hcur (by
        intro e he
        have hidx : pre.length + 1 = (pre ++ [(⟨t, scalarPayload v⟩ : EventLogEntry)]).length := by
          simp
        rw [hev2, hidx, List.getElem?_append_right (le_refl _)] at he
        cases rest with
        | nil =>
          simp only [Nat.sub_self, scalarEntries, List.nil_append] at he
          have hh : post.head? = some e := by
            cases post with
            | nil => simp at he
            | cons p ps => simpa using he
          have := hpost e hh
          simp only [List.length_cons, List.length_nil] at this
          rw [hctr]; push_cast at this; omega
        | cons r rest2 =>
          simp only [Nat.sub_self, scalarEntries, List.cons_append, List.getElem?_cons_zero,
            Option.some.injEq] at he
          subst he
          simp [EventLogEntry.GetEventTime, hctr])
    have hstep : replayScalar H v.kind s2 = .ok (advanced s2 pre.length) v := by
      cases v <;>
        simp [ScalarValue.kind, replayScalar, ReplayDateTimeEvent,
          ReplayExternalEntropyRandomEvent, ReplaySymbolCreationEvent, hmode, hce,
          EventLogEntry.GetEventTime, hctr, scalarPayload, advanceReturning, hadv]
    have hmode1 : ShouldPerformDebugAction H (advanced s2 pre.length) = true :=
      (ShouldPerformDebugAction_congr H s2 (advanced s2 pre.length) rfl).trans hmode
    obtain ⟨s3, h3⟩ := ih (pre ++ [(⟨t, scalarPayload v⟩ : EventLogEntry)]) post (t + 1)
      (advanced s2 pre.length)
      hmode1 (show (advanced s2 pre.length).m_events = _ from hev2)
      (by simp [advanced, hctr])
      (by
        intro e he
        have := hpost e he
        simp only [List.length_cons] at this
        push_cast at this
        omega)
      (by
        intro hne
        have hlen : pre.length + 1 < s2.m_events.length := by
          rw [hev2]
          cases rest with
          | nil => exact absurd rfl hne
          | cons r rest2 => simp [scalarEntries]
        simp [advanced, nextEvent, hlen])
    refine ⟨s3, ?_⟩
    simp only [List.map_cons, replayScalars, hstep, h3]

/-- C2 (determinism of scalar events): every sequence of values recorded, in any mix, by
`RecordDateTimeEvent`, `RecordExternalEntropyRandomEvent` and `RecordSymbolCreationEvent` is
recorded successfully in record mode, and on any coordinator in debugging mode that holds the
resulting log (possibly continued by later entries, the first of which carries a time not
below the counter value reached after the run) with the cursor on the entry of the first value
and the time counter equal to that entry's time, the corresponding `Replay*` calls, matched by
kind, all return and deliver exactly the recorded values in the recorded order. -/
theorem scalar_events_deterministic (H : Host) (vs : List ScalarValue) (s0 : EventLog)
    (hrec : ShouldPerformRecordAction H s0 = true) :
    ∃ s1, recordScalars H vs s0 = .ok s1 () ∧
      ∀ (s2 : EventLog) (post : List EventLogEntry), s2.m_events = s1.m_events ++ post →
        (∀ e, post.head? = some e → s0.m_eventTimeCtr + vs.length ≤ e.GetEventTime) →
        s2.m_currentEvent = some s0.m_events.length →
        s2.m_eventTimeCtr = s0.m_eventTimeCtr →
        ShouldPerformDebugAction H s2 = true →
        ∃ s3, replayScalars H (vs.map ScalarValue.kind) s2 = .ok s3 vs := by
  obtain ⟨s1, h1, h2⟩ := recordScalars_ok H vs s0 hrec
  refine ⟨s1, h1, ?_⟩
  intro s2 post hev hpost hcur hctr hmode
  exact replayScalars_ok H vs s0.m_events post s0.m_eventTimeCtr s2 hmode
    (by rw [hev, h2, List.append_assoc]) hctr hpost (fun _ => hcur)

/-- Witness for C2: a clock read, a seed and a symbol id recorded after the sample session and
replayed from the recorded position. -/
theorem scalar_events_deterministic_witness :
    ShouldPerformRecordAction sampleHost sampleRecorded = true ∧
    ∃ s1, recordScalars sampleHost [.DateTime ⟨77⟩, .ExternalEntropyRandom 5, .SymbolCreation 9]
        sampleRecorded = .ok s1 () ∧
      ∀ (s2 : EventLog) (post : List EventLogEntry), s2.m_events = s1.m_events ++ post →
        (∀ e, post.head? = some e →
          sampleRecorded.m_eventTimeCtr
            + [ScalarValue.DateTime ⟨77⟩, .ExternalEntropyRandom 5, .SymbolCreation 9].length
            ≤ e.GetEventTime) →
        s2.m_currentEvent = some sampleRecorded.m_events.length →
        s2.m_eventTimeCtr = sampleRecorded.m_eventTimeCtr →
        ShouldPerformDebugAction sampleHost s2 = true →
        ∃ s3, replayScalars sampleHost
          ([ScalarValue.DateTime ⟨77⟩, .ExternalEntropyRandom 5, .SymbolCreation 9].map
            ScalarValue.kind) s2
          = .ok s3 [.DateTime ⟨77⟩, .ExternalEntropyRandom 5, .SymbolCreation 9] :=
  ⟨by decide, scalar_events_deterministic sampleHost
    [.DateTime ⟨77⟩, .ExternalEntropyRandom 5, .SymbolCreation 9] sampleRecorded (by decide)⟩

end EventLog

end TTD

namespace TTD

namespace EventLog

/-! ## Replay of the full trace -/

/-- `ReplayFullTrace` has no normal return: its only exit is `AbortReplayReturnToHost` (or a
failure inside a step). -/
theorem ReplayFullTrace_never_ok (H : Host) :
    ∀ (fuel : Nat) (s s1 : EventLog), ReplayFullTrace H fuel s ≠ .ok s1 () := by
  intro fuel
  induction fuel with
  | zero => intro s s1 h; simp [ReplayFullTrace] at h
  | succ fuel ih =>
    intro s s1 h
    unfold ReplayFullTrace at h
    cases hc : currentEntry s with
    | none => simp [hc] at h
    | some e =>
      simp only [hc] at h
      cases hr : ReplaySingleEntry H fuel s with
      | fail f s2 => simp [hr] at h
      | ok s2 u =>
        simp only [hr] at h
        exact ih s2 s1 h

/-- The entry under the cursor depends only on the event list and the cursor. -/
theorem currentEntry_congr (s t : EventLog) (h1 : t.m_events = s.m_events)
    (h2 : t.m_currentEvent = s.m_currentEvent) : currentEntry t = currentEntry s := by
  simp [currentEntry, h1, h2]

/-- With the log split at the cursor, the entry under the cursor is the head of the remaining
entries. -/
theorem ReplayReady_currentEntry (H : Host) (s : EventLog) (pre rem : List EventLogEntry)
    (h : ReplayReady H s pre rem) : currentEntry s = rem.head? := by
  obtain ⟨hev, hsome, hnone, _⟩ := h
  cases rem with
  | nil => simp [currentEntry, hnone rfl]
  | cons x rest =>
    simp only [currentEntry, hsome (by simp), hev, List.head?_cons]
    rw [List.getElem?_append_right (le_refl _)]
    simp

/-- Passing the entry under the cursor: the advance returns, and every state that agrees with
the advanced one on list, cursor, counter and mode is ready on the rest of the log. -/
theorem ReplayReady_advance (H : Host) (s : EventLog) (pre : List EventLogEntry)
    (x : EventLogEntry) (rest : List EventLogEntry) (h : ReplayReady H s pre (x :: rest)) :
    AdvanceTimeAndPositionForReplay s = .ok (advanced s pre.length) () ∧
    ∀ s2 : EventLog, s2.m_events = s.m_events →
      s2.m_currentEvent = (advanced s pre.length).m_currentEvent →
      s2.m_eventTimeCtr = s.m_eventTimeCtr + 1 → s2.m_currentMode = s.m_currentMode →
      ReplayReady H s2 (pre ++ [x]) rest := by
  obtain ⟨hev, hsome, _, hmode, hsorted, hhead, hkinds⟩ := h
  have hcur := hsome (by simp)
  have hx : s.m_eventTimeCtr ≤ x.GetEventTime := hhead x rfl
  rw [List.pairwise_cons] at hsorted
  have hev2 : s.m_events = (pre ++ [x]) ++ rest := by rw [hev]; simp
  have hnextEntry : s.m_events[pre.length + 1]? = rest.head? := by
    have hidx : pre.length + 1 = (pre ++ [x]).length := by simp
    rw [hev2, hidx, List.getElem?_append_right (le_refl _)]
    cases rest <;> simp
  constructor
  · apply Advance_ok s _ hcur
    intro e he
    rw [hnextEntry] at he
    have hmem : e ∈ rest := List.mem_of_mem_head? he
    have := hsorted.1 e hmem
    omega
  · intro s2 h1 h2 h3 h4
    refine ⟨by rw [h1, hev2], ?_, ?_, ?_, hsorted.2, ?_, ?_⟩
    · intro hne
      have hlen : pre.length + 1 < s.m_events.length := by
        rw [hev2]
        cases rest with
        | nil => exact absurd rfl hne
        | cons y r => simp
      rw [h2]
      simp [advanced, nextEvent, hlen]
    · intro hnil
      have hlen : ¬ pre.length + 1 < s.m_events.length := by
        rw [hev2, hnil]; simp
      rw [h2]
      simp [advanced, nextEvent, hlen]
    · exact (ShouldPerformDebugAction_congr H s s2 h4).trans hmode
    · intro e he
      have hmem : e ∈ rest := List.mem_of_mem_head? he
      have := hsorted.1 e hmem
      omega
    · intro e he
      exact hkinds e (List.mem_cons_of_mem _ he)

end EventLog

end TTD

namespace TTD

namespace EventLog

/-- An entry is of kind `JsRTActionTag` exactly when the checked downcast succeeds. -/
theorem kind_JsRTAction_iff (e : EventLogEntry) :
    e.GetEventKind = .JsRTActionTag ↔ ∃ a, e.AsJsRTAction = some a := by
  obtain ⟨t, p⟩ := e
  cases p <;> simp [EventLogEntry.GetEventKind, EventLogEntry.AsJsRTAction]

/-- One call of the action loop on a ready log whose cursor is on an action: it returns after
passing a non-empty run of entries, having advanced the counter once per entry and handed each
action of the run to the engine in order, and the coordinator is ready on what remains. -/
theorem ReplayActionLoop_run (H : Host) (hexec : EngineLeavesLog H) :
    ∀ (fuel : Nat) (s : EventLog) (pre : List EventLogEntry) (x : EventLogEntry)
      (a : JsRTActionLogEntry) (rest : List EventLogEntry),
      ReplayReady H s pre (x :: rest) → x.AsJsRTAction = some a →
      (x :: rest).length ≤ fuel →
      ∃ s1 run rem, ReplayActionLoop H fuel s = .ok s1 () ∧ x :: rest = run ++ rem ∧
        run ≠ [] ∧ ReplayReady H s1 (pre ++ run) rem ∧
        s1.m_eventTimeCtr = s.m_eventTimeCtr + run.length ∧
        s1.executedActions
          = s.executedActions ++ run.filterMap EventLogEntry.AsJsRTAction := by
  intro fuel
  induction fuel with
  | zero => intro s pre x a rest _ _ hlen; simp at hlen
  | succ fuel ih =>
    intro s pre x a rest hready hx hlen
    have hce : currentEntry s = some x := by
      rw [ReplayReady_currentEntry H s pre _ hready]; rfl
    obtain ⟨hadv, hnext⟩ := ReplayReady_advance H s pre x rest hready
    obtain ⟨s2, hex, he1, he2, he3, he4, he5⟩ := hexec a
      { advanced s pre.length with
        executedActions := (advanced s pre.length).executedActions ++ [a] }
    have hready2 : ReplayReady H s2 (pre ++ [x]) rest :=
      hnext s2 he1 he2 he3 he4
    have hce2 : currentEntry s2 = rest.head? := ReplayReady_currentEntry H s2 _ _ hready2
    have hexA : s2.executedActions = s.executedActions ++ [a] := he5
    have hctr2 : s2.m_eventTimeCtr = s.m_eventTimeCtr + 1 := he3
    have hstop : ∃ s1 run rem, Outcome.ok s2 () = Outcome.ok s1 () ∧ x :: rest = run ++ rem ∧
        run ≠ [] ∧ ReplayReady H s1 (pre ++ run) rem ∧
        s1.m_eventTimeCtr = s.m_eventTimeCtr + run.length ∧
        s1.executedActions
          = s.executedActions ++ run.filterMap EventLogEntry.AsJsRTAction :=
      ⟨s2, [x], rest, rfl, rfl, by simp, hready2, by simp [hctr2], by simp [hexA, hx]⟩
    unfold ReplayActionLoop
    simp only [hce, hx, hadv, hex, hce2]
    cases rest with
    | nil => simpa using hstop
    | cons y rest2 =>
      simp only [List.head?_cons, Option.bind_some]
      cases hy : y.AsJsRTAction with
      | none =>
        have hk : y.GetEventKind ≠ .JsRTActionTag := by
          intro hk
          obtain ⟨a2, ha2⟩ := (kind_JsRTAction_iff y).mp hk
          rw [hy] at ha2; exact absurd ha2 (by simp)
        simpa [hk] using hstop
      | some a2 =>
        have hk : y.GetEventKind = .JsRTActionTag := (kind_JsRTAction_iff y).mpr ⟨a2, hy⟩
        by_cases hroot : a2.IsRootCall = true
        · simpa [hk, hy, hroot] using hstop
        · simp only [hk, hy, beq_self_eq_true, Bool.true_and, hroot, Bool.not_false,
            Bool.false_eq_true, Bool.not_eq_true, if_true]
          obtain ⟨s3, run, rem, h3, hsplit, hne, hready3, hctr3, hex3⟩ :=
            ih s2 (pre ++ [x]) y a2 rest2 hready2 hy (by simp at hlen ⊢; omega)
          refine ⟨s3, x :: run, rem, ?_, by rw [hsplit]; simp, by simp, ?_, ?_, ?_⟩
          · simpa [hy, hroot] using h3
          · simpa using hready3
          · rw [hctr3, hctr2]; simp; omega
          · rw [hex3, hexA]; simp [hx]

end EventLog

end TTD

namespace TTD

namespace EventLog

/-- The full-trace loop on a ready log: with one unit of fuel per remaining entry and one for
the final test it ends in the end-of-log abort, cursor null, the counter advanced once per
remaining entry and every remaining action handed to the engine in log order. -/
theorem ReplayFullTrace_drains (H : Host) (hexec : EngineLeavesLog H) :
    ∀ (n : Nat) (s : EventLog) (pre rem : List EventLogEntry) (fuel : Nat),
      rem.length ≤ n → ReplayReady H s pre rem → rem.length + 1 ≤ fuel →
      ∃ s1, ReplayFullTrace H fuel s = .fail .AbortEndOfLog s1 ∧ s1.m_currentEvent = none ∧
        s1.m_events = s.m_events ∧ s1.m_eventTimeCtr = s.m_eventTimeCtr + rem.length ∧
        s1.executedActions
          = s.executedActions ++ rem.filterMap EventLogEntry.AsJsRTAction := by
  intro n
  induction n with
  | zero =>
    intro s pre rem fuel hn hready hfuel
    have hrem : rem = [] := List.length_eq_zero.mp (by omega)
    subst hrem
    obtain ⟨f, rfl⟩ : ∃ f, fuel = f + 1 := ⟨fuel - 1, by simp at hfuel; omega⟩
    have hce : currentEntry s = none := by
      rw [ReplayReady_currentEntry H s pre _ hready]; rfl
    exact ⟨s, by simp [ReplayFullTrace, hce], hready.2.2.1 rfl, rfl, by simp, by simp⟩
  | succ n ih =>
    intro s pre rem fuel hn hready hfuel
    obtain ⟨f, rfl⟩ : ∃ f, fuel = f + 1 := ⟨fuel - 1, by omega⟩
    cases rem with
    | nil =>
      have hce : currentEntry s = none := by
        rw [ReplayReady_currentEntry H s pre _ hready]; rfl
      exact ⟨s, by simp [ReplayFullTrace, hce], hready.2.2.1 rfl, rfl, by simp, by simp⟩
    | cons x rest =>
      have hce : currentEntry s = some x := by
        rw [ReplayReady_currentEntry H s pre _ hready]; rfl
      have hmode : ShouldPerformDebugAction H s = true := hready.2.2.2.1
      simp only [List.length_cons] at hn hfuel
      rcases hready.2.2.2.2.2.2 x (by simp) with hk | hk
      · -- a checkpoint: the cursor only advances
        obtain ⟨hadv, hnext⟩ := ReplayReady_advance H s pre x rest hready
        have hready1 : ReplayReady H (advanced s pre.length) (pre ++ [x]) rest :=
          hnext _ rfl rfl rfl rfl
        have hx : x.AsJsRTAction = none := by
          cases hx : x.AsJsRTAction with
          | none => rfl
          | some a =>
            have := (kind_JsRTAction_iff x).mpr ⟨a, hx⟩
            rw [hk] at this; exact absurd this (by simp)
        obtain ⟨s1, h1, h2, h3, h4, h5⟩ :=
          ih (advanced s pre.length) (pre ++ [x]) rest f (by omega) hready1 (by omega)
        refine ⟨s1, ?_, h2, h3, ?_, ?_⟩
        · unfold ReplayFullTrace
          simp only [hce, ReplaySingleEntry, hmode, if_true, hk, hadv]
          exact h1
        · rw [h4]; simp [advanced]; omega
        · rw [h5]; simp [advanced, hx]
      · -- an action: one call of the action loop
        obtain ⟨a, hx⟩ := (kind_JsRTAction_iff x).mp hk
        obtain ⟨s2, run, rem2, hloop, hsplit, hne, hready2, hctr2, hex2⟩ :=
          ReplayActionLoop_run H hexec f s pre x a rest hready hx (by simp; omega)
        have hlen : run.length + rem2.length = rest.length + 1 := by
          have := congrArg List.length hsplit
          simp at this; omega
        have hrun : 0 < run.length := List.length_pos.mpr hne
        obtain ⟨s1, h1, h2, h3, h4, h5⟩ :=
          ih s2 (pre ++ run) rem2 f (by omega) hready2 (by omega)
        have hev2 : s2.m_events = s.m_events := by
          rw [hready2.1, hready.1, hsplit]; simp
        refine ⟨s1, ?_, h2, by rw [h3, hev2], ?_, ?_⟩
        · unfold ReplayFullTrace
          simp only [hce, ReplaySingleEntry, hmode, if_true, hk, ReplayActionLoopStep, hloop]
          exact h1
        · rw [h4, hctr2]
          simp only [List.length_cons]
          push_cast
          omega
        · rw [h5, hex2, hsplit, List.filterMap_append, List.append_assoc]

/-- The sample host's engine leaves the coordinator untouched. -/
theorem sampleHost_leaves_log : EngineLeavesLog sampleHost :=
  fun _ s => ⟨s, rfl, rfl, rfl, rfl, rfl, rfl⟩

/-- The sample seek log is ready for replay from its first entry. -/
theorem sampleSeekLog_ready : ReplayReady sampleHost sampleSeekLog [] sampleSeekLog.m_events := by
  refine ⟨rfl, fun _ => rfl, fun h => absurd h (by decide), by decide, by decide, ?_, ?_⟩
  · intro e he
    simp only [sampleSeekLog, List.head?_cons, Option.some.injEq] at he
    subst he
    decide
  · intro e he
    simp only [sampleSeekLog, List.mem_cons, List.mem_singleton, List.not_mem_nil,
      or_false] at he
    rcases he with rfl | rfl | rfl | rfl | rfl <;> decide

/-- Counterexample to C12 as stated: the sample seek log holds only checkpoints and JsRT actions
and the cursor is on its first entry, in sync. With a step-into request pending and an engine
whose execution of the root call reaches a breakpoint check whose callback asks for a restart,
`ReplayFullTrace` ends in that top-level abort, not in the end-of-log abort: the cursor is not
null and the last three entries are never passed. -/
theorem breakpoint_abort_ends_full_trace :
    (∀ e ∈ sampleSeekStepInto.m_events,
      e.GetEventKind = .SnapshotTag ∨ e.GetEventKind = .JsRTActionTag) ∧
    ShouldPerformDebugAction sampleBreakingHost sampleSeekStepInto = true ∧
    currentEntry sampleSeekStepInto = some ⟨0, .Snapshot (some ⟨7⟩) 0 0 0⟩ ∧
    ∃ s1, ReplayFullTrace sampleBreakingHost 6 sampleSeekStepInto
        = .fail (.AbortTopLevel 3 (some "restart")) s1 ∧
      s1.m_currentEvent = some 2 ∧ s1.m_eventTimeCtr = 2 ∧ s1.m_events.length = 5 :=
  ⟨by decide, by decide, by decide, _, rfl, by decide, by decide, by decide⟩

/-- C12 (amended): on a coordinator in debugging mode whose entries from the cursor onward are
only checkpoints and JsRT actions (with increasing times and the cursor in sync), and with an
engine that executes every action to completion without moving the cursor (no abort or other
failure leaves an action), `ReplayFullTrace` terminates within one step per remaining entry,
passes every remaining entry exactly once in chronological order (the counter advances once per
entry; checkpoints are skipped and every action is handed to the engine, in log order), and
ends in the end-of-log abort with the cursor null; and with no engine at all does it ever
return normally. -/
theorem ReplayFullTrace_drains_log (H : Host) (hexec : EngineLeavesLog H) (s : EventLog)
    (pre rem : List EventLogEntry) (hready : ReplayReady H s pre rem) (fuel : Nat)
    (hfuel : rem.length + 1 ≤ fuel) :
    (∃ s1, ReplayFullTrace H fuel s = .fail .AbortEndOfLog s1 ∧ s1.m_currentEvent = none ∧
      s1.m_events = s.m_events ∧ s1.m_eventTimeCtr = s.m_eventTimeCtr + rem.length ∧
      s1.executedActions = s.executedActions ++ rem.filterMap EventLogEntry.AsJsRTAction) ∧
    (∀ (f : Nat) (s1 : EventLog), ReplayFullTrace H f s ≠ .ok s1 ()) :=
  ⟨ReplayFullTrace_drains H hexec rem.length s pre rem fuel (le_refl _) hready hfuel,
    fun f s1 => ReplayFullTrace_never_ok H f s s1⟩

/-- Witness for C12: the sample seek log (two checkpoints, three actions) drained with fuel 6. -/
theorem ReplayFullTrace_drains_log_witness :
    ReplayFullTrace sampleHost 6 sampleSeekLog
      = .fail .AbortEndOfLog
          { sampleSeekLog with
            m_eventTimeCtr := 5, m_currentEvent := none,
            executedActions :=
              [⟨7, .CallFunction 0 (-1) ⟨55⟩ 9 [⟨1⟩, ⟨2⟩] (some ⟨⟨8⟩, 1, 1⟩)⟩,
               ⟨7, .NumberAllocate true 5 ⟨0⟩⟩, ⟨7, .GetAndClearException⟩] } ∧
    ∃ s1, ReplayFullTrace sampleHost 6 sampleSeekLog = .fail .AbortEndOfLog s1 ∧
      s1.m_currentEvent = none ∧ s1.m_events = sampleSeekLog.m_events ∧
      s1.m_eventTimeCtr = sampleSeekLog.m_eventTimeCtr + sampleSeekLog.m_events.length ∧
      s1.executedActions = sampleSeekLog.executedActions
        ++ sampleSeekLog.m_events.filterMap EventLogEntry.AsJsRTAction :=
  ⟨by decide,
    (ReplayFullTrace_drains_log sampleHost sampleHost_leaves_log sampleSeekLog []
      sampleSeekLog.m_events sampleSeekLog_ready 6 (by decide)).1⟩

end EventLog

end TTD

namespace TTD

namespace EventLog

/-! ## Call stack -/

/-- C17: whenever both `ShouldPerformRecordAction()` and `ShouldPerformDebugAction()` are false
(for instance record mode with an `ExcludedExecution` overlay pushed), each of `PushCallEvent`,
`PopCallEvent`, `PopCallEventException` and `UpdateLoopCountInfo` leaves the coordinator as it
is, the call stack, the running function-time counter and the return/exception frame state
included: the call returns the unchanged state when TTD is active and fails its entry assertion
on the unchanged state otherwise. -/
theorem call_tracking_skipped_when_inactive (H : Host) (s : EventLog)
    (hrec : ShouldPerformRecordAction H s = false)
    (hdbg : ShouldPerformDebugAction H s = false) :
    (∀ fbody, PushCallEvent H fbody s
      = if IsTTDActive H s then .ok s () else .fail .AssertFailed s) ∧
    (PopCallEvent H s = if IsTTDActive H s then .ok s () else .fail .AssertFailed s) ∧
    (∀ isFirst, PopCallEventException H isFirst s
      = if IsTTDActive H s then .ok s () else .fail .AssertFailed s) ∧
    (UpdateLoopCountInfo H s = if IsTTDActive H s then .ok s () else .fail .AssertFailed s) := by
  refine ⟨?_, ?_, ?_, ?_⟩
  · intro fbody; simp [PushCallEvent, hrec, hdbg]
  · simp [PopCallEvent, hrec, hdbg]
  · intro isFirst; simp [PopCallEventException, hrec, hdbg]
  · simp [UpdateLoopCountInfo, hrec, hdbg]

/-- Witness for C17: record mode with one overlay pushed and a frame on the call stack. -/
theorem call_tracking_skipped_when_inactive_witness :
    PopCallEvent sampleHost sampleExcludedState = .ok sampleExcludedState () ∧
      (∀ fbody, PushCallEvent sampleHost fbody sampleExcludedState
        = if IsTTDActive sampleHost sampleExcludedState then .ok sampleExcludedState ()
          else .fail .AssertFailed sampleExcludedState) :=
  ⟨by decide,
    (call_tracking_skipped_when_inactive sampleHost sampleExcludedState (by decide)
      (by decide)).1⟩

/-- The flags that gate call tracking only read the computed mode. -/
theorem IsTTDActive_congr (H : Host) (s t : EventLog)
    (h : t.m_currentMode = s.m_currentMode) : IsTTDActive H t = IsTTDActive H s := by
  simp [IsTTDActive, h]

/-- What a returning call-stack call does in an active, non-excluded mode: the function-time
counter goes up by one, the mode is untouched, a push stacks the frame stamped with the new
counter value and a pop removes the top frame. -/
theorem applyCallOp_step (H : Host) (op : CallOp) (s s1 : EventLog)
    (hact : (ShouldPerformRecordAction H s || ShouldPerformDebugAction H s) = true)
    (h : applyCallOp H op s = .ok s1 ()) :
    s1.m_runningFunctionTimeCtr = s.m_runningFunctionTimeCtr + 1 ∧
    s1.m_currentMode = s.m_currentMode ∧
    (∀ fbody, op = .PushCallEvent fbody →
      s1.m_callStack = s.m_callStack ++ [newCallCounter s fbody]) ∧
    ((∀ fbody, op ≠ .PushCallEvent fbody) → s1.m_callStack = s.m_callStack.dropLast) := by
  have hpop : ∀ t : EventLog, popFrame t = .ok s1 () →
      s1.m_runningFunctionTimeCtr = t.m_runningFunctionTimeCtr + 1 ∧
      s1.m_currentMode = t.m_currentMode ∧ s1.m_callStack = t.m_callStack.dropLast := by
    intro t ht
    unfold popFrame at ht
    split at ht
    · simp at ht
    · simp only [Outcome.ok.injEq, and_true] at ht
      subst ht
      exact ⟨rfl, rfl, rfl⟩
  have hset : ∀ (r e : Bool) (t : EventLog),
      SetReturnAndExceptionFramesFromCurrent H r e s = .ok t () →
      t.m_runningFunctionTimeCtr = s.m_runningFunctionTimeCtr ∧
      t.m_currentMode = s.m_currentMode ∧ t.m_callStack = s.m_callStack := by
    intro r e t ht
    unfold SetReturnAndExceptionFramesFromCurrent at ht
    repeat' (split at ht)
    all_goals
      first
      | (simp only [Outcome.ok.injEq, and_true] at ht; subst ht; exact ⟨rfl, rfl, rfl⟩)
      | (simp at ht)
  cases op with
  | PushCallEvent fbody =>
    simp only [applyCallOp, PushCallEvent, hact, if_true] at h
    split at h
    · simp only [Outcome.ok.injEq, and_true] at h
      subst h
      refine ⟨rfl, rfl, ?_, ?_⟩
      · intro f hf
        simp only [CallOp.PushCallEvent.injEq] at hf
        subst hf; rfl
      · intro hne; exact absurd rfl (hne fbody)
    · simp at h
  | PopCallEvent =>
    simp only [applyCallOp, PopCallEvent, hact, if_true] at h
    split at h
    · split at h
      · simp at h
      · rename_i t u ht
        obtain ⟨h1, h2, h3⟩ := hset _ _ t ht
        obtain ⟨h4, h5, h6⟩ := hpop t h
        exact ⟨by rw [h4, h1], by rw [h5, h2], fun f hf => by simp at hf,
          fun _ => by rw [h6, h3]⟩
    · simp at h
  | PopCallEventException isFirst =>
    simp only [applyCallOp, PopCallEventException, hact, if_true] at h
    split at h
    · split at h
      · split at h
        · simp at h
        · rename_i t u ht
          obtain ⟨h1, h2, h3⟩ := hset _ _ t ht
          obtain ⟨h4, h5, h6⟩ := hpop t h
          exact ⟨by rw [h4, h1], by rw [h5, h2], fun f hf => by simp at hf,
            fun _ => by rw [h6, h3]⟩
      · obtain ⟨h4, h5, h6⟩ := hpop s h
        exact ⟨h4, h5, fun f hf => by simp at hf, fun _ => h6⟩
    · simp at h

end EventLog

end TTD

namespace TTD

namespace EventLog

/-- Running a concatenation of call sequences. -/
theorem runCallOps_append (H : Host) :
    ∀ (l1 l2 : List CallOp) (s : EventLog),
      runCallOps H (l1 ++ l2) s =
        match runCallOps H l1 s with
        | .ok s1 _ => runCallOps H l2 s1
        | .fail f s1 => .fail f s1 := by
  intro l1
  induction l1 with
  | nil => intro l2 s; rfl
  | cons op rest ih =>
    intro l2 s
    simp only [List.cons_append, runCallOps]
    cases applyCallOp H op s with
    | ok s1 u => exact ih l2 s1
    | fail f s1 => rfl

/-- In an active, non-excluded mode a sequence of call-stack calls leaves the computed mode as
it is. -/
theorem runCallOps_mode (H : Host) :
    ∀ (ops : List CallOp) (s t : EventLog),
      (ShouldPerformRecordAction H s || ShouldPerformDebugAction H s) = true →
      runCallOps H ops s = .ok t () → t.m_currentMode = s.m_currentMode := by
  intro ops
  induction ops with
  | nil =>
    intro s t _ h
    simp only [runCallOps, Outcome.ok.injEq, and_true] at h
    subst h; rfl
  | cons op rest ih =>
    intro s t hact h
    simp only [runCallOps] at h
    cases hop : applyCallOp H op s with
    | fail f s2 => simp [hop] at h
    | ok s2 u =>
      cases u
      rw [hop] at h
      have hstep := (applyCallOp_step H op s s2 hact hop).2.1
      have hact2 : (ShouldPerformRecordAction H s2 || ShouldPerformDebugAction H s2) = true := by
        rw [ShouldPerformRecordAction_congr H s s2 hstep,
          ShouldPerformDebugAction_congr H s s2 hstep]; exact hact
      rw [ih s2 t hact2 h, hstep]

/-- C18 (unique call/return positions): after `ResetCallStackForTopLevelCall`, in an active,
non-excluded mode, the running function-time counter after the `k`-th of any sequence of
`PushCallEvent`, `PopCallEvent` and `PopCallEventException` calls equals `k`; a frame pushed by
the `k`-th call is stamped with `FunctionTime = k`; and the frames on the call stack carry
strictly increasing `FunctionTime` values from bottom to top, each the position of a push in
the sequence, hence never the counter value produced by a pop. -/
theorem function_time_counts_calls (H : Host) (tl hid : Int) (s0 s : EventLog)
    (hreset : ResetCallStackForTopLevelCall tl hid s0 = .ok s ())
    (hact : (ShouldPerformRecordAction H s || ShouldPerformDebugAction H s) = true)
    (ops : List CallOp) :
    ∀ (k : Nat) (sk : EventLog), k ≤ ops.length → runCallOps H (ops.take k) s = .ok sk () →
      sk.m_runningFunctionTimeCtr = k ∧
      List.Pairwise (fun a b : SingleCallCounter => a.FunctionTime < b.FunctionTime)
        sk.m_callStack ∧
      (∀ fr ∈ sk.m_callStack, 1 ≤ fr.FunctionTime ∧ fr.FunctionTime ≤ k ∧
        ∃ fbody, ops[fr.FunctionTime - 1]? = some (.PushCallEvent fbody)) ∧
      (∀ fbody, 0 < k → ops[k - 1]? = some (.PushCallEvent fbody) →
        ∃ fr, sk.m_callStack.getLast? = some fr ∧ fr.FunctionTime = k ∧
          fr.Function = fbody) := by
  have hs : s.m_runningFunctionTimeCtr = 0 ∧ s.m_callStack = [] := by
    unfold ResetCallStackForTopLevelCall at hreset
    split at hreset
    · rename_i hst
      simp only [Outcome.ok.injEq, and_true] at hreset
      subst hreset
      exact ⟨rfl, hst⟩
    · simp at hreset
  intro k
  induction k with
  | zero =>
    intro sk _ hrun
    simp only [List.take_zero, runCallOps, Outcome.ok.injEq, and_true] at hrun
    subst hrun
    refine ⟨hs.1, by rw [hs.2]; exact List.Pairwise.nil, ?_, ?_⟩
    · intro fr hfr; rw [hs.2] at hfr; simp at hfr
    · intro _ h0; exact absurd h0 (by omega)
  | succ k ih =>
    intro sk hk hrun
    have hklt : k < ops.length := by omega
    have hget : ops[k]? = some ops[k] := List.getElem?_eq_getElem hklt
    rw [List.take_succ, hget, Option.toList_some, runCallOps_append] at hrun
    cases hprev : runCallOps H (ops.take k) s with
    | fail f t => simp [hprev] at hrun
    | ok t u =>
      cases u
      simp only [hprev, runCallOps] at hrun
      obtain ⟨hctr, hpw, hframes, _⟩ := ih t (by omega) hprev
      have hmode_t : (ShouldPerformRecordAction H t || ShouldPerformDebugAction H t) = true := by
        have hm : t.m_currentMode = s.m_currentMode :=
          runCallOps_mode H (ops.take k) s t hact hprev
        rw [ShouldPerformRecordAction_congr H s t hm, ShouldPerformDebugAction_congr H s t hm]
        exact hact
      cases hop : applyCallOp H ops[k] t with
      | fail f s2 => simp [hop] at hrun
      | ok s2 u =>
        cases u
        simp only [hop, Outcome.ok.injEq, and_true] at hrun
        subst hrun
        obtain ⟨h1, _, hpush, hpopc⟩ := applyCallOp_step H ops[k] t s2 hmode_t hop
        have hctr2 : s2.m_runningFunctionTimeCtr = k + 1 := by rw [h1, hctr]
        by_cases hp : ∃ fbody, ops[k] = .PushCallEvent fbody
        · obtain ⟨fbody, hpf⟩ := hp
          have hst := hpush fbody hpf
          have hnew : (newCallCounter t fbody).FunctionTime = k + 1 := by
            simp [newCallCounter, hctr]
          refine ⟨hctr2, ?_, ?_, ?_⟩
          · rw [hst, List.pairwise_append]
            refine ⟨hpw, List.pairwise_singleton _ _, ?_⟩
            intro a ha b hb
            simp only [List.mem_singleton] at hb
            subst hb
            rw [hnew]
            have := (hframes a ha).2.1
            omega
          · intro fr hfr
            rw [hst] at hfr
            simp only [List.mem_append, List.mem_singleton] at hfr
            rcases hfr with hfr | hfr
            · obtain ⟨ha, hb, hc⟩ := hframes fr hfr
              exact ⟨ha, by omega, hc⟩
            · subst hfr
              rw [hnew]
              exact ⟨by omega, le_refl _, fbody, by simp [hget, hpf]⟩
          · intro f _ hf
            simp only [Nat.add_sub_cancel, hget, Option.some.injEq] at hf
            rw [hpf] at hf
            simp only [CallOp.PushCallEvent.injEq] at hf
            subst hf
            exact ⟨newCallCounter t fbody, by rw [hst]; simp, hnew, rfl⟩
        · have hst := hpopc (fun f hf => hp ⟨f, hf⟩)
          refine ⟨hctr2, ?_, ?_, ?_⟩
          · rw [hst]
            exact hpw.sublist (List.dropLast_sublist _)
          · intro fr hfr
            rw [hst] at hfr
            obtain ⟨ha, hb, hc⟩ := hframes fr (List.mem_of_mem_dropLast hfr)
            exact ⟨ha, by omega, hc⟩
          · intro f _ hf
            simp only [Nat.add_sub_cancel, hget, Option.some.injEq] at hf
            exact absurd ⟨f, hf⟩ hp

end EventLog

end TTD

namespace TTD

namespace EventLog

/-- Witness for C18: two pushes after a reset in debugging mode are stamped 1 and 2. -/
theorem function_time_counts_calls_witness :
    ResetCallStackForTopLevelCall 0 0
        { create sampleHost "log" with m_modeStack := [8], m_currentMode := 8 }
      = .ok sampleTopLevel () ∧
    runCallOps sampleHost ([CallOp.PushCallEvent 1, .PushCallEvent 2, .PopCallEvent].take 2)
        sampleTopLevel = .ok sampleTwoFrames () ∧
    sampleTwoFrames.m_runningFunctionTimeCtr = 2 ∧
    ∃ fr, sampleTwoFrames.m_callStack.getLast? = some fr ∧ fr.FunctionTime = 2 ∧
      fr.Function = 2 :=
  have h := function_time_counts_calls sampleHost 0 0
    { create sampleHost "log" with m_modeStack := [8], m_currentMode := 8 } sampleTopLevel
    (by decide) (by decide) [CallOp.PushCallEvent 1, .PushCallEvent 2, .PopCallEvent] 2
    sampleTwoFrames (by decide) (by decide)
  ⟨by decide, by decide, h.1, h.2.2.2 2 (by decide) (by decide)⟩

/-! ## Exception unwinding -/

/-- On a well-formed enumeration, debugging mode implies that TTD is active. -/
theorem IsTTDActive_of_debug (H : Host) (hwf : H.modes.WellFormed) (s : EventLog)
    (hdbg : ShouldPerformDebugAction H s = true) : IsTTDActive H s = true := by
  obtain ⟨hinv, _, _, hd0, _, _, _, _, _, _, _, _, hrd, _, _⟩ := hwf
  simp only [ShouldPerformDebugAction, Bool.and_eq_true, beq_iff_eq] at hdbg
  simp only [IsTTDActive, TTDModeEnum.TTDActive, hinv, bne_iff_ne, ne_eq]
  intro hzero
  have h1 : (s.m_currentMode &&& (H.modes.RecordEnabled ||| H.modes.DebuggingEnabled))
      &&& H.modes.DebuggingEnabled = H.modes.DebuggingEnabled := by
    rw [Nat.and_assoc, Nat.and_comm (H.modes.RecordEnabled ||| H.modes.DebuggingEnabled),
      Nat.and_or_distrib_left, Nat.and_comm H.modes.DebuggingEnabled H.modes.RecordEnabled,
      hrd, Nat.and_self, Nat.zero_or]
    exact hdbg.1
  rw [hzero, Nat.zero_and] at h1
  exact hd0 h1.symm

/-- `popFrame` on a non-empty call stack. -/
theorem popFrame_nonempty (s : EventLog) (hne : s.m_callStack ≠ []) :
    popFrame s
      = .ok { s with m_runningFunctionTimeCtr := s.m_runningFunctionTimeCtr + 1,
                     m_callStack := s.m_callStack.dropLast } () := by
  unfold popFrame
  split
  · rename_i h; exact absurd h hne
  · rfl

/-- The tail of an unwind: once an exception frame is recorded, each further guard pops its
frame and leaves the recorded frame and the flags alone. -/
theorem unwindFrames_recorded (H : Host) :
    ∀ (k : Nat) (s : EventLog), IsTTDActive H s = true →
      ShouldPerformDebugAction H s = true → s.m_isExceptionFrame = true →
      k ≤ s.m_callStack.length →
      ∃ s1, unwindFrames H k s = .ok s1 () ∧ s1.m_isExceptionFrame = true ∧
        s1.m_isReturnFrame = s.m_isReturnFrame ∧ s1.m_lastFrame = s.m_lastFrame ∧
        s1.m_callStack = s.m_callStack.take (s.m_callStack.length - k) ∧
        s1.m_runningFunctionTimeCtr = s.m_runningFunctionTimeCtr + k := by
  intro k
  induction k with
  | zero =>
    intro s _ _ hex _
    exact ⟨s, rfl, hex, rfl, rfl, by simp, rfl⟩
  | succ k ih =>
    intro s hact hdbg hex hk
    have hne : s.m_callStack ≠ [] := by
      intro h; rw [h] at hk; simp at hk
    have hpop := popFrame_nonempty s hne
    obtain ⟨s1, h1, h2, h3, h4, h5, h6⟩ := ih
      { s with m_runningFunctionTimeCtr := s.m_runningFunctionTimeCtr + 1,
               m_callStack := s.m_callStack.dropLast }
      ((IsTTDActive_congr H s _ rfl).trans hact)
      ((ShouldPerformDebugAction_congr H s _ rfl).trans hdbg) hex
      (by simp only [List.length_dropLast]; omega)
    refine ⟨s1, ?_, h2, h3, h4, ?_, ?_⟩
    · have hd : TTDExceptionFramePopper.destroy H { m_log := true } s
          = .ok { s with m_runningFunctionTimeCtr := s.m_runningFunctionTimeCtr + 1,
                         m_callStack := s.m_callStack.dropLast } () := by
        simp only [TTDExceptionFramePopper.destroy, if_true, HasImmediateExceptionFrame, hex,
          Bool.not_true, PopCallEventException, hact, hdbg, Bool.or_true, Bool.false_eq_true,
          if_false]
        rw [hpop, hex]
      simp only [unwindFrames, hd]
      exact h1
    · rw [h5]
      simp only [List.length_dropLast]
      rw [List.dropLast_eq_take, List.take_take]
      congr 1
      omega
    · rw [h6]; simp only []; omega

/-- Counterexample to C19 as stated: in debugging mode, after an exception left the inner of
two frames (recording that frame) and was caught, a second exception that unwinds the
remaining frame through its armed guard leaves the recorded exception frame at the frame of the
earlier exception, not at the frame that was on top when the second unwind began. -/
theorem second_unwind_keeps_earlier_frame :
    runCallOps sampleHost [.PushCallEvent 1, .PushCallEvent 2] sampleTopLevel
      = .ok sampleTwoFrames () ∧
    unwindFrames sampleHost 1 sampleTwoFrames = .ok sampleAfterException () ∧
    ShouldPerformDebugAction sampleHost sampleAfterException = true ∧
    sampleAfterException.m_callStack.getLast? = some (newCallCounter sampleTopLevel 1) ∧
    ∃ s1, unwindFrames sampleHost 1 sampleAfterException = .ok s1 () ∧
      HasImmediateExceptionFrame s1 = true ∧
      s1.m_lastFrame = { newCallCounter sampleTopLevel 2 with FunctionTime := 2 } ∧
      s1.m_lastFrame ≠ newCallCounter sampleTopLevel 1 :=
  ⟨by decide, by decide, by decide, by decide,
    { sampleAfterException with m_runningFunctionTimeCtr := 4, m_callStack := [] },
    by decide, by decide, by decide, by decide⟩

/-- C19 (amended): in debugging mode, when no exception frame is recorded at the moment an
exception starts to unwind, and the exception unwinds through `k >= 1` frames whose
`TTDExceptionFramePopper` guards are armed and never disarmed, then the unwind completes, `k`
frames are popped, `HasImmediateExceptionFrame()` is true and the recorded frame is the frame
that was on top of the call stack when the unwind began (the first frame the exception
crossed), and the return flag is clear. -/
theorem exception_origin_recorded_once (H : Host) (hwf : H.modes.WellFormed) (s : EventLog)
    (k : Nat) (hdbg : ShouldPerformDebugAction H s = true)
    (hnoex : HasImmediateExceptionFrame s = false) (hk1 : 1 ≤ k)
    (hk : k ≤ s.m_callStack.length) :
    ∃ s1 top, s.m_callStack.getLast? = some top ∧ unwindFrames H k s = .ok s1 () ∧
      HasImmediateExceptionFrame s1 = true ∧ HasImmediateReturnFrame s1 = false ∧
      s1.m_lastFrame = top ∧
      s1.m_callStack = s.m_callStack.take (s.m_callStack.length - k) := by
  have hact := IsTTDActive_of_debug H hwf s hdbg
  obtain ⟨k, rfl⟩ : ∃ j, k = j + 1 := ⟨k - 1, by omega⟩
  simp only [HasImmediateExceptionFrame] at hnoex
  have hne : s.m_callStack ≠ [] := by
    intro h; rw [h] at hk; simp at hk
  obtain ⟨top, htop⟩ : ∃ top, s.m_callStack.getLast? = some top :=
    ⟨s.m_callStack.getLast hne, List.getLast?_eq_getLast _ hne⟩
  have hset : SetReturnAndExceptionFramesFromCurrent H false true s
      = .ok { s with m_isReturnFrame := false, m_isExceptionFrame := true,
                     m_lastFrame := top } () := by
    simp [SetReturnAndExceptionFramesFromCurrent, hact, htop]
  have hpop := popFrame_nonempty
    { s with m_isReturnFrame := false, m_isExceptionFrame := true, m_lastFrame := top } hne
  obtain ⟨s1, h1, h2, h3, h4, h5, _⟩ := unwindFrames_recorded H k
    { s with m_isReturnFrame := false, m_isExceptionFrame := true, m_lastFrame := top,
             m_runningFunctionTimeCtr := s.m_runningFunctionTimeCtr + 1,
             m_callStack := s.m_callStack.dropLast }
    ((IsTTDActive_congr H s _ rfl).trans hact)
    ((ShouldPerformDebugAction_congr H s _ rfl).trans hdbg) rfl
    (by simp only [List.length_dropLast]; omega)
  refine ⟨s1, top, htop, ?_, h2, h3, h4, ?_⟩
  · have hd : TTDExceptionFramePopper.destroy H { m_log := true } s
        = .ok { s with m_isReturnFrame := false, m_isExceptionFrame := true,
                       m_lastFrame := top,
                       m_runningFunctionTimeCtr := s.m_runningFunctionTimeCtr + 1,
                       m_callStack := s.m_callStack.dropLast } () := by
      simp only [TTDExceptionFramePopper.destroy, if_true, HasImmediateExceptionFrame, hnoex,
        Bool.not_false, PopCallEventException, hact, hdbg, Bool.or_true, hset]
      exact hpop
    simp only [unwindFrames, hd]
    exact h1
  · rw [h5]
    simp only [List.length_dropLast]
    rw [List.dropLast_eq_take, List.take_take]
    congr 1
    omega

/-- Witness for C19 (amended): an exception unwinding both frames of `sampleTwoFrames`. -/
theorem exception_origin_recorded_once_witness :
    ∃ s1 top, sampleTwoFrames.m_callStack.getLast? = some top ∧
      unwindFrames sampleHost 2 sampleTwoFrames = .ok s1 () ∧
      HasImmediateExceptionFrame s1 = true ∧ HasImmediateReturnFrame s1 = false ∧
      s1.m_lastFrame = top ∧
      s1.m_callStack
        = sampleTwoFrames.m_callStack.take (sampleTwoFrames.m_callStack.length - 2) :=
  exception_origin_recorded_once sampleHost (by decide) sampleTwoFrames 2 (by decide)
    (by decide) (by decide) (by decide)

end EventLog

end TTD

namespace TTD

namespace EventLog

/-! ## Checkpoint restoration: the backward walk -/

/-- What the backward walk found: an element satisfying the test, with no later element
satisfying it. -/
theorem findBackward_some {α : Type} (p : α → Bool) :
    ∀ (l : List α) (j : Nat), findBackward p l = some j →
      ∃ x, l[j]? = some x ∧ p x = true ∧
        ∀ (k : Nat) (y : α), j < k → l[k]? = some y → p y = false := by
  intro l
  induction l with
  | nil => intro j h; simp [findBackward] at h
  | cons a l ih =>
    intro j h
    simp only [findBackward] at h
    cases hrec : findBackward p l with
    | some j1 =>
      simp only [hrec, Option.some.injEq] at h
      subst h
      obtain ⟨x, hx, hpx, hlater⟩ := ih j1 hrec
      refine ⟨x, by simpa using hx, hpx, ?_⟩
      intro k y hk hy
      cases k with
      | zero => omega
      | succ k => exact hlater k y (by omega) (by simpa using hy)
    | none =>
      simp only [hrec] at h
      by_cases hpa : p a = true
      · simp only [hpa, if_true, Option.some.injEq] at h
        subst h
        refine ⟨a, by simp, hpa, ?_⟩
        intro k y hk hy
        cases k with
        | zero => omega
        | succ k =>
          simp only [List.getElem?_cons_succ] at hy
          have hnone : ∀ (l : List α), findBackward p l = none → ∀ z ∈ l, p z = false := by
            intro l
            induction l with
            | nil => intro _ z hz; simp at hz
            | cons b l ihl =>
              intro hb z hz
              simp only [findBackward] at hb
              cases hr : findBackward p l with
              | some j2 => simp [hr] at hb
              | none =>
                simp only [hr] at hb
                by_cases hpb : p b = true
                · simp [hpb] at hb
                · simp only [List.mem_cons] at hz
                  rcases hz with hz | hz
                  · subst hz; simpa using hpb
                  · exact ihl hr z hz
          exact hnone l hrec y (List.getElem?_mem hy)
      · simp [hpa] at h

/-- The backward walk only looks at the values of the test. -/
theorem findBackward_map {α β : Type} (f : α → β) (p : β → Bool) :
    ∀ l : List α, findBackward p (l.map f) = findBackward (fun x => p (f x)) l := by
  intro l
  induction l with
  | nil => rfl
  | cons a l ih => simp only [List.map_cons, findBackward, ih]

/-- The walk for an event time, read off the shapes of the entries. -/
theorem findBackward_time_shape (c : Int) (l : List EventLogEntry) :
    findBackward (fun e : EventLogEntry => e.GetEventTime == c) l
      = findBackward (fun sh : Int × EventKind => sh.1 == c) (l.map shapeOf) := by
  rw [findBackward_map]
  rfl

/-- Replacing an entry by one of the same shape keeps the shapes of the list. -/
theorem map_shapeOf_set :
    ∀ (l : List EventLogEntry) (i : Nat) (c x : EventLogEntry), l[i]? = some c →
      shapeOf x = shapeOf c → (l.set i x).map shapeOf = l.map shapeOf := by
  intro l
  induction l with
  | nil => intro i c x h; simp at h
  | cons a l ih =>
    intro i c x h hs
    cases i with
    | zero =>
      simp only [List.getElem?_cons_zero, Option.some.injEq] at h
      subst h
      simp [List.set, hs]
    | succ i =>
      simp only [List.getElem?_cons_succ] at h
      simp only [List.set, List.map_cons, ih i c x h hs]

/-- The first loop of `DoSnapshotInflate` leaves the entry it found with its time and kind. -/
theorem restoreInfoOf_shape (H : Host) (dir : String) (curr curr1 : EventLogEntry)
    (info : RestoreInfo) (h : restoreInfoOf H dir curr = some (curr1, info)) :
    shapeOf curr1 = shapeOf curr ∧ info.restoreEventTime = restoreTimeOf curr := by
  obtain ⟨t, p⟩ := curr
  cases p with
  | Snapshot snap r l i =>
    simp only [restoreInfoOf, Option.some.injEq, Prod.mk.injEq] at h
    obtain ⟨h1, h2⟩ := h
    subst h1 h2
    exact ⟨rfl, rfl⟩
  | JsRTAction a =>
    obtain ⟨tag, act⟩ := a
    cases act with
    | CallFunction d hc bt ft args rtr =>
      cases rtr with
      | none => simp [restoreInfoOf] at h
      | some inf =>
        simp only [restoreInfoOf, Option.some.injEq, Prod.mk.injEq] at h
        obtain ⟨h1, h2⟩ := h
        subst h1 h2
        exact ⟨rfl, rfl⟩
    | _ => simp [restoreInfoOf] at h
  | _ => simp [restoreInfoOf] at h

end EventLog

end TTD

namespace TTD

namespace EventLog

/-! ## Checkpoint restoration: what a completed inflate leaves behind -/

/-- A returning `ResetCallStackForTopLevelCall`: the stack was empty and stays so, the
function-time counter is zeroed, the top-level ids are stored and the frame flags cleared;
nothing else moves. -/
theorem ResetCallStackForTopLevelCall_ok (tl hid : Int) (s s1 : EventLog)
    (h : ResetCallStackForTopLevelCall tl hid s = .ok s1 ()) :
    s.m_callStack = [] ∧
      s1 = ClearReturnAndExceptionFrames
        { s with m_runningFunctionTimeCtr := 0, m_topLevelCallbackEventTime := tl,
                 m_hostCallbackId := hid } := by
  unfold ResetCallStackForTopLevelCall at h
  split at h
  · rename_i hst
    simp only [Outcome.ok.injEq, and_true] at h
    exact ⟨hst, h.symm⟩
  · simp at h

/-- A returning cursor-positioning block on a non-empty list: the walk found the entry carrying
the counter's time, stepped over it if it is a checkpoint, and reset the call-stack
bookkeeping on an already empty call stack. -/
theorem positionCursor_ok (s s1 : EventLog) (hne : s.m_events ≠ [])
    (h : positionCursor s = .ok s1 ()) :
    ∃ j e, findBackward (fun e : EventLogEntry => e.GetEventTime == s.m_eventTimeCtr)
        s.m_events = some j ∧ s.m_events[j]? = some e ∧
      s.m_callStack = [] ∧ s1.m_callStack = [] ∧ s1.m_events = s.m_events ∧
      s1.m_runningFunctionTimeCtr = 0 ∧ s1.m_topLevelCallbackEventTime = -1 ∧
      s1.m_hostCallbackId = -1 ∧ s1.m_isReturnFrame = false ∧ s1.m_isExceptionFrame = false ∧
      s1.m_lastInflateMap = s.m_lastInflateMap ∧
      s1.m_lastInflateSnapshotTime = s.m_lastInflateSnapshotTime ∧
      s1.m_currentMode = s.m_currentMode ∧
      (e.GetEventKind = .SnapshotTag →
        s1.m_currentEvent = nextEvent s j ∧ s1.m_eventTimeCtr = s.m_eventTimeCtr + 1) ∧
      (e.GetEventKind ≠ .SnapshotTag →
        s1.m_currentEvent = some j ∧ s1.m_eventTimeCtr = s.m_eventTimeCtr) := by
  unfold positionCursor at h
  split at h
  · rename_i hnil; exact absurd hnil hne
  · split at h
    · simp at h
    · rename_i j hj
      split at h
      · simp at h
      · rename_i e he
        by_cases hk : e.GetEventKind = .SnapshotTag
        · simp only [hk, if_true] at h
          obtain ⟨hst, hs1⟩ := ResetCallStackForTopLevelCall_ok _ _ _ _ h
          subst hs1
          exact ⟨j, e, hj, he, hst, hst, rfl, rfl, rfl, rfl, rfl, rfl, rfl, rfl, rfl,
            fun _ => ⟨rfl, rfl⟩, fun hn => absurd hk hn⟩
        · simp only [hk, if_false] at h
          obtain ⟨hst, hs1⟩ := ResetCallStackForTopLevelCall_ok _ _ _ _ h
          subst hs1
          exact ⟨j, e, hj, he, hst, hst, rfl, rfl, rfl, rfl, rfl, rfl, rfl, rfl, rfl,
            fun hn => absurd hn hk, fun _ => ⟨rfl, rfl⟩⟩

/-- A returning `DoSnapshotInflate`: the checkpoint with the requested time was found, a context
is attached, and the state is what the cursor-positioning block made of the state prepared for
inflation. -/
theorem DoSnapshotInflate_ok (H : Host) (etime : Int) (s s1 : EventLog)
    (h : DoSnapshotInflate H etime s = .ok s1 ()) :
    ∃ i curr curr1 info,
      findBackward (fun e : EventLogEntry => e.GetEventTime == etime) s.m_events = some i ∧
      s.m_events[i]? = some curr ∧ curr.GetEventTime = etime ∧
      restoreInfoOf H s.m_logInfoRootDir curr = some (curr1, info) ∧
      positionCursor
        { prepareInflateMap H etime { s with m_events := s.m_events.set i curr1 } with
          m_eventTimeCtr := info.restoreEventTime } = .ok s1 () := by
  unfold DoSnapshotInflate at h
  split at h
  · simp at h
  · rename_i i hi
    split at h
    · simp at h
    · rename_i curr hcurr
      split at h
      · simp at h
      · rename_i curr1 info hinfo
        split at h
        · simp at h
        · obtain ⟨x, hx, hpx, _⟩ := findBackward_some _ _ _ hi
          rw [hcurr] at hx
          simp only [Option.some.injEq] at hx
          subst hx
          exact ⟨i, curr, curr1, info, hi, hcurr, by simpa using hpx, hinfo, h⟩

/-- The inflate-map branch keeps everything but the map, the inflate time and the snapshot
bodies. -/
theorem prepareInflateMap_frame (H : Host) (etime : Int) (s : EventLog) :
    (prepareInflateMap H etime s).m_callStack = s.m_callStack ∧
    (prepareInflateMap H etime s).m_currentMode = s.m_currentMode ∧
    (prepareInflateMap H etime s).m_events.length = s.m_events.length ∧
    (s.m_lastInflateMap = none →
      (prepareInflateMap H etime s).m_lastInflateMap = some ⟨0⟩ ∧
      (prepareInflateMap H etime s).m_lastInflateSnapshotTime = etime) ∧
    (s.m_lastInflateMap ≠ none →
      (prepareInflateMap H etime s).m_lastInflateMap = s.m_lastInflateMap ∧
      (prepareInflateMap H etime s).m_lastInflateSnapshotTime = s.m_lastInflateSnapshotTime ∧
      (prepareInflateMap H etime s).m_events = s.m_events) := by
  unfold prepareInflateMap
  cases hm : s.m_lastInflateMap with
  | none => simp [unloadOthers]
  | some m => simp [hm]

/-- The event list handed to the cursor-positioning block is never empty. -/
theorem inflate_events_ne_nil (H : Host) (etime : Int) (s : EventLog) (i : Nat)
    (curr curr1 : EventLogEntry) (hcurr : s.m_events[i]? = some curr) :
    (prepareInflateMap H etime { s with m_events := s.m_events.set i curr1 }).m_events ≠ [] := by
  intro hnil
  have hlen := (prepareInflateMap_frame H etime
    { s with m_events := s.m_events.set i curr1 }).2.2.1
  rw [hnil] at hlen
  simp only [List.length_nil, List.length_set] at hlen
  have : i < s.m_events.length := by
    by_contra hcon
    rw [List.getElem?_eq_none (by omega)] at hcurr
    exact absurd hcurr (by simp)
  omega

end EventLog

end TTD

namespace TTD

namespace EventLog

/-- The entries handed to the cursor-positioning block have the times and kinds of the entries
before the call, provided unloading a snapshot body keeps them. -/
theorem inflate_events_shape (H : Host) (hU : UnloadKeepsShape H) (etime : Int) (s : EventLog)
    (i : Nat) (curr curr1 : EventLogEntry) (info : RestoreInfo)
    (hcurr : s.m_events[i]? = some curr)
    (hinfo : restoreInfoOf H s.m_logInfoRootDir curr = some (curr1, info)) :
    (prepareInflateMap H etime { s with m_events := s.m_events.set i curr1 }).m_events.map shapeOf
      = s.m_events.map shapeOf := by
  have hset := map_shapeOf_set s.m_events i curr curr1 hcurr
    (restoreInfoOf_shape H _ curr curr1 info hinfo).1
  unfold prepareInflateMap
  cases hm : s.m_lastInflateMap with
  | some m => simpa [hm] using hset
  | none =>
    simp only [hm, unloadOthers, List.map_map]
    rw [← hset]
    apply List.map_congr_left
    intro e _
    simp only [Function.comp]
    split
    · exact hU e
    · rfl

/-! ## C26: the call-stack bookkeeping after a restore -/

/-- Counterexample to C26 as stated: with one frame on the call stack, `DoSnapshotInflate` does
not complete with an emptied stack: `ResetCallStackForTopLevelCall` asserts that the stack is
already empty and the call ends in that assertion failure with the frame still there. -/
theorem inflate_with_frames_asserts :
    ∃ s1, DoSnapshotInflate sampleHost 0
        { sampleSeekLog with m_callStack := [newCallCounter sampleSeekLog 1] }
          = .fail .AssertFailed s1 ∧
      s1.m_callStack = [newCallCounter sampleSeekLog 1] :=
  ⟨_, rfl, by decide⟩

/-- C26 (amended): `DoSnapshotInflate` completes only from a state whose call stack is already
empty (with frames present it never returns a successor state); when it completes, the call
stack is empty, the running function-time counter is 0, the top-level callback event time and
the host callback id are -1, and the return/exception frame flags are clear. -/
theorem DoSnapshotInflate_call_stack (H : Host) (etime : Int) (s s1 : EventLog)
    (h : DoSnapshotInflate H etime s = .ok s1 ()) :
    s.m_callStack = [] ∧ s1.m_callStack = [] ∧ s1.m_runningFunctionTimeCtr = 0 ∧
      s1.m_topLevelCallbackEventTime = -1 ∧ s1.m_hostCallbackId = -1 ∧
      s1.m_isReturnFrame = false ∧ s1.m_isExceptionFrame = false := by
  obtain ⟨i, curr, curr1, info, _, hcurr, _, _, hpos⟩ := DoSnapshotInflate_ok H etime s s1 h
  obtain ⟨j, e, _, _, hst, hst1, _, h1, h2, h3, h4, h5, _⟩ :=
    positionCursor_ok _ s1 (by exact inflate_events_ne_nil H etime s i curr curr1 hcurr) hpos
  refine ⟨?_, hst1, h1, h2, h3, h4, h5⟩
  have hf := (prepareInflateMap_frame H etime { s with m_events := s.m_events.set i curr1 }).1
  exact hf ▸ hst

/-- Witness for `DoSnapshotInflate_call_stack`: restoring the root-call checkpoint at time 2 of
the sample log. -/
theorem DoSnapshotInflate_call_stack_witness :
    ∃ s1, DoSnapshotInflate sampleHost 2 sampleSeekLog = .ok s1 () ∧
      sampleSeekLog.m_callStack = [] ∧ s1.m_callStack = [] ∧ s1.m_runningFunctionTimeCtr = 0 ∧
      s1.m_topLevelCallbackEventTime = -1 ∧ s1.m_hostCallbackId = -1 ∧
      s1.m_isReturnFrame = false ∧ s1.m_isExceptionFrame = false :=
  ⟨_, rfl, DoSnapshotInflate_call_stack sampleHost 2 sampleSeekLog _ rfl⟩

/-! ## C25: the fresh-context report after a restore -/

/-- The two ways a restore is reached (comment in `FindSnapTimeForEventTime`: map and inflate
time are always nullified and recreated as a pair): after
`UpdateInflateMapForFreshScriptContexts` no map exists, and a search that did not ask for fresh
contexts chose the checkpoint the existing map was created for. -/
theorem inflate_map_paired (s : EventLog) (etime target : Int) :
    (UpdateInflateMapForFreshScriptContexts s).m_lastInflateMap = none ∧
    (FindSnapTimeForEventTime s target = (etime, false) →
      s.m_lastInflateMap = none ∨ s.m_lastInflateSnapshotTime = etime) := by
  refine ⟨rfl, ?_⟩
  intro h
  cases hm : s.m_lastInflateMap with
  | none => exact Or.inl rfl
  | some m =>
    right
    simp only [FindSnapTimeForEventTime, hm, Prod.mk.injEq, bne_eq_false_iff_eq] at h
    rw [← h.2]
    exact h.1

end EventLog

end TTD

namespace TTD

namespace EventLog

/-! ## C21: where a restore leaves the cursor -/

/-- Counterexample to C21 as stated: restoring the dedicated checkpoint at time 0 of the sample
log (restore time 0) leaves the cursor on the second entry (time 2) and the counter at 1; the
first entry whose time is at or after the restore time is the checkpoint itself, at index 0. -/
theorem inflate_steps_past_checkpoint :
    ∃ s1, DoSnapshotInflate sampleHost 0 sampleSeekLog = .ok s1 () ∧
      (s1.m_events[0]?).map shapeOf = some (0, EventKind.SnapshotTag) ∧
      (s1.m_events[0]?).map restoreTimeOf = some 0 ∧
      s1.m_currentEvent = some 1 ∧ s1.m_eventTimeCtr = 1 ∧
      (currentEntry s1).map shapeOf = some (2, EventKind.JsRTActionTag) :=
  ⟨_, rfl, by decide, by decide, by decide, by decide, by decide⟩

/-- C21 (amended): when `DoSnapshotInflate(t)` completes, the log holds an entry `c` with event
time `t` (the last such) and, after the call, an entry `e` at some index `j` whose event time
is the restore time of `c` (the last such). If `e` is a dedicated checkpoint entry the cursor
is on the entry after it (null if it is the last entry) and the time counter is the restore
time plus one; otherwise the cursor is on `e` and the time counter is the restore time. The
call changes no entry's time or kind if unloading a snapshot body changes none. -/
theorem DoSnapshotInflate_cursor (H : Host) (etime : Int) (s s1 : EventLog)
    (h : DoSnapshotInflate H etime s = .ok s1 ()) :
    ∃ (i : Nat) (c : EventLogEntry) (j : Nat) (e : EventLogEntry),
      s.m_events[i]? = some c ∧ c.GetEventTime = etime ∧
      (∀ k y, i < k → s.m_events[k]? = some y → y.GetEventTime ≠ etime) ∧
      s1.m_events[j]? = some e ∧ e.GetEventTime = restoreTimeOf c ∧
      (∀ k y, j < k → s1.m_events[k]? = some y → y.GetEventTime ≠ restoreTimeOf c) ∧
      (e.GetEventKind = .SnapshotTag →
        s1.m_currentEvent = nextEvent s1 j ∧ s1.m_eventTimeCtr = restoreTimeOf c + 1) ∧
      (e.GetEventKind ≠ .SnapshotTag →
        s1.m_currentEvent = some j ∧ s1.m_eventTimeCtr = restoreTimeOf c) ∧
      (UnloadKeepsShape H → s1.m_events.map shapeOf = s.m_events.map shapeOf) := by
  obtain ⟨i, curr, curr1, info, hi, hcurr, htime, hinfo, hpos⟩ :=
    DoSnapshotInflate_ok H etime s s1 h
  obtain ⟨j, e, hj, he, _, _, hev, _, _, _, _, _, _, _, _, hsnap, hother⟩ :=
    positionCursor_ok _ s1 (by exact inflate_events_ne_nil H etime s i curr curr1 hcurr) hpos
  have hr := (restoreInfoOf_shape H _ curr curr1 info hinfo).2
  obtain ⟨_, _, _, hlater⟩ := findBackward_some _ _ _ hi
  obtain ⟨x, hx, hpx, hlater1⟩ := findBackward_some _ _ _ hj
  simp only [] at hx hpx hlater1 hj he hsnap hother
  rw [he] at hx
  simp only [Option.some.injEq] at hx
  subst hx
  refine ⟨i, curr, j, e, hcurr, htime, ?_, ?_, ?_, ?_, ?_, ?_, ?_⟩
  · intro k y hk hy
    have := hlater k y hk hy
    simpa using this
  · rw [hev]; exact he
  · rw [← hr]; simpa using hpx
  · intro k y hk hy
    rw [hev] at hy
    have := hlater1 k y hk hy
    rw [← hr]
    simpa using this
  · intro hk
    obtain ⟨h1, h2⟩ := hsnap hk
    refine ⟨?_, by rw [h2, hr]⟩
    rw [h1]
    simp only [nextEvent, hev]
  · intro hk
    obtain ⟨h1, h2⟩ := hother hk
    exact ⟨h1, by rw [h2, hr]⟩
  · intro hU
    rw [hev]
    exact inflate_events_shape H hU etime s i curr curr1 info hcurr hinfo

/-- Witness for `DoSnapshotInflate_cursor`: restoring the root-call checkpoint at time 2 of the
sample log. -/
theorem DoSnapshotInflate_cursor_witness :
    ∃ s1, DoSnapshotInflate sampleHost 2 sampleSeekLog = .ok s1 () ∧
      s1.m_currentEvent = some 1 ∧ s1.m_eventTimeCtr = 2 ∧
      ∃ (i : Nat) (c : EventLogEntry) (j : Nat) (e : EventLogEntry),
        sampleSeekLog.m_events[i]? = some c ∧ c.GetEventTime = 2 ∧
        (∀ k y, i < k → sampleSeekLog.m_events[k]? = some y → y.GetEventTime ≠ 2) ∧
        s1.m_events[j]? = some e ∧ e.GetEventTime = restoreTimeOf c ∧
        (∀ k y, j < k → s1.m_events[k]? = some y → y.GetEventTime ≠ restoreTimeOf c) ∧
        (e.GetEventKind = .SnapshotTag →
          s1.m_currentEvent = nextEvent s1 j ∧ s1.m_eventTimeCtr = restoreTimeOf c + 1) ∧
        (e.GetEventKind ≠ .SnapshotTag →
          s1.m_currentEvent = some j ∧ s1.m_eventTimeCtr = restoreTimeOf c) ∧
        (UnloadKeepsShape sampleHost →
          s1.m_events.map shapeOf = sampleSeekLog.m_events.map shapeOf) :=
  ⟨_, rfl, by decide, by decide, DoSnapshotInflate_cursor sampleHost 2 sampleSeekLog _ rfl⟩

end EventLog

end TTD

namespace TTD

namespace EventLog

/-! ## Seeking: search, restore, then replay -/

/-- What the backward scan of `FindSnapTimeForEventTime` returns: -1, or the time of an entry
at or before the target that is a checkpoint entry or a JsRT action carrying ready-to-run
snapshot information. -/
theorem findSnapTimeScan_cases (t : Int) :
    ∀ l : List EventLogEntry, findSnapTimeScan t l = -1 ∨
      ∃ c ∈ l, c.GetEventTime = findSnapTimeScan t l ∧ c.GetEventTime ≤ t ∧
        (c.GetEventKind = .SnapshotTag ∨
          ∃ a, c.AsJsRTAction = some a ∧ a.HasReadyToRunSnapshotInfo = true) := by
  intro l
  induction l with
  | nil => left; rfl
  | cons x l ih =>
    have hrec : findSnapTimeScan t l = -1 ∨
        ∃ c ∈ x :: l, c.GetEventTime = findSnapTimeScan t l ∧ c.GetEventTime ≤ t ∧
          (c.GetEventKind = .SnapshotTag ∨
            ∃ a, c.AsJsRTAction = some a ∧ a.HasReadyToRunSnapshotInfo = true) := by
      rcases ih with h | ⟨c, hc, h⟩
      · exact Or.inl h
      · exact Or.inr ⟨c, List.mem_cons_of_mem _ hc, h⟩
    simp only [findSnapTimeScan]
    by_cases hle : x.GetEventTime ≤ t
    · simp only [hle, if_true]
      by_cases hk : x.GetEventKind = .SnapshotTag
      · simp only [hk, if_true]
        exact Or.inr ⟨x, List.mem_cons_self _ _, rfl, hle, Or.inl hk⟩
      · simp only [hk, if_false]
        cases ha : x.AsJsRTAction with
        | none => simpa only [] using hrec
        | some a =>
          simp only []
          by_cases hr : a.IsRootCall = true
          · by_cases hs : a.HasReadyToRunSnapshotInfo = true
            · simp only [hr, hs, if_true]
              exact Or.inr ⟨x, List.mem_cons_self _ _, rfl, hle, Or.inr ⟨a, ha, hs⟩⟩
            · simpa only [hr, hs, if_true, if_false] using hrec
          · simpa only [hr, if_false] using hrec
    · simpa only [hle, if_false] using hrec

/-- The first loop of `DoSnapshotInflate` gets its restore information from every checkpoint
entry and from every call action carrying ready-to-run snapshot information. -/
theorem restoreInfoOf_isSome (H : Host) (dir : String) (c : EventLogEntry)
    (hc : c.GetEventKind = .SnapshotTag ∨
      ∃ a, c.AsJsRTAction = some a ∧ a.HasReadyToRunSnapshotInfo = true) :
    ∃ c1 info, restoreInfoOf H dir c = some (c1, info) := by
  obtain ⟨t, p⟩ := c
  cases p with
  | Snapshot snap r l i => exact ⟨_, _, rfl⟩
  | JsRTAction a =>
    rcases hc with hc | ⟨a1, ha1, hs⟩
    · simp [EventLogEntry.GetEventKind] at hc
    · simp only [EventLogEntry.AsJsRTAction, Option.some.injEq] at ha1
      subst ha1
      obtain ⟨tag, act⟩ := a
      cases act with
      | CallFunction d hcb bt ft args rtr =>
        cases rtr with
        | none => simp [JsRTActionLogEntry.HasReadyToRunSnapshotInfo] at hs
        | some inf => exact ⟨_, _, rfl⟩
      | _ => simp [JsRTActionLogEntry.HasReadyToRunSnapshotInfo] at hs
  | _ =>
    rcases hc with hc | ⟨a1, ha1, _⟩
    · simp [EventLogEntry.GetEventKind] at hc
    · simp [EventLogEntry.AsJsRTAction] at ha1

/-- The backward walk succeeds when some element passes the test. -/
theorem findBackward_of_mem {α : Type} (p : α → Bool) :
    ∀ (l : List α) (x : α), x ∈ l → p x = true → ∃ j, findBackward p l = some j := by
  intro l
  induction l with
  | nil => intro x hx; simp at hx
  | cons a l ih =>
    intro x hx hpx
    simp only [findBackward]
    cases hrec : findBackward p l with
    | some j => exact ⟨j + 1, rfl⟩
    | none =>
      simp only [List.mem_cons] at hx
      rcases hx with hx | hx
      · subst hx; simp [hpx]
      · obtain ⟨j, hj⟩ := ih x hx hpx
        rw [hrec] at hj
        exact absurd hj (by simp)

/-- In a list with strictly increasing event times, a later index has a larger time. -/
theorem sorted_index_lt (l : List EventLogEntry)
    (hs : List.Pairwise (fun a b : EventLogEntry => a.GetEventTime < b.GetEventTime) l)
    (a b : Nat) (x y : EventLogEntry) (ha : l[a]? = some x) (hb : l[b]? = some y)
    (hab : a < b) : x.GetEventTime < y.GetEventTime := by
  rw [List.pairwise_iff_getElem] at hs
  obtain ⟨ha1, ha2⟩ := List.getElem?_eq_some_iff.mp ha
  obtain ⟨hb1, hb2⟩ := List.getElem?_eq_some_iff.mp hb
  have := hs a b ha1 hb1 hab
  rw [ha2, hb2] at this
  exact this

/-- Lists with the same shapes have entries of the same shape at every index. -/
theorem getElem?_of_shape_eq (l1 l2 : List EventLogEntry)
    (h : l1.map shapeOf = l2.map shapeOf) (k : Nat) (y : EventLogEntry)
    (hy : l2[k]? = some y) : ∃ y1, l1[k]? = some y1 ∧ shapeOf y1 = shapeOf y := by
  have hk := congrArg (fun l : List (Int × EventKind) => l[k]?) h
  simp only [List.getElem?_map, hy, Option.map_some'] at hk
  cases h1 : l1[k]? with
  | none => simp [h1] at hk
  | some y1 =>
    simp only [h1, Option.map_some', Option.some.injEq] at hk
    exact ⟨y1, rfl, hk⟩

/-- The cursor-positioning block returns when the walk finds the counter's time and the call
stack is empty. -/
theorem positionCursor_returns (s : EventLog) (j : Nat) (e : EventLogEntry)
    (hj : findBackward (fun e : EventLogEntry => e.GetEventTime == s.m_eventTimeCtr)
      s.m_events = some j)
    (he : s.m_events[j]? = some e) (hst : s.m_callStack = []) :
    ∃ s1, positionCursor s = .ok s1 () := by
  unfold positionCursor
  cases hl : s.m_events with
  | nil => exact ⟨s, rfl⟩
  | cons x l =>
    rw [hl] at hj he
    simp only [hj, he]
    by_cases hk : e.GetEventKind = .SnapshotTag
    · simp only [hk, if_true, ResetCallStackForTopLevelCall, hst]
      exact ⟨_, rfl⟩
    · simp only [hk, if_false, ResetCallStackForTopLevelCall, hst]
      exact ⟨_, rfl⟩

end EventLog

end TTD

namespace TTD

namespace EventLog

/-! ## C22: seeking composes -/

/-- Counterexample to C22 as stated: the sample log has strictly increasing times and a
dedicated checkpoint entry at time 4. The search for target 4 chooses that checkpoint; restoring
it leaves the cursor on the entry after it, whose time is 5 > 4, so `ReplayToTime(4)` fails its
entry assertion. -/
theorem seek_to_checkpoint_time_overshoots :
    List.Pairwise (fun a b : EventLogEntry => a.GetEventTime < b.GetEventTime)
      sampleSeekLog.m_events ∧
    (sampleSeekLog.m_events[3]?).map shapeOf = some (4, EventKind.SnapshotTag) ∧
    FindSnapTimeForEventTime sampleSeekLog 4 = (4, false) ∧
    ∃ s1, DoSnapshotInflate sampleHost 4 sampleSeekLog = .ok s1 () ∧
      (currentEntry s1).map shapeOf = some (5, EventKind.JsRTActionTag) ∧
      ReplayToTime sampleHost 5 4 s1 = .fail .AssertFailed s1 :=
  ⟨by decide, by decide, by decide, _, rfl, by decide, by decide⟩

/-- C22 (amended): for every log with strictly increasing event times whose checkpoint entries
restore to their own event time, and every target time `t` that is the event time of a log
entry that is not a dedicated checkpoint entry: if `FindSnapTimeForEventTime(t)` is not -1,
then, with a context attached and an empty call stack, `DoSnapshotInflate` of that time returns
and leaves the replay cursor on an entry whose event time is at most `t` (the entry
precondition of `ReplayToTime(t)`). Unloading a snapshot body is assumed to keep the time and
kind of an entry. -/
theorem seek_then_replay_ready (H : Host) (hU : UnloadKeepsShape H) (s : EventLog) (t : Int)
    (hsorted : List.Pairwise (fun a b : EventLogEntry => a.GetEventTime < b.GetEventTime)
      s.m_events)
    (hrestore : ∀ c ∈ s.m_events, restoreTimeOf c = c.GetEventTime)
    (x : EventLogEntry) (hx : x ∈ s.m_events) (hxt : x.GetEventTime = t)
    (hxk : x.GetEventKind ≠ .SnapshotTag)
    (hfind : (FindSnapTimeForEventTime s t).1 ≠ -1)
    (hctx : s.m_ttdContext ≠ none) (hst : s.m_callStack = []) :
    ∃ s1 e, DoSnapshotInflate H (FindSnapTimeForEventTime s t).1 s = .ok s1 () ∧
      currentEntry s1 = some e ∧ e.GetEventTime ≤ t := by
  change findSnapTimeScan t s.m_events.reverse ≠ -1 at hfind
  change ∃ s1 e, DoSnapshotInflate H (findSnapTimeScan t s.m_events.reverse) s = .ok s1 () ∧
      currentEntry s1 = some e ∧ e.GetEventTime ≤ t
  have hcases := findSnapTimeScan_cases t s.m_events.reverse
  generalize findSnapTimeScan t s.m_events.reverse = r at hfind hcases ⊢
  rcases hcases with h | ⟨c, hc, hct, hcle, hq⟩
  · exact absurd h hfind
  have hcm : c ∈ s.m_events := List.mem_reverse.mp hc
  obtain ⟨i, hi⟩ := findBackward_of_mem (fun e : EventLogEntry => e.GetEventTime == r)
    s.m_events c hcm (by simp [hct])
  obtain ⟨curr, hcurr, hpc, _⟩ := findBackward_some _ _ _ hi
  have hcurrt : curr.GetEventTime = r := by simpa using hpc
  have hcc : curr = c := by
    obtain ⟨i2, hi2⟩ := List.mem_iff_getElem?.mp hcm
    rcases Nat.lt_trichotomy i i2 with hlt | heq | hgt
    · have := sorted_index_lt _ hsorted i i2 curr c hcurr hi2 hlt
      omega
    · subst heq
      rw [hcurr] at hi2
      exact Option.some.inj hi2
    · have := sorted_index_lt _ hsorted i2 i c curr hi2 hcurr hgt
      omega
  subst hcc
  obtain ⟨curr1, info, hinfo⟩ := restoreInfoOf_isSome H s.m_logInfoRootDir curr hq
  have hrt : info.restoreEventTime = r := by
    rw [(restoreInfoOf_shape H _ curr curr1 info hinfo).2, hrestore curr hcm, hcurrt]
  obtain ⟨ctx, hctx1⟩ := Option.ne_none_iff_exists'.mp hctx
  have hshape := inflate_events_shape H hU r s i curr curr1 info hcurr hinfo
  have hPst := (prepareInflateMap_frame H r { s with m_events := s.m_events.set i curr1 }).1
  have hunf : DoSnapshotInflate H r s = positionCursor
      { prepareInflateMap H r { s with m_events := s.m_events.set i curr1 } with
        m_eventTimeCtr := info.restoreEventTime } := by
    unfold DoSnapshotInflate
    simp only [hi, hcurr, hinfo, hctx1]
  generalize prepareInflateMap H r { s with m_events := s.m_events.set i curr1 } = P
    at hshape hPst hunf
  have hPst1 : P.m_callStack = [] := hPst.trans hst
  have hjP : findBackward (fun e : EventLogEntry => e.GetEventTime == r) P.m_events
      = some i := by
    rw [findBackward_time_shape, hshape, ← findBackward_time_shape]
    exact hi
  obtain ⟨e, he, hes⟩ := getElem?_of_shape_eq P.m_events s.m_events hshape i curr hcurr
  have hes1 : e.GetEventTime = curr.GetEventTime := congrArg Prod.fst hes
  have hes2 : e.GetEventKind = curr.GetEventKind := congrArg Prod.snd hes
  have hlen : P.m_events.length = s.m_events.length := by
    have := congrArg List.length hshape
    simpa using this
  obtain ⟨s1, hs1⟩ := positionCursor_returns
    { P with m_eventTimeCtr := info.restoreEventTime } i e (by rw [hrt]; exact hjP) he hPst1
  have hne : P.m_events ≠ [] := by
    intro hn
    rw [hn] at he
    simp at he
  obtain ⟨j, e1, hj1, he1, _, _, hev, _, _, _, _, _, _, _, _, hsnap, hother⟩ :=
    positionCursor_ok _ s1 (by exact hne) hs1
  simp only [] at hj1 he1 hev hsnap hother
  rw [hrt, hjP] at hj1
  simp only [Option.some.injEq] at hj1
  subst hj1
  rw [he] at he1
  simp only [Option.some.injEq] at he1
  subst he1
  by_cases hk : e.GetEventKind = .SnapshotTag
  · obtain ⟨hc1, _⟩ := hsnap hk
    obtain ⟨k, hk2⟩ := List.mem_iff_getElem?.mp hx
    have hki : i < k := by
      rcases Nat.lt_trichotomy i k with hlt | heq | hgt
      · exact hlt
      · subst heq
        rw [hcurr] at hk2
        have : curr = x := Option.some.inj hk2
        subst this
        exact absurd (hes2 ▸ hk) hxk
      · have := sorted_index_lt _ hsorted k i x curr hk2 hcurr hgt
        omega
    have hklen : k < s.m_events.length := (List.getElem?_eq_some_iff.mp hk2).1
    have hi1 : i + 1 < s.m_events.length := by omega
    obtain ⟨y, hy⟩ : ∃ y, s.m_events[i + 1]? = some y :=
      ⟨_, List.getElem?_eq_getElem hi1⟩
    have hyt : y.GetEventTime ≤ t := by
      rcases Nat.lt_or_ge (i + 1) k with hlt | hge
      · have := sorted_index_lt _ hsorted (i + 1) k y x hy hk2 hlt
        omega
      · have hik : i + 1 = k := by omega
        subst hik
        rw [hy] at hk2
        have : y = x := Option.some.inj hk2
        subst this
        omega
    obtain ⟨y1, hy1, hys⟩ := getElem?_of_shape_eq P.m_events s.m_events hshape (i + 1) y hy
    have hys1 : y1.GetEventTime = y.GetEventTime := congrArg Prod.fst hys
    refine ⟨s1, y1, hunf.trans hs1, ?_, by omega⟩
    unfold currentEntry
    rw [hc1]
    simp only [nextEvent, hlen, hi1, if_true, hev]
    exact hy1
  · obtain ⟨hc1, _⟩ := hother hk
    refine ⟨s1, e, hunf.trans hs1, ?_, by omega⟩
    unfold currentEntry
    rw [hc1]
    simp only [hev]
    exact he

end EventLog

end TTD

namespace TTD

namespace EventLog

/-- The sample host's unloading keeps the time and kind of every entry. -/
theorem sampleHost_unload_shape : UnloadKeepsShape sampleHost := by
  intro e
  obtain ⟨t, p⟩ := e
  cases p <;> rfl

end EventLog

end TTD

namespace TTD

namespace EventLog

/-- Witness for `seek_then_replay_ready`: seeking to time 3 in the sample log chooses the root
call at time 2, and restoring it leaves the cursor there. -/
theorem seek_then_replay_ready_witness :
    FindSnapTimeForEventTime sampleSeekLog 3 = (2, false) ∧
    ∃ s1 e, DoSnapshotInflate sampleHost (FindSnapTimeForEventTime sampleSeekLog 3).1
        sampleSeekLog = .ok s1 () ∧
      currentEntry s1 = some e ∧ e.GetEventTime ≤ 3 :=
  ⟨by decide,
    seek_then_replay_ready sampleHost sampleHost_unload_shape sampleSeekLog 3 (by decide)
      (by decide) ⟨3, .JsRTAction ⟨7, .NumberAllocate true 5 ⟨0⟩⟩⟩ (by decide) rfl (by decide)
      (by decide) (by decide) rfl⟩

end EventLog

end TTD

namespace TTD

namespace EventLog

/-! ## C24: the optional name of a property-enumeration entry -/

/-- C24, evaluated on a concrete call: in a build without internal diagnostics, recording a
property-enumeration step with `pid == NoProperty` and the name "length" on the sample recording
returns and appends an entry whose optional name is null; the copy of the name went to the
inner `optName`, which shadows the one handed to the entry. -/
theorem property_enum_name_not_captured :
    sampleHost.internalDiagnostics = false ∧
    ShouldPerformRecordAction sampleHost sampleRecorded = true ∧
    ∃ s1, RecordPropertyEnumEvent sampleHost false sampleHost.NoProperty 0 (some "length")
        sampleRecorded = .ok s1 () ∧
      s1.m_events.getLast? = some ⟨5, .PropertyEnumStep false (-1) 0 none⟩ :=
  ⟨rfl, by decide, _, rfl, by decide⟩

/-! ## C27: an external-call begin entry at the end of the log -/

/-- C27, evaluated on a concrete log: in debugging mode, with the log holding only an
external-call begin entry and the cursor on it, `ReplayExternalCallEvent` advances past the
begin entry and then reads the kind of the entry under the now null cursor (line 571) before
the null test that raises the end-of-log abort (line 576): the call ends in a null dereference,
not in the abort. -/
theorem begin_at_end_of_log_dereferences_null :
    ReplayExternalCallEvent sampleHost 5
        { sampleSeekLog with m_events := [⟨0, .ExternalCallBegin 0 ⟨0⟩ none⟩] }
      = .fail .NullDereference
          { sampleSeekLog with m_events := [⟨0, .ExternalCallBegin 0 ⟨0⟩ none⟩],
                               m_eventTimeCtr := 1, m_currentEvent := none } := by
  decide

/-! ## C28: popping an empty call stack -/

/-- C28: in an active mode in which record or debug actions are performed, with the call stack
empty, `PopCallEvent` and `PopCallEventException` (for both values of `isFirstException`) end
in an assertion failure and return no successor state: the first two in
`SetReturnAndExceptionFramesFromCurrent` on the unchanged state, the last in `RemoveAtEnd`
after the function-time counter was incremented. -/
theorem pop_on_empty_stack_rejected (H : Host) (s : EventLog)
    (hact : IsTTDActive H s = true)
    (hperf : (ShouldPerformRecordAction H s || ShouldPerformDebugAction H s) = true)
    (hst : s.m_callStack = []) :
    PopCallEvent H s = .fail .AssertFailed s ∧
    PopCallEventException H true s = .fail .AssertFailed s ∧
    PopCallEventException H false s = .fail .AssertFailed
      { s with m_runningFunctionTimeCtr := s.m_runningFunctionTimeCtr + 1 } := by
  refine ⟨?_, ?_, ?_⟩
  · simp [PopCallEvent, hact, hperf, SetReturnAndExceptionFramesFromCurrent, hst]
  · simp [PopCallEventException, hact, hperf, SetReturnAndExceptionFramesFromCurrent, hst]
  · simp [PopCallEventException, hact, hperf, popFrame, hst]

/-- Witness for `pop_on_empty_stack_rejected`: the sample coordinator in debugging mode at top
level, whose call stack is empty. -/
theorem pop_on_empty_stack_rejected_witness :
    PopCallEvent sampleHost sampleTopLevel = .fail .AssertFailed sampleTopLevel ∧
    PopCallEventException sampleHost true sampleTopLevel = .fail .AssertFailed sampleTopLevel ∧
    PopCallEventException sampleHost false sampleTopLevel = .fail .AssertFailed
      { sampleTopLevel with
        m_runningFunctionTimeCtr := sampleTopLevel.m_runningFunctionTimeCtr + 1 } :=
  pop_on_empty_stack_rejected sampleHost sampleTopLevel (by decide) (by decide) rfl

end EventLog

end TTD

namespace TTD

namespace EventLog

/-! ## C30: the breakpoint hit predicate -/

/-- C30: in debugging mode with top call frame `cfinfo`, the hit flag of `BPCheckAndAction` is
set exactly when (a) a break-at-next-statement request is pending (recorded depth not -1) and
it is a step-into request or the call-stack depth is at most the recorded depth, or (b) the
stored line, column, source id, root event time, function time and loop time equal the top
frame's source line and column (cast to `uint32`), its source id, the top-level callback event
time and the frame's `FunctionTime` and `LoopTime`. Without a hit the call returns with the
coordinator unchanged; with a hit the breakpoint and the step request are cleared and the
debugger callback decides between a normal return and the top-level abort. -/
theorem bp_hit_predicate (H : Host) (s : EventLog) (cfinfo : SingleCallCounter)
    (hdbg : ShouldPerformDebugAction H s = true) (htop : GetTopCallCounter s = some cfinfo) :
    (bpHit H s cfinfo = true ↔
      ((s.BPBreakAtNextStmtDepth ≠ -1 ∧
          (s.BPBreakAtNextStmtInto = true ∨
            (s.m_callStack.length : Int) ≤ s.BPBreakAtNextStmtDepth)) ∨
        (s.BPLine
            = (H.GetStatementLineColumn cfinfo.Function cfinfo.CurrentStatementIndex).1 % 2 ^ 32 ∧
          s.BPColumn
            = ((H.GetStatementLineColumn cfinfo.Function cfinfo.CurrentStatementIndex).2
                % 2 ^ 32).toNat ∧
          s.BPSourceContextId = H.GetSourceContextId cfinfo.Function ∧
          s.BPRootEventTime = s.m_topLevelCallbackEventTime ∧
          s.BPFunctionTime = cfinfo.FunctionTime ∧ s.BPLoopTime = cfinfo.LoopTime))) ∧
    (bpHit H s cfinfo = false → BPCheckAndAction H s = .ok s ()) ∧
    (bpHit H s cfinfo = true →
      ∃ s1 c t m,
        H.BPDbgCallback
            (ClearBreakpointOnNextStatement { s with BPIsSet := false, BPRootEventTime := -1 })
          = (s1, c, t, m) ∧
        BPCheckAndAction H s
          = (if c then .ok s1 () else .fail (.AbortTopLevel t m) s1)) := by
  refine ⟨?_, ?_, ?_⟩
  · unfold bpHit
    by_cases hd : s.BPBreakAtNextStmtDepth = -1
    · simp [hd, and_assoc]
    · by_cases hi : s.BPBreakAtNextStmtInto = true
      · simp [hd, hi]
      · by_cases hl : (s.m_callStack.length : Int) ≤ s.BPBreakAtNextStmtDepth
        · simp [hd, hi, hl]
        · simp [hd, hi, hl, and_assoc]
  · intro hno
    simp [BPCheckAndAction, hdbg, htop, hno]
  · intro hhit
    rcases hcb : H.BPDbgCallback
      (ClearBreakpointOnNextStatement { s with BPIsSet := false, BPRootEventTime := -1 })
      with ⟨s1, c, t, m⟩
    refine ⟨s1, c, t, m, rfl, ?_⟩
    simp only [BPCheckAndAction, hdbg, htop, hhit, if_true, hcb]

/-- Witness for `bp_hit_predicate`: a step-over request recorded at depth 1 with the stack two
frames deep and a stored breakpoint on another line causes no hit, and the call returns with
the coordinator unchanged. -/
theorem bp_hit_predicate_witness :
    bpHit sampleHost sampleStepOver { newCallCounter sampleTopLevel 2 with FunctionTime := 2 }
      = false ∧
    BPCheckAndAction sampleHost sampleStepOver = .ok sampleStepOver () :=
  ⟨by decide,
    (bp_hit_predicate sampleHost sampleStepOver
      { newCallCounter sampleTopLevel 2 with FunctionTime := 2 } (by decide) (by decide)).2.1
      (by decide)⟩

end EventLog

end TTD

namespace TTD

/-- The sample codec satisfies the round-trip contract. -/
theorem sampleCodec_round_trips : sampleCodec.RoundTrips := by
  constructor
  · intro es dir sep rest
    cases sep <;> rfl
  · intro r sep rest
    cases sep <;> rfl

namespace EventLog

/-! ## Persisted log: reading back what was written -/

/-- A structural item written without a comma is read back when none is expected. -/
theorem readToken_plain (t : LogToken) (rest : List LogToken) :
    readToken t false (t :: rest) = some rest := by
  simp [readToken, readSeparator]

/-- A structural item written after a comma is read back when a comma is expected. -/
theorem readToken_comma (t : LogToken) (rest : List LogToken) :
    readToken t true (.Comma :: t :: rest) = some rest := by
  simp [readToken, readSeparator]

/-- The descriptor loop of `ParseLogInto` reads back what the descriptor loop of `EmitLog`
wrote, for a codec that keeps the round-trip contract. -/
theorem parsePropertyRecords_emit (C : LogCodec) (hC : C.RoundTrips) :
    ∀ (rs : List SnapPropertyRecord) (first : Bool) (rest : List LogToken),
      parsePropertyRecords C rs.length (!first) (emitPropertyRecords C first rs ++ rest)
        = (rs, some rest) := by
  intro rs
  induction rs with
  | nil => intro first rest; rfl
  | cons r rs ih =>
    intro first rest
    have hsep : (if (!first) = true then Separator.CommaAndBigSpaceSeparator
        else Separator.BigSpaceSeparator).hasComma = !first := by
      cases first <;> rfl
    have h1 := hC.2 r (if (!first) = true then Separator.CommaAndBigSpaceSeparator
        else Separator.BigSpaceSeparator) (emitPropertyRecords C false rs ++ rest)
    rw [hsep] at h1
    have h2 := ih false rest
    simp only [Bool.not_false] at h2
    simp only [List.length_cons, parsePropertyRecords, emitPropertyRecords, List.append_assoc,
      h1, h2]

end EventLog

end TTD

namespace TTD

namespace EventLog

/-! ## C23: the persisted-log round trip -/

/-- C23: in a build that writes output, for a codec whose per-entry helpers keep the round-trip
contract, `ParseLogInto` applied to the stream written by `EmitLog` returns; the coordinator it
was applied to then holds the event list of the emitting coordinator (same entries, order,
times and payloads) and, appended to the descriptors it held before, the property descriptors
(id, flags, name) that were emitted. Those are the emitting coordinator's descriptor list, or
the descriptors of its pinned property records if that list was empty. -/
theorem persisted_log_round_trip (C : LogCodec) (hC : C.RoundTrips)
    (hw : C.writeOutput = true) (s r : EventLog) :
    ∃ r1, ParseLogInto C (EmitLog C s).2 r = .ok r1 () ∧
      r1.m_events = s.m_events ∧
      r1.m_propertyRecordList = r.m_propertyRecordList ++ (EmitLog C s).1.m_propertyRecordList ∧
      (EmitLog C s).1.m_propertyRecordList
        = (if s.m_propertyRecordList.length = 0
            then s.m_propertyRecordPinSet.map toSnapPropertyRecord
            else s.m_propertyRecordList) := by
  have hlist : (EmitLog C s).1.m_propertyRecordList
      = (if s.m_propertyRecordList.length = 0
          then s.m_propertyRecordPinSet.map toSnapPropertyRecord
          else s.m_propertyRecordList) := by
    simp only [EmitLog, hw, if_true]
    split <;> rfl
  generalize hrs : (if s.m_propertyRecordList.length = 0
      then s.m_propertyRecordPinSet.map toSnapPropertyRecord
      else s.m_propertyRecordList) = rs at hlist
  have hstream : (EmitLog C s).2
      = .RecordStart :: (C.EmitEventList s.m_events s.m_logInfoRootDir .BigSpaceSeparator
          ++ (.Comma :: .LengthValue rs.length :: .Comma :: .SequenceStart ::
            (emitPropertyRecords C true rs ++ [.SequenceEnd, .RecordEnd]))) := by
    rw [← hlist]
    simp only [EmitLog, hw, if_true, writeSeparator, Separator.hasComma, List.append_assoc,
      List.cons_append, List.nil_append, List.singleton_append, Bool.false_eq_true, if_false]
  have hev := hC.1 s.m_events s.m_logInfoRootDir .BigSpaceSeparator
    (.Comma :: .LengthValue rs.length :: .Comma :: .SequenceStart ::
      (emitPropertyRecords C true rs ++ [.SequenceEnd, .RecordEnd]))
  have hrec := parsePropertyRecords_emit C hC rs true [.SequenceEnd, .RecordEnd]
  simp only [Bool.not_true] at hrec
  have hsepf : Separator.BigSpaceSeparator.hasComma = false := rfl
  rw [hsepf] at hev
  refine ⟨{ r with m_events := s.m_events,
                   m_propertyRecordList := r.m_propertyRecordList ++ rs }, ?_, rfl, ?_, hlist⟩
  · rw [hstream]
    simp only [ParseLogInto, readToken_plain, hev, ReadLengthValue, readSeparator, if_true,
      readToken_comma, hrec]
  · rw [hlist]

/-- Witness for `persisted_log_round_trip`: the sample recording with two pinned custom property
records, written with the sample codec and read into a freshly constructed coordinator. -/
theorem persisted_log_round_trip_witness :
    (create sampleHost "log").m_propertyRecordList = [] ∧
    ∃ r1, ParseLogInto sampleCodec (EmitLog sampleCodec samplePinned).2 (create sampleHost "log")
        = .ok r1 () ∧
      r1.m_events = samplePinned.m_events ∧
      r1.m_propertyRecordList
        = (create sampleHost "log").m_propertyRecordList
            ++ (EmitLog sampleCodec samplePinned).1.m_propertyRecordList ∧
      (EmitLog sampleCodec samplePinned).1.m_propertyRecordList
        = (if samplePinned.m_propertyRecordList.length = 0
            then samplePinned.m_propertyRecordPinSet.map toSnapPropertyRecord
            else samplePinned.m_propertyRecordList) :=
  ⟨rfl, persisted_log_round_trip sampleCodec sampleCodec_round_trips rfl samplePinned
    (create sampleHost "log")⟩

/-! ## C29: the property-id range check of `InitForTTDReplay` -/

/-- C29, evaluated on a concrete log: the sample recording has no custom property record, so
the table written by `EmitLog` and read back by `ParseLogInto` is empty, and `InitForTTDReplay`
on a fresh coordinator ends in the gap assertion: `maxPid` starts at
`TotalNumberOfBuiltInProperties + 1` and the loop runs while `cpid <= maxPid`, so the first
custom id is looked up although no id is present. With the two records 101 and 102 pinned
(first custom id 101) the call completes and pins both. -/
theorem InitForTTDReplay_empty_table_asserts :
    (∃ r1, ParseLogInto sampleCodec (EmitLog sampleCodec sampleRecorded).2
        (create sampleHost "log") = .ok r1 () ∧
      r1.m_propertyRecordList = [] ∧
      InitForTTDReplay sampleHost sampleCodec (EmitLog sampleCodec sampleRecorded).2
        (create sampleHost "log") = .fail .AssertFailed r1) ∧
    (∃ r2, InitForTTDReplay sampleHost sampleCodec (EmitLog sampleCodec samplePinned).2
        (create sampleHost "log") = .ok r2 () ∧
      r2.m_propertyRecordPinSet
        = [⟨101, false, true, false, "x"⟩, ⟨102, false, true, true, "sym"⟩]) :=
  ⟨⟨_, rfl, by decide, by decide⟩, ⟨_, rfl, by decide⟩⟩

end EventLog

end TTD

namespace TTD

namespace EventLog

/-! ## Breakpoints: what a hit and a miss leave behind -/

/-- The two outcomes of `BPCheckAndAction` in debugging mode with a top frame: without a hit the
coordinator is returned as it is; with a hit the debugger callback runs on the disarmed
coordinator and decides between a normal return and the top-level abort. -/
theorem BPCheckAndAction_eq (H : Host) (s : EventLog) (cfinfo : SingleCallCounter)
    (hdbg : ShouldPerformDebugAction H s = true) (htop : GetTopCallCounter s = some cfinfo) :
    BPCheckAndAction H s =
      if bpHit H s cfinfo then
        (if (H.BPDbgCallback (disarmed s)).2.1 then .ok (H.BPDbgCallback (disarmed s)).1 ()
          else .fail (.AbortTopLevel (H.BPDbgCallback (disarmed s)).2.2.1
            (H.BPDbgCallback (disarmed s)).2.2.2) (H.BPDbgCallback (disarmed s)).1)
      else .ok s () := by
  simp only [BPCheckAndAction, hdbg, htop, if_true, disarmed]

/-- With no step request pending and the stored root event time at -1, there is no hit inside a
top-level call. -/
theorem bpHit_disarmed (H : Host) (s : EventLog) (cfinfo : SingleCallCounter)
    (hroot : s.BPRootEventTime = -1) (hdepth : s.BPBreakAtNextStmtDepth = -1)
    (htl : 0 ≤ s.m_topLevelCallbackEventTime) : bpHit H s cfinfo = false := by
  have hne : ¬ ((-1 : Int) = s.m_topLevelCallbackEventTime) := by omega
  simp [bpHit, hroot, hdepth, hne]

end EventLog

end TTD

namespace TTD

namespace EventLog

/-! ## C31: the breakpoint evaluator disarms itself -/

/-- C31: in debugging mode with a top frame, when `BPCheckAndAction` hits and the debugger
callback leaves the breakpoint members as it received them (it sets no new breakpoint or step
request), the call ends (by return or by the top-level abort) with the breakpoint marked unset
and the break-at-next-statement request cleared; and on every later coordinator state with
those breakpoint members, inside a top-level call (top-level callback event time at least 0),
`BPCheckAndAction` reports no hit and returns the coordinator unchanged whatever the callback
is, so the callback is not invoked. -/
theorem breakpoint_disarms_on_hit (H : Host) (s : EventLog) (cfinfo : SingleCallCounter)
    (hdbg : ShouldPerformDebugAction H s = true) (htop : GetTopCallCounter s = some cfinfo)
    (hhit : bpHit H s cfinfo = true)
    (hkeep : breakpointState (H.BPDbgCallback (disarmed s)).1 = breakpointState (disarmed s)) :
    (BPCheckAndAction H s = .ok (H.BPDbgCallback (disarmed s)).1 () ∨
      ∃ t m, BPCheckAndAction H s
        = .fail (.AbortTopLevel t m) (H.BPDbgCallback (disarmed s)).1) ∧
    (H.BPDbgCallback (disarmed s)).1.BPIsSet = false ∧
    (H.BPDbgCallback (disarmed s)).1.BPBreakAtNextStmtInto = false ∧
    (H.BPDbgCallback (disarmed s)).1.BPBreakAtNextStmtDepth = -1 ∧
    ∀ (s2 : EventLog) (cf2 : SingleCallCounter)
      (cb : EventLog → EventLog × Bool × Int × Option String),
      breakpointState s2 = breakpointState (H.BPDbgCallback (disarmed s)).1 →
      ShouldPerformDebugAction H s2 = true → GetTopCallCounter s2 = some cf2 →
      0 ≤ s2.m_topLevelCallbackEventTime →
      bpHit H s2 cf2 = false ∧
        BPCheckAndAction { H with BPDbgCallback := cb } s2 = .ok s2 () := by
  simp only [breakpointState, Prod.mk.injEq] at hkeep
  obtain ⟨h1, h2, _, _, _, _, _, h8, h9⟩ := hkeep
  refine ⟨?_, h1, h8, h9, ?_⟩
  · rw [BPCheckAndAction_eq H s cfinfo hdbg htop, hhit]
    simp only [if_true]
    cases (H.BPDbgCallback (disarmed s)).2.1
    · exact Or.inr ⟨_, _, rfl⟩
    · exact Or.inl rfl
  · intro s2 cf2 cb hsame hdbg2 htop2 htl
    simp only [breakpointState, Prod.mk.injEq] at hsame
    obtain ⟨_, g2, _, _, _, _, _, _, g9⟩ := hsame
    have hroot : s2.BPRootEventTime = -1 := g2.trans h2
    have hdepth : s2.BPBreakAtNextStmtDepth = -1 := g9.trans h9
    have hmiss := bpHit_disarmed H s2 cf2 hroot hdepth htl
    have hmiss2 : bpHit { H with BPDbgCallback := cb } s2 cf2 = false :=
      bpHit_disarmed _ s2 cf2 hroot hdepth htl
    refine ⟨hmiss, ?_⟩
    rw [BPCheckAndAction_eq { H with BPDbgCallback := cb } s2 cf2 hdbg2 htop2, hmiss2]
    rfl

/-- Witness for `breakpoint_disarms_on_hit`: a pending step-into request hits; the sample
callback sets nothing and continues, and the next check on the returned coordinator does not
hit. -/
theorem breakpoint_disarms_on_hit_witness :
    bpHit sampleHost sampleStepInto { newCallCounter sampleTopLevel 2 with FunctionTime := 2 }
      = true ∧
    BPCheckAndAction sampleHost sampleStepInto = .ok (disarmed sampleStepInto) () ∧
    BPCheckAndAction sampleHost (disarmed sampleStepInto) = .ok (disarmed sampleStepInto) () ∧
    (disarmed sampleStepInto).BPIsSet = false ∧
    ∀ (s2 : EventLog) (cf2 : SingleCallCounter)
      (cb : EventLog → EventLog × Bool × Int × Option String),
      breakpointState s2 = breakpointState (disarmed sampleStepInto) →
      ShouldPerformDebugAction sampleHost s2 = true → GetTopCallCounter s2 = some cf2 →
      0 ≤ s2.m_topLevelCallbackEventTime →
      bpHit sampleHost s2 cf2 = false ∧
        BPCheckAndAction { sampleHost with BPDbgCallback := cb } s2 = .ok s2 () :=
  ⟨by decide, by decide, by decide, by decide,
    (breakpoint_disarms_on_hit sampleHost sampleStepInto
      { newCallCounter sampleTopLevel 2 with FunctionTime := 2 } (by decide) (by decide)
      (by decide) rfl).2.2.2.2⟩

/-! ## C32: when the abort-to-time signal is raised -/

/-- C32: in debugging mode with a top frame, `BPCheckAndAction` ends in the top-level abort with
event time `t` and message `m` exactly when the breakpoint predicate hit and the debugger
callback, run on the disarmed coordinator, returned "do not continue" with that time and
message; the call ends in no other failure; and without a hit it returns the coordinator
unchanged (breakpoint members included) whatever the callback is, so the callback is not
invoked and no abort is raised. -/
theorem bp_abort_iff_hit_and_stop (H : Host) (s : EventLog) (cfinfo : SingleCallCounter)
    (hdbg : ShouldPerformDebugAction H s = true) (htop : GetTopCallCounter s = some cfinfo) :
    (∀ (t : Int) (m : Option String) (s1 : EventLog),
      BPCheckAndAction H s = .fail (.AbortTopLevel t m) s1 ↔
        (bpHit H s cfinfo = true ∧ H.BPDbgCallback (disarmed s) = (s1, false, t, m))) ∧
    (∀ f s1, BPCheckAndAction H s = .fail f s1 → ∃ t m, f = .AbortTopLevel t m) ∧
    (bpHit H s cfinfo = false →
      ∀ cb : EventLog → EventLog × Bool × Int × Option String,
        BPCheckAndAction { H with BPDbgCallback := cb } s = .ok s ()) := by
  have heq := BPCheckAndAction_eq H s cfinfo hdbg htop
  refine ⟨?_, ?_, ?_⟩
  · intro t m s1
    rw [heq]
    rcases hcb : H.BPDbgCallback (disarmed s) with ⟨s2, c, t2, m2⟩
    by_cases hhit : bpHit H s cfinfo = true
    · cases c
      · simp only [hhit, if_true, Bool.false_eq_true, if_false, Outcome.fail.injEq,
          TTDFailure.AbortTopLevel.injEq, true_and, Prod.mk.injEq]
        constructor
        · rintro ⟨⟨h1, h2⟩, h3⟩
          exact ⟨h3, h1, h2⟩
        · rintro ⟨h3, h1, h2⟩
          exact ⟨⟨h1, h2⟩, h3⟩
      · simp [hhit]
    · simp [hhit]
  · intro f s1 hf
    rw [heq] at hf
    by_cases hhit : bpHit H s cfinfo = true
    · simp only [hhit, if_true] at hf
      split at hf
      · simp at hf
      · simp only [Outcome.fail.injEq] at hf
        exact ⟨_, _, hf.1.symm⟩
    · simp [hhit] at hf
  · intro hmiss cb
    have hmiss2 : bpHit { H with BPDbgCallback := cb } s cfinfo = false := hmiss
    rw [BPCheckAndAction_eq { H with BPDbgCallback := cb } s cfinfo hdbg htop, hmiss2]
    rfl

/-- Witness for `bp_abort_iff_hit_and_stop`: with a step-into request pending and a callback
that asks for a restart at event time 3, the call ends in the top-level abort carrying that
time and message. -/
theorem bp_abort_iff_hit_and_stop_witness :
    BPCheckAndAction sampleAbortHost sampleStepInto
      = .fail (.AbortTopLevel 3 (some "restart")) (disarmed sampleStepInto) ∧
    (bpHit sampleAbortHost sampleStepInto
        { newCallCounter sampleTopLevel 2 with FunctionTime := 2 } = true ∧
      sampleAbortHost.BPDbgCallback (disarmed sampleStepInto)
        = (disarmed sampleStepInto, false, 3, some "restart")) :=
  ⟨by decide,
    ((bp_abort_iff_hit_and_stop sampleAbortHost sampleStepInto
      { newCallCounter sampleTopLevel 2 with FunctionTime := 2 } (by decide) (by decide)).1
      3 (some "restart") (disarmed sampleStepInto)).mp (by decide)⟩

end EventLog

end TTD

namespace TTD

namespace EventLog

/-! ## C33: `ReplaySingleEntry` on a checkpoint -/

/-- C33: in debugging mode with the cursor on entry `e` at index `i`: if `e` is a checkpoint,
`ReplaySingleEntry` ends with the time counter incremented by one and the cursor on the next
entry, the event list, the call stack, the mode stack and the trace of executed engine actions
unchanged; it returns normally when the incremented counter has not overtaken the next entry
and otherwise fails the advance's "out of sync" assertion on that same state. If `e` is neither
a checkpoint nor a JsRT action the call is an assertion failure on the unchanged state. -/
theorem ReplaySingleEntry_skips_checkpoint (H : Host) (fuel : Nat) (s : EventLog) (i : Nat)
    (e : EventLogEntry) (hmode : ShouldPerformDebugAction H s = true)
    (hcur : s.m_currentEvent = some i) (he : s.m_events[i]? = some e) :
    (e.GetEventKind = .SnapshotTag →
      (ReplaySingleEntry H fuel s = .ok (advanced s i) () ∨
        ReplaySingleEntry H fuel s = .fail .AssertFailed (advanced s i)) ∧
      ((∀ e1, s.m_events[i + 1]? = some e1 → s.m_eventTimeCtr + 1 ≤ e1.GetEventTime) →
        ReplaySingleEntry H fuel s = .ok (advanced s i) ()) ∧
      (advanced s i).m_eventTimeCtr = s.m_eventTimeCtr + 1 ∧
      (advanced s i).m_currentEvent = nextEvent s i ∧
      (advanced s i).executedActions = s.executedActions ∧
      (advanced s i).m_events = s.m_events ∧
      (advanced s i).m_callStack = s.m_callStack ∧
      (advanced s i).m_modeStack = s.m_modeStack) ∧
    (e.GetEventKind ≠ .SnapshotTag → e.GetEventKind ≠ .JsRTActionTag →
      ReplaySingleEntry H fuel s = .fail .AssertFailed s) := by
  have hce : currentEntry s = some e := by simp [currentEntry, hcur, he]
  constructor
  · intro hk
    have hrs : ReplaySingleEntry H fuel s = AdvanceTimeAndPositionForReplay s := by
      simp [ReplaySingleEntry, hmode, hce, hk]
    refine ⟨?_, ?_, rfl, rfl, rfl, rfl, rfl, rfl⟩
    · rw [hrs, Advance_eq s i hcur]
      cases s.m_events[i + 1]? with
      | none => exact Or.inl rfl
      | some e1 =>
        by_cases hle : s.m_eventTimeCtr + 1 ≤ e1.GetEventTime
        · simp [hle]
        · simp [hle]
    · intro hnext
      rw [hrs]
      exact Advance_ok s i hcur hnext
  · intro hk1 hk2
    simp only [ReplaySingleEntry, hmode, hce, if_true]

/-- Witness for `ReplaySingleEntry_skips_checkpoint`: the sample log with the cursor on its
first entry, the checkpoint at time 0. -/
theorem ReplaySingleEntry_skips_checkpoint_witness :
    ReplaySingleEntry sampleHost 5 sampleSeekLog = .ok (advanced sampleSeekLog 0) () ∧
    (advanced sampleSeekLog 0).m_eventTimeCtr = 1 ∧
    (advanced sampleSeekLog 0).m_currentEvent = some 1 :=
  ⟨((ReplaySingleEntry_skips_checkpoint sampleHost 5 sampleSeekLog 0
      ⟨0, .Snapshot (some ⟨7⟩) 0 0 0⟩ (by decide) rfl rfl).1 rfl).2.1 (by decide),
    by decide, by decide⟩

end EventLog

end TTD

namespace TTD

namespace EventLog

/-! ## C34: the guard pops on unwind only -/

/-- C34 (build with `ENABLE_TTD_DEBUGGING`): destroying a guard that was armed with `PushInfo`
and disarmed with `PopInfo` returns the log exactly as it was (no call-stack pop, no other
change); destroying a guard that was armed and never disarmed is exactly one call of
`PopCallEventException`, whose argument `isFirstException` is true exactly when the log has no
immediate exception frame. -/
theorem guard_pops_on_unwind_only (H : Host) (s : EventLog) :
    TTDExceptionFramePopper.destroy H
        (TTDExceptionFramePopper.PopInfo
          (TTDExceptionFramePopper.PushInfo TTDExceptionFramePopper.create)) s = .ok s () ∧
    (∃ isFirstException,
      TTDExceptionFramePopper.destroy H
          (TTDExceptionFramePopper.PushInfo TTDExceptionFramePopper.create) s
        = PopCallEventException H isFirstException s ∧
      (isFirstException = true ↔ HasImmediateExceptionFrame s = false)) := by
  refine ⟨rfl, !HasImmediateExceptionFrame s, rfl, ?_⟩
  cases HasImmediateExceptionFrame s <;> simp

/-! ## C35: a later pop of the unwind keeps the recorded frame -/

/-- Counterexample to C35 as stated: the mode is active (record mode) with the
`ExcludedExecution` overlay pushed, an exception frame is recorded and one frame is on the call
stack; `PopCallEventException(false)` returns without popping the frame and without touching
the function-time counter. -/
theorem excluded_unwind_pop_is_skipped :
    IsTTDActive sampleHost { sampleExcludedState with m_isExceptionFrame := true } = true ∧
    HasImmediateExceptionFrame { sampleExcludedState with m_isExceptionFrame := true } = true ∧
    { sampleExcludedState with m_isExceptionFrame := true }.m_callStack.length = 1 ∧
    PopCallEventException sampleHost false
        { sampleExcludedState with m_isExceptionFrame := true }
      = .ok { sampleExcludedState with m_isExceptionFrame := true } () :=
  ⟨by decide, by decide, by decide, by decide⟩

/-- C35 (amended): when the log already has an immediate exception frame, in an active mode in
which record or debug actions are performed (execution not excluded) and with a frame on the
call stack, the guard-driven `PopCallEventException` (the guard passes `isFirstException =
false`) returns having removed exactly the top call frame and incremented the function-time
counter by one; the recorded last frame, the return/exception flags and everything else are as
before. -/
theorem unwind_pop_keeps_recorded_frame (H : Host) (s : EventLog)
    (hexc : HasImmediateExceptionFrame s = true) (hact : IsTTDActive H s = true)
    (hperf : (ShouldPerformRecordAction H s || ShouldPerformDebugAction H s) = true)
    (hne : s.m_callStack ≠ []) :
    TTDExceptionFramePopper.destroy H { m_log := true } s = PopCallEventException H false s ∧
    PopCallEventException H false s
      = .ok { s with m_runningFunctionTimeCtr := s.m_runningFunctionTimeCtr + 1,
                     m_callStack := s.m_callStack.dropLast } () ∧
    s.m_callStack.dropLast.length + 1 = s.m_callStack.length := by
  refine ⟨?_, ?_, ?_⟩
  · simp [TTDExceptionFramePopper.destroy, hexc]
  · simp only [PopCallEventException, hact, hperf, if_true, Bool.false_eq_true, if_false]
    exact popFrame_nonempty s hne
  · rw [List.length_dropLast]
    have : 0 < s.m_callStack.length := List.length_pos.mpr hne
    omega

/-- Witness for `unwind_pop_keeps_recorded_frame`: the sample state after an exception left the
inner of two frames, in debugging mode with one frame remaining. -/
theorem unwind_pop_keeps_recorded_frame_witness :
    PopCallEventException sampleHost false sampleAfterException
      = .ok { sampleAfterException with
              m_runningFunctionTimeCtr := sampleAfterException.m_runningFunctionTimeCtr + 1,
              m_callStack := sampleAfterException.m_callStack.dropLast } () :=
  (unwind_pop_keeps_recorded_frame sampleHost sampleAfterException (by decide) (by decide)
    (by decide) (by decide)).2.1

end EventLog

end TTD

namespace TTD

namespace EventLog

/-! ## Dense event times -/

/-- Every recording call that returns has appended, through `logEvent`, an entry that restores
to its own event time. -/
theorem applyRecordOp_restore (H : Host) (op : RecordOp) (s s1 : EventLog)
    (h : applyRecordOp H op s = .ok s1 ()) :
    ∃ payload, s1 = logEvent payload s ∧
      restoreTimeOf ⟨s.m_eventTimeCtr, payload⟩ = s.m_eventTimeCtr := by
  cases op <;>
    simp only [applyRecordOp, RecordDateTimeEvent, RecordDateStringEvent,
      RecordExternalEntropyRandomEvent, RecordPropertyEnumEvent, RecordSymbolCreationEvent,
      RecordExternalCallBeginEvent, RecordExternalCallEndEvent, RecordJsRTAllocateInt,
      RecordJsRTAllocateDouble, RecordJsRTVarConversion, RecordGetAndClearException,
      RecordGetProperty, RecordJsRTCallbackOperation, RecordCodeParse, RecordJsRTCallFunction,
      DoSnapshotExtract] at h
  all_goals (repeat' (split at h))
  all_goals
    first
    | (simp only [Outcome.ok.injEq, and_true] at h; exact ⟨_, h.symm, rfl⟩)
    | (simp at h)

/-- Appending through `logEvent` an entry that restores to its own time keeps the times
dense. -/
theorem DenseInv_logEvent (payload : EventPayload) (s : EventLog) (hinv : DenseInv s)
    (hr : restoreTimeOf ⟨s.m_eventTimeCtr, payload⟩ = s.m_eventTimeCtr) :
    DenseInv (logEvent payload s) := by
  obtain ⟨hd, hc⟩ := hinv
  obtain ⟨he, hctr⟩ := logEvent_events payload s
  refine ⟨?_, ?_⟩
  · intro i e hie
    rw [he] at hie
    by_cases hi : i < s.m_events.length
    · rw [List.getElem?_append_left hi] at hie
      exact hd i e hie
    · rw [List.getElem?_append_right (by omega)] at hie
      have hi0 : i - s.m_events.length = 0 := by
        by_contra hcon
        rw [List.getElem?_eq_none (by simp; omega)] at hie
        exact absurd hie (by simp)
      rw [hi0] at hie
      simp only [List.getElem?_cons_zero, Option.some.injEq] at hie
      subst hie
      refine ⟨?_, hr⟩
      show s.m_eventTimeCtr = (i : Int)
      rw [hc]
      have : i = s.m_events.length := by omega
      rw [this]
  · rw [hctr, he, hc]
    simp

/-- Dense event times are kept by every sequence of mode and recording calls that all return,
and the list grows by one entry per recording call. -/
theorem DenseInv_runLogOps (H : Host) :
    ∀ (ops : List LogOp) (s s1 : EventLog), DenseInv s →
      runLogOps H ops s = .ok s1 () →
      DenseInv s1 ∧ s1.m_events.length = s.m_events.length + recordCalls ops := by
  intro ops
  induction ops with
  | nil =>
    intro s s1 hinv h
    simp only [runLogOps, Outcome.ok.injEq, and_true] at h
    subst h
    exact ⟨hinv, rfl⟩
  | cons op rest ih =>
    intro s s1 hinv h
    cases op with
    | mode m =>
      simp only [runLogOps] at h
      cases hop : applyModeOp H m s with
      | fail f s2 => simp [hop] at h
      | ok s2 u =>
        cases u
        rw [hop] at h
        obtain ⟨h1, h2⟩ := applyModeOp_frame H m s s2 hop
        have hinv2 : DenseInv s2 := ⟨by rw [h1]; exact hinv.1, by rw [h1, h2]; exact hinv.2⟩
        obtain ⟨hd, hl⟩ := ih s2 s1 hinv2 h
        exact ⟨hd, by rw [hl, h1]; rfl⟩
    | record r =>
      simp only [runLogOps] at h
      cases hop : applyRecordOp H r s with
      | fail f s2 => simp [hop] at h
      | ok s2 u =>
        cases u
        rw [hop] at h
        obtain ⟨payload, hp, hr⟩ := applyRecordOp_restore H r s s2 hop
        subst hp
        obtain ⟨hd, hl⟩ := ih _ s1 (DenseInv_logEvent payload s hinv hr) h
        refine ⟨hd, ?_⟩
        rw [hl, (logEvent_events payload s).1]
        simp only [List.length_append, List.length_singleton, recordCalls]
        omega

end EventLog

end TTD

namespace TTD

namespace EventLog

/-! ## C36: recorded event times are dense -/

/-- C36: for a freshly constructed coordinator, after a sequence of calls that all return and
of which `n` are `Record*`/`DoSnapshotExtract` calls (the others are the mode calls that enable
them), the log has `n` entries, the entry at index `i` has event time `i`, the last entry has
event time `n - 1`, the time counter equals `n`, and every checkpoint entry restores to its own
event time. -/
theorem recorded_times_dense (H : Host) (dir : String) (ops : List LogOp) (s : EventLog)
    (h : runLogOps H ops (create H dir) = .ok s ()) :
    s.m_events.length = recordCalls ops ∧
    s.m_eventTimeCtr = (recordCalls ops : Int) ∧
    (∀ (i : Nat) (e : EventLogEntry), s.m_events[i]? = some e → e.GetEventTime = i) ∧
    (∀ e, s.m_events.getLast? = some e → e.GetEventTime = (recordCalls ops : Int) - 1) ∧
    (∀ e ∈ s.m_events, e.GetEventKind = .SnapshotTag → restoreTimeOf e = e.GetEventTime) := by
  have hinv : DenseInv (create H dir) := by
    refine ⟨?_, rfl⟩
    intro i e hie
    simp [create] at hie
  obtain ⟨⟨hd, hc⟩, hl⟩ := DenseInv_runLogOps H ops _ s hinv h
  have hlen : s.m_events.length = recordCalls ops := by
    rw [hl]; simp [create]
  refine ⟨hlen, by rw [hc, hlen], fun i e hie => (hd i e hie).1, ?_, ?_⟩
  · intro e he
    rw [List.getLast?_eq_getElem?] at he
    have h1 := (hd _ e he).1
    have hpos : 0 < s.m_events.length := by
      by_contra hcon
      rw [List.getElem?_eq_none (by omega)] at he
      exact absurd he (by simp)
    rw [h1, ← hlen]
    omega
  · intro e he _
    obtain ⟨i, hi⟩ := List.mem_iff_getElem?.mp he
    exact (hd i e hi).2

/-- Witness for `recorded_times_dense`: the sample recording session (five recording calls). -/
theorem recorded_times_dense_witness :
    runLogOps sampleHost sampleRecording (create sampleHost "log") = .ok sampleRecorded () ∧
    recordCalls sampleRecording = 5 ∧
    sampleRecorded.m_events.length = recordCalls sampleRecording ∧
    sampleRecorded.m_eventTimeCtr = (recordCalls sampleRecording : Int) :=
  ⟨by decide, by decide,
    (recorded_times_dense sampleHost "log" sampleRecording sampleRecorded (by decide)).1,
    (recorded_times_dense sampleHost "log" sampleRecording sampleRecorded (by decide)).2.1⟩

end EventLog

end TTD

namespace TTD

namespace EventLog

/-! ## Cursor and clock in sync -/

/-- A list in which every entry is followed by an entry one time unit later has consecutive
event times. -/
theorem Consecutive_of_chain :
    ∀ l : List EventLogEntry,
      List.Chain' (fun a b : EventLogEntry => b.GetEventTime = a.GetEventTime + 1) l →
      Consecutive l := by
  intro l
  induction l with
  | nil => intro _ k a b ha; simp at ha
  | cons x l ih =>
    intro hch k a b ha hb
    cases l with
    | nil =>
      cases k with
      | zero => simp at hb
      | succ k => simp at ha
    | cons y l2 =>
      rw [List.chain'_cons] at hch
      cases k with
      | zero =>
        simp only [List.getElem?_cons_zero, Option.some.injEq, zero_add,
          List.getElem?_cons_succ] at ha hb
        subst ha hb
        exact hch.1
      | succ k =>
        rw [List.getElem?_cons_succ] at ha hb
        exact ih hch.2 k a b ha hb

/-- Consecutive event times only depend on the times and kinds of the entries. -/
theorem Consecutive_of_shape (l1 l2 : List EventLogEntry)
    (h : l1.map shapeOf = l2.map shapeOf) (hc : Consecutive l2) : Consecutive l1 := by
  intro k a b ha hb
  obtain ⟨a2, ha2, hsa⟩ := getElem?_of_shape_eq l2 l1 h.symm k a ha
  obtain ⟨b2, hb2, hsb⟩ := getElem?_of_shape_eq l2 l1 h.symm (k + 1) b hb
  have h1 : a2.GetEventTime = a.GetEventTime := congrArg Prod.fst hsa
  have h2 : b2.GetEventTime = b.GetEventTime := congrArg Prod.fst hsb
  have := hc k a2 b2 ha2 hb2
  omega

/-- On a log with consecutive event times, an advance from an in-sync cursor returns and leaves
the cursor null or in sync again. -/
theorem advance_in_sync (s : EventLog) (i : Nat) (e : EventLogEntry)
    (hcons : Consecutive s.m_events) (hcur : s.m_currentEvent = some i)
    (he : s.m_events[i]? = some e) (hsync : e.GetEventTime = s.m_eventTimeCtr) :
    AdvanceTimeAndPositionForReplay s = .ok (advanced s i) () ∧ InSync (advanced s i) := by
  constructor
  · apply Advance_ok s i hcur
    intro e1 he1
    have := hcons i e e1 he he1
    omega
  · intro e1 he1
    rw [currentEntry_advanced] at he1
    have := hcons i e e1 he he1
    show e1.GetEventTime = s.m_eventTimeCtr + 1
    omega

/-- A returning `advanceReturning` is a returning advance. -/
theorem advanceReturning_ok {α : Type} (a v : α) (s s1 : EventLog)
    (h : advanceReturning a s = .ok s1 v) : AdvanceTimeAndPositionForReplay s = .ok s1 () := by
  unfold advanceReturning at h
  split at h
  · simp only [Outcome.ok.injEq] at h
    rename_i s2 u hadv
    cases u
    rw [hadv, h.1]
  · simp at h

/-- The cursor-positioning block of `DoSnapshotInflate` leaves the cursor null or in sync on a
log with consecutive event times. -/
theorem positionCursor_in_sync (s s1 : EventLog) (hne : s.m_events ≠ [])
    (hcons : Consecutive s.m_events) (h : positionCursor s = .ok s1 ()) : InSync s1 := by
  obtain ⟨j, e, hj, he, _, _, hev, _, _, _, _, _, _, _, _, hsnap, hother⟩ :=
    positionCursor_ok s s1 hne h
  obtain ⟨x, hx, hpx, _⟩ := findBackward_some _ _ _ hj
  rw [he] at hx
  simp only [Option.some.injEq] at hx
  subst hx
  have het : e.GetEventTime = s.m_eventTimeCtr := by simpa using hpx
  intro e1 he1
  by_cases hk : e.GetEventKind = .SnapshotTag
  · obtain ⟨hc, hctr⟩ := hsnap hk
    have hce : currentEntry s1 = s.m_events[j + 1]? := by
      have := currentEntry_advanced s j
      simp only [currentEntry, advanced] at this
      simp only [currentEntry, hc, hev]
      exact this
    rw [hce] at he1
    have := hcons j e e1 he he1
    omega
  · obtain ⟨hc, hctr⟩ := hother hk
    simp only [currentEntry, hc, hev, he, Option.some.injEq] at he1
    subst he1
    omega

end EventLog

end TTD

namespace TTD

namespace EventLog

/-- Each scalar replay call, and `ReplaySingleEntry` on a checkpoint, returns only through a
returning advance. -/
theorem replay_ok_is_advance (H : Host) (s s1 : EventLog) :
    (∀ v, ReplayDateTimeEvent H s = .ok s1 v → AdvanceTimeAndPositionForReplay s = .ok s1 ()) ∧
    (∀ v, ReplayDateStringEvent H s = .ok s1 v →
      AdvanceTimeAndPositionForReplay s = .ok s1 ()) ∧
    (∀ v, ReplayExternalEntropyRandomEvent H s = .ok s1 v →
      AdvanceTimeAndPositionForReplay s = .ok s1 ()) ∧
    (∀ obj v, ReplayPropertyEnumEvent H obj s = .ok s1 v →
      AdvanceTimeAndPositionForReplay s = .ok s1 ()) ∧
    (∀ v, ReplaySymbolCreationEvent H s = .ok s1 v →
      AdvanceTimeAndPositionForReplay s = .ok s1 ()) ∧
    (∀ fuel e, currentEntry s = some e → e.GetEventKind = .SnapshotTag →
      ReplaySingleEntry H fuel s = .ok s1 () →
      AdvanceTimeAndPositionForReplay s = .ok s1 ()) := by
  refine ⟨?_, ?_, ?_, ?_, ?_, ?_⟩
  · intro v h
    unfold ReplayDateTimeEvent at h
    repeat' (split at h)
    all_goals first | exact advanceReturning_ok _ _ _ _ h | simp at h
  · intro v h
    unfold ReplayDateStringEvent at h
    repeat' (split at h)
    all_goals first | exact advanceReturning_ok _ _ _ _ h | simp at h
  · intro v h
    unfold ReplayExternalEntropyRandomEvent at h
    repeat' (split at h)
    all_goals first | exact advanceReturning_ok _ _ _ _ h | simp at h
  · intro obj v h
    unfold ReplayPropertyEnumEvent at h
    repeat' (split at h)
    all_goals first | exact advanceReturning_ok _ _ _ _ h | simp at h
  · intro v h
    unfold ReplaySymbolCreationEvent at h
    repeat' (split at h)
    all_goals first | exact advanceReturning_ok _ _ _ _ h | simp at h
  · intro fuel e hce hk h
    unfold ReplaySingleEntry at h
    split at h
    · simpa [hce, hk] using h
    · simp at h

end EventLog

end TTD

namespace TTD

namespace EventLog

/-! ## C37: replay keeps cursor and clock in sync -/

/-- C37: on a log whose event times are consecutive integers, with the cursor on an entry whose
event time equals the time counter: after every returning `ReplayDateTimeEvent`,
`ReplayDateStringEvent`, `ReplayExternalEntropyRandomEvent`, `ReplayPropertyEnumEvent`,
`ReplaySymbolCreationEvent` and checkpoint-skipping `ReplaySingleEntry`, and after every
returning `DoSnapshotInflate` (unloading a snapshot body being assumed to keep an entry's time
and kind), the cursor is null or on an entry whose event time equals the time counter, and the
event times are still consecutive. The advance these calls make does return, and in debugging
mode `ReplayDateTimeEvent` on a clock entry returns the recorded value. -/
theorem replay_keeps_sync (H : Host) (s : EventLog) (i : Nat) (e : EventLogEntry)
    (hcons : Consecutive s.m_events) (hcur : s.m_currentEvent = some i)
    (he : s.m_events[i]? = some e) (hsync : e.GetEventTime = s.m_eventTimeCtr) :
    (∀ s1 v, ReplayDateTimeEvent H s = .ok s1 v → InSync s1 ∧ Consecutive s1.m_events) ∧
    (∀ s1 v, ReplayDateStringEvent H s = .ok s1 v → InSync s1 ∧ Consecutive s1.m_events) ∧
    (∀ s1 v, ReplayExternalEntropyRandomEvent H s = .ok s1 v →
      InSync s1 ∧ Consecutive s1.m_events) ∧
    (∀ obj s1 v, ReplayPropertyEnumEvent H obj s = .ok s1 v →
      InSync s1 ∧ Consecutive s1.m_events) ∧
    (∀ s1 v, ReplaySymbolCreationEvent H s = .ok s1 v → InSync s1 ∧ Consecutive s1.m_events) ∧
    (∀ fuel s1, e.GetEventKind = .SnapshotTag → ReplaySingleEntry H fuel s = .ok s1 () →
      InSync s1 ∧ Consecutive s1.m_events) ∧
    (∀ etime s1, UnloadKeepsShape H → DoSnapshotInflate H etime s = .ok s1 () →
      InSync s1 ∧ Consecutive s1.m_events) ∧
    AdvanceTimeAndPositionForReplay s = .ok (advanced s i) () ∧
    (∀ d, ShouldPerformDebugAction H s = true → e.payload = .DoubleValue d →
      ReplayDateTimeEvent H s = .ok (advanced s i) d) := by
  obtain ⟨hadv, hin⟩ := advance_in_sync s i e hcons hcur he hsync
  have hce : currentEntry s = some e := by simp [currentEntry, hcur, he]
  have key : ∀ s1, AdvanceTimeAndPositionForReplay s = .ok s1 () →
      InSync s1 ∧ Consecutive s1.m_events := by
    intro s1 h1
    rw [hadv] at h1
    simp only [Outcome.ok.injEq, and_true] at h1
    subst h1
    exact ⟨hin, hcons⟩
  refine ⟨?_, ?_, ?_, ?_, ?_, ?_, ?_, hadv, ?_⟩
  · intro s1 v h; exact key s1 ((replay_ok_is_advance H s s1).1 v h)
  · intro s1 v h; exact key s1 ((replay_ok_is_advance H s s1).2.1 v h)
  · intro s1 v h; exact key s1 ((replay_ok_is_advance H s s1).2.2.1 v h)
  · intro obj s1 v h; exact key s1 ((replay_ok_is_advance H s s1).2.2.2.1 obj v h)
  · intro s1 v h; exact key s1 ((replay_ok_is_advance H s s1).2.2.2.2.1 v h)
  · intro fuel s1 hk h
    exact key s1 ((replay_ok_is_advance H s s1).2.2.2.2.2 fuel e hce hk h)
  · intro etime s1 hU h
    obtain ⟨i2, curr, curr1, info, _, hcurr, _, hinfo, hpos⟩ :=
      DoSnapshotInflate_ok H etime s s1 h
    have hshape := inflate_events_shape H hU etime s i2 curr curr1 info hcurr hinfo
    have hne := inflate_events_ne_nil H etime s i2 curr curr1 hcurr
    have hcons2 := Consecutive_of_shape _ _ hshape hcons
    obtain ⟨_, _, _, _, _, _, hev, _⟩ := positionCursor_ok _ s1 (by exact hne) hpos
    refine ⟨positionCursor_in_sync _ s1 (by exact hne) (by exact hcons2) hpos, ?_⟩
    rw [hev]
    exact hcons2
  · intro d hmode hp
    simp only [ReplayDateTimeEvent, hmode, hce, hsync, hp, if_true, advanceReturning, hadv]

/-- The sample replay log has the event times 0 to 5. -/
theorem sampleReplayLog_consecutive : Consecutive sampleReplayLog.m_events := by
  apply Consecutive_of_chain
  simp [sampleReplayLog, EventLogEntry.GetEventTime]

/-- Witness for `replay_keeps_sync`: the sample replay log (times 0 to 5) with cursor and
counter on the clock entry at time 1. -/
theorem replay_keeps_sync_witness :
    ReplayDateTimeEvent sampleHost
        { sampleReplayLog with m_eventTimeCtr := 1, m_currentEvent := some 1 }
      = .ok (advanced { sampleReplayLog with m_eventTimeCtr := 1, m_currentEvent := some 1 } 1)
          ⟨1234⟩ ∧
    InSync (advanced { sampleReplayLog with m_eventTimeCtr := 1, m_currentEvent := some 1 } 1) :=
  ⟨(replay_keeps_sync sampleHost
      { sampleReplayLog with m_eventTimeCtr := 1, m_currentEvent := some 1 } 1
      ⟨1, .DoubleValue ⟨1234⟩⟩ sampleReplayLog_consecutive rfl rfl rfl).2.2.2.2.2.2.2.2
      ⟨1234⟩ (by decide) rfl,
    ((replay_keeps_sync sampleHost
      { sampleReplayLog with m_eventTimeCtr := 1, m_currentEvent := some 1 } 1
      ⟨1, .DoubleValue ⟨1234⟩⟩ sampleReplayLog_consecutive rfl rfl rfl).1 _ ⟨1234⟩
      (by decide)).1⟩

end EventLog

end TTD

namespace TTD

namespace EventLog

/-! ## The return/exception frame flags -/

/-- `UpdateComputedMode` leaves the frame flags and the recorded frame alone. -/
theorem UpdateComputedMode_flags (H : Host) (s s1 : EventLog)
    (h : UpdateComputedMode H s = .ok s1 ()) :
    s1.m_isReturnFrame = s.m_isReturnFrame ∧ s1.m_isExceptionFrame = s.m_isExceptionFrame := by
  unfold UpdateComputedMode at h
  split at h
  · simp at h
  · simp only [Outcome.ok.injEq, and_true] at h
    subst h
    exact ⟨rfl, rfl⟩

/-- Mode calls leave the frame flags alone. -/
theorem applyModeOp_flags (H : Host) (op : ModeOp) (s s1 : EventLog)
    (h : applyModeOp H op s = .ok s1 ()) :
    s1.m_isReturnFrame = s.m_isReturnFrame ∧ s1.m_isExceptionFrame = s.m_isExceptionFrame := by
  cases op with
  | SetGlobalMode m =>
    simp only [applyModeOp, SetGlobalMode] at h
    split at h
    · exact (UpdateComputedMode_flags H _ s1 h :)
    · simp at h
  | SetIntoDebuggingMode =>
    simp only [applyModeOp, SetIntoDebuggingMode] at h
    split at h
    · simp at h
    · rename_i s2 u hu
      split at h
      · simp at h
      · simp only [Outcome.ok.injEq, and_true] at h
        subst h
        exact (UpdateComputedMode_flags H _ s2 hu :)
  | PushMode m =>
    simp only [applyModeOp, PushMode] at h
    split at h
    · exact (UpdateComputedMode_flags H _ s1 h :)
    · simp at h
  | PopMode m =>
    simp only [applyModeOp, PopMode] at h
    split at h
    · split at h
      · simp at h
      · split at h
        · exact (UpdateComputedMode_flags H _ s1 h :)
        · simp at h
    · simp at h
  | StartTimeTravelOnScript ctx =>
    simp only [applyModeOp, StartTimeTravelOnScript] at h
    split at h
    · simp at h
    · simp only [Outcome.ok.injEq, and_true] at h
      subst h
      exact ⟨rfl, rfl⟩

/-- A returning `SetReturnAndExceptionFramesFromCurrent` found a top frame, was asked for
exactly one of the two flags, and stored the flags and the top frame. -/
theorem SetReturnAndExceptionFramesFromCurrent_ok (H : Host) (r x : Bool) (s s1 : EventLog)
    (h : SetReturnAndExceptionFramesFromCurrent H r x s = .ok s1 ()) :
    ∃ last, s.m_callStack.getLast? = some last ∧ ¬ (r = true ∧ x = true) ∧
      s1 = { s with m_isReturnFrame := r, m_isExceptionFrame := x, m_lastFrame := last } := by
  unfold SetReturnAndExceptionFramesFromCurrent at h
  split at h
  · split at h
    · simp at h
    · rename_i last hlast
      split at h
      · rename_i hx
        simp only [Outcome.ok.injEq, and_true] at h
        refine ⟨last, hlast, ?_, h.symm⟩
        rintro ⟨hr, hx2⟩
        subst hr hx2
        simp at hx
      · simp at h
  · simp at h

/-- A returning `popFrame` removed the top frame and incremented the function-time counter. -/
theorem popFrame_ok (s s1 : EventLog) (h : popFrame s = .ok s1 ()) :
    s1 = { s with m_runningFunctionTimeCtr := s.m_runningFunctionTimeCtr + 1,
                  m_callStack := s.m_callStack.dropLast } := by
  unfold popFrame at h
  split at h
  · simp at h
  · simp only [Outcome.ok.injEq, and_true] at h
    exact h.symm

/-- What a returning `PopCallEvent` does when record or debug actions are performed. -/
theorem PopCallEvent_ok (H : Host) (s s1 : EventLog)
    (hperf : (ShouldPerformRecordAction H s || ShouldPerformDebugAction H s) = true)
    (h : PopCallEvent H s = .ok s1 ()) :
    ∃ last, s.m_callStack.getLast? = some last ∧
      s1 = { s with m_isReturnFrame := true, m_isExceptionFrame := false, m_lastFrame := last,
                    m_runningFunctionTimeCtr := s.m_runningFunctionTimeCtr + 1,
                    m_callStack := s.m_callStack.dropLast } := by
  simp only [PopCallEvent, hperf, if_true] at h
  split at h
  · split at h
    · simp at h
    · rename_i s2 u hset
      cases u
      obtain ⟨last, hlast, _, hs2⟩ := SetReturnAndExceptionFramesFromCurrent_ok H _ _ s s2 hset
      have := popFrame_ok s2 s1 h
      subst hs2
      exact ⟨last, hlast, this⟩
  · simp at h

/-- Every call-stack call keeps the two flags exclusive. -/
theorem applyCallOp_exclusive (H : Host) (op : CallOp) (s s1 : EventLog)
    (hex : FlagsExclusive s) (h : applyCallOp H op s = .ok s1 ()) : FlagsExclusive s1 := by
  cases op with
  | PushCallEvent fbody =>
    simp only [applyCallOp, PushCallEvent] at h
    split at h
    · split at h
      · simp only [Outcome.ok.injEq, and_true] at h
        subst h
        simp [FlagsExclusive, HasImmediateReturnFrame, HasImmediateExceptionFrame,
          ClearReturnAndExceptionFrames]
      · simp only [Outcome.ok.injEq, and_true] at h
        subst h; exact hex
    · simp at h
  | PopCallEvent =>
    simp only [applyCallOp] at h
    by_cases hperf : (ShouldPerformRecordAction H s || ShouldPerformDebugAction H s) = true
    · obtain ⟨last, _, hs1⟩ := PopCallEvent_ok H s s1 hperf h
      subst hs1
      simp [FlagsExclusive, HasImmediateReturnFrame, HasImmediateExceptionFrame]
    · simp only [PopCallEvent, hperf] at h
      split at h
      · simp only [Bool.false_eq_true, if_false, Outcome.ok.injEq, and_true] at h
        subst h; exact hex
      · simp at h
  | PopCallEventException isFirst =>
    simp only [applyCallOp, PopCallEventException] at h
    split at h
    · split at h
      · split at h
        · split at h
          · simp at h
          · rename_i s2 u hset
            cases u
            obtain ⟨last, _, _, hs2⟩ :=
              SetReturnAndExceptionFramesFromCurrent_ok H _ _ s s2 hset
            have := popFrame_ok s2 s1 h
            subst hs2
            subst this
            simp [FlagsExclusive, HasImmediateReturnFrame, HasImmediateExceptionFrame]
        · have := popFrame_ok s s1 h
          subst this
          exact hex
      · simp only [Outcome.ok.injEq, and_true] at h
        subst h; exact hex
    · simp at h

/-- The two flags are exclusive after every sequence of call-tracking calls that all return. -/
theorem FlagsExclusive_runTrackOps (H : Host) :
    ∀ (ops : List TrackOp) (s s1 : EventLog), FlagsExclusive s →
      runTrackOps H ops s = .ok s1 () → FlagsExclusive s1 := by
  intro ops
  induction ops with
  | nil =>
    intro s s1 hex h
    simp only [runTrackOps, Outcome.ok.injEq, and_true] at h
    subst h; exact hex
  | cons op rest ih =>
    intro s s1 hex h
    simp only [runTrackOps] at h
    cases hop : applyTrackOp H op s with
    | fail f s2 => simp [hop] at h
    | ok s2 u =>
      cases u
      rw [hop] at h
      refine ih s2 s1 ?_ h
      cases op with
      | mode m =>
        obtain ⟨h1, h2⟩ := applyModeOp_flags H m s s2 hop
        simpa [FlagsExclusive, HasImmediateReturnFrame, HasImmediateExceptionFrame, h1, h2]
          using hex
      | call c => exact applyCallOp_exclusive H c s s2 hex hop
      | ResetCallStackForTopLevelCall tl hid =>
        obtain ⟨_, hs2⟩ := ResetCallStackForTopLevelCall_ok tl hid s s2 hop
        subst hs2
        simp [FlagsExclusive, HasImmediateReturnFrame, HasImmediateExceptionFrame,
          ClearReturnAndExceptionFrames]
      | ClearReturnAndExceptionFrames =>
        simp only [applyTrackOp, Outcome.ok.injEq, and_true] at hop
        subst hop
        simp [FlagsExclusive, HasImmediateReturnFrame, HasImmediateExceptionFrame,
          ClearReturnAndExceptionFrames]

end EventLog

end TTD

namespace TTD

namespace EventLog

/-! ## C38: the return and exception flags are never both set -/

/-- Counterexample to C38 as stated: from the constructor, enter record mode, push two frames,
pop one (the return flag is set), push the `ExcludedExecution` overlay. The mode is still
active, but `PushCallEvent` now returns without clearing the return flag. -/
theorem excluded_push_keeps_return_flag :
    ∃ s1, runTrackOps sampleHost
        [.mode (.SetGlobalMode 4), .call (.PushCallEvent 1), .call (.PushCallEvent 2),
         .call .PopCallEvent, .mode (.PushMode 32)] (create sampleHost "log") = .ok s1 () ∧
      IsTTDActive sampleHost s1 = true ∧ HasImmediateReturnFrame s1 = true ∧
      PushCallEvent sampleHost 3 s1 = .ok s1 () :=
  ⟨_, rfl, by decide, by decide, by decide⟩

/-- C38 (amended): in every state reached from the constructor through mode calls,
`PushCallEvent`, `PopCallEvent`, `PopCallEventException`, `ResetCallStackForTopLevelCall` and
`ClearReturnAndExceptionFrames` that all return, at most one of `HasImmediateReturnFrame()` and
`HasImmediateExceptionFrame()` is true; in such a state, when record or debug actions are
performed (active mode, execution not excluded), a returning `PushCallEvent` leaves both flags
clear, and a returning `PopCallEvent` leaves the return flag set, the exception flag clear, the
popped top frame recorded as the last frame and the call stack without that frame. -/
theorem frame_flags_exclusive (H : Host) (dir : String) (ops : List TrackOp) (s : EventLog)
    (h : runTrackOps H ops (create H dir) = .ok s ()) :
    FlagsExclusive s ∧
    (∀ fbody s1,
      (ShouldPerformRecordAction H s || ShouldPerformDebugAction H s) = true →
      PushCallEvent H fbody s = .ok s1 () →
      HasImmediateReturnFrame s1 = false ∧ HasImmediateExceptionFrame s1 = false) ∧
    (∀ s1,
      (ShouldPerformRecordAction H s || ShouldPerformDebugAction H s) = true →
      PopCallEvent H s = .ok s1 () →
      HasImmediateReturnFrame s1 = true ∧ HasImmediateExceptionFrame s1 = false ∧
        s.m_callStack.getLast? = some s1.m_lastFrame ∧
        s1.m_callStack = s.m_callStack.dropLast) := by
  have h0 : FlagsExclusive (create H dir) := by
    simp [FlagsExclusive, HasImmediateReturnFrame, create]
  refine ⟨FlagsExclusive_runTrackOps H ops _ s h0 h, ?_, ?_⟩
  · intro fbody s1 hperf hpush
    simp only [PushCallEvent, hperf, if_true] at hpush
    split at hpush
    · simp only [Outcome.ok.injEq, and_true] at hpush
      subst hpush
      exact ⟨rfl, rfl⟩
    · simp at hpush
  · intro s1 hperf hpop
    obtain ⟨last, hlast, hs1⟩ := PopCallEvent_ok H s s1 hperf hpop
    subst hs1
    exact ⟨rfl, rfl, hlast, rfl⟩

/-- Witness for `frame_flags_exclusive`: in record mode, after two pushes and a pop the return
flag is set and the exception flag is clear. -/
theorem frame_flags_exclusive_witness :
    ∃ s1, runTrackOps sampleHost
        [.mode (.SetGlobalMode 4), .call (.PushCallEvent 1), .call (.PushCallEvent 2),
         .call .PopCallEvent] (create sampleHost "log") = .ok s1 () ∧
      HasImmediateReturnFrame s1 = true ∧ FlagsExclusive s1 :=
  ⟨_, rfl, by decide,
    (frame_flags_exclusive sampleHost "log"
      [.mode (.SetGlobalMode 4), .call (.PushCallEvent 1), .call (.PushCallEvent 2),
       .call .PopCallEvent] _ rfl).1⟩

end EventLog

end TTD

namespace TTD

namespace EventLog

/-! ## The action loop: one maximal run -/

end EventLog

end TTD

namespace TTD

namespace EventLog

end EventLog

end TTD

namespace TTD

namespace EventLog

/-! ## C39: `ReplayActionLoopStep` replays one maximal run of actions -/

end EventLog

end TTD

namespace TTD

namespace EventLog

/-! ## C40: statement tracking on the top frame -/

/-- A bytecode offset inside a statement span that starts at a non-negative offset lies inside
the span as stored in the frame. -/
theorem offset_in_stored_span (bytecodeOffset : Nat) (span : Int × Int)
    (hoff : bytecodeOffset < 2 ^ 32) (h0 : 0 ≤ span.1) (h1 : span.2 < 2 ^ 31)
    (hb : span.1 ≤ toInt32 bytecodeOffset) (he : toInt32 bytecodeOffset ≤ span.2) :
    toUInt32 span.1 ≤ bytecodeOffset ∧ bytecodeOffset ≤ toUInt32 span.2 := by
  unfold toInt32 at hb he
  unfold toUInt32
  have hmod : bytecodeOffset % 2 ^ 32 = bytecodeOffset := Nat.mod_eq_of_lt hoff
  rw [hmod] at hb he
  norm_num at hoff h1 hb he ⊢
  split at hb
  · rw [if_pos (by assumption)] at he
    omega
  · omega

/-- C40: with `cfinfo` the top frame and a `uint` bytecode offset: if the offset lies within
`[CurrentStatementBytecodeMin, CurrentStatementBytecodeMax]` the call returns false and changes
nothing; whenever it returns true only the top frame has changed, its `LastStatementIndex` and
`LastStatementLoopTime` are the previous `CurrentStatementIndex` and `CurrentStatementLoopTime`,
its `CurrentStatementIndex` is the index of the statement enclosing the offset and differs from
the previous one, its `CurrentStatementLoopTime` equals its `LoopTime`, and the offset lies
within the new span; whenever it returns false the coordinator is unchanged; and it does return
true when the offset is outside the current span and inside the span of an enclosing statement
other than the current one. The span of the enclosing statement is taken to start at a
non-negative offset. -/
theorem UpdateCurrentStatementInfo_tracks (H : Host) (bytecodeOffset : Nat) (s : EventLog)
    (cfinfo : SingleCallCounter) (htop : GetTopCallCounter s = some cfinfo)
    (hoff : bytecodeOffset < 2 ^ 32)
    (hspan :
      0 ≤ (H.GetStatementSpan cfinfo.Function
            (H.GetEnclosingStatementIndexFromByteCode cfinfo.Function bytecodeOffset)).1 ∧
      (H.GetStatementSpan cfinfo.Function
            (H.GetEnclosingStatementIndexFromByteCode cfinfo.Function bytecodeOffset)).2
        < 2 ^ 31) :
    (cfinfo.CurrentStatementBytecodeMin ≤ bytecodeOffset ∧
        bytecodeOffset ≤ cfinfo.CurrentStatementBytecodeMax →
      UpdateCurrentStatementInfo H bytecodeOffset s = .ok s false) ∧
    (∀ s1, UpdateCurrentStatementInfo H bytecodeOffset s = .ok s1 true →
      ∃ top1, s1 = { s with m_callStack := s.m_callStack.dropLast ++ [top1] } ∧
        GetTopCallCounter s1 = some top1 ∧
        top1.LastStatementIndex = cfinfo.CurrentStatementIndex ∧
        top1.LastStatementLoopTime = cfinfo.CurrentStatementLoopTime ∧
        top1.CurrentStatementIndex
          = H.GetEnclosingStatementIndexFromByteCode cfinfo.Function bytecodeOffset ∧
        top1.CurrentStatementIndex ≠ cfinfo.CurrentStatementIndex ∧
        top1.CurrentStatementLoopTime = top1.LoopTime ∧
        top1.CurrentStatementBytecodeMin ≤ bytecodeOffset ∧
        bytecodeOffset ≤ top1.CurrentStatementBytecodeMax ∧
        top1.Function = cfinfo.Function ∧ top1.EventTime = cfinfo.EventTime ∧
        top1.FunctionTime = cfinfo.FunctionTime ∧ top1.LoopTime = cfinfo.LoopTime) ∧
    (∀ s1, UpdateCurrentStatementInfo H bytecodeOffset s = .ok s1 false → s1 = s) ∧
    (¬ (cfinfo.CurrentStatementBytecodeMin ≤ bytecodeOffset ∧
          bytecodeOffset ≤ cfinfo.CurrentStatementBytecodeMax) →
      H.GetEnclosingStatementIndexFromByteCode cfinfo.Function bytecodeOffset ≠ -1 →
      H.GetEnclosingStatementIndexFromByteCode cfinfo.Function bytecodeOffset
        ≠ cfinfo.CurrentStatementIndex →
      (H.GetStatementSpan cfinfo.Function
          (H.GetEnclosingStatementIndexFromByteCode cfinfo.Function bytecodeOffset)).1
        ≤ toInt32 bytecodeOffset →
      toInt32 bytecodeOffset
        ≤ (H.GetStatementSpan cfinfo.Function
            (H.GetEnclosingStatementIndexFromByteCode cfinfo.Function bytecodeOffset)).2 →
      ∃ s1, UpdateCurrentStatementInfo H bytecodeOffset s = .ok s1 true) := by
  refine ⟨?_, ?_, ?_, ?_⟩
  · intro hin
    simp [UpdateCurrentStatementInfo, htop, hin]
  · intro s1 h
    simp only [UpdateCurrentStatementInfo, htop] at h
    split at h
    · simp at h
    · split at h
      · simp at h
      · split at h
        · rename_i hnew
          simp only [Outcome.ok.injEq, and_true] at h
          simp only [Bool.and_eq_true, decide_eq_true_eq] at hnew
          obtain ⟨⟨hne, hb⟩, he⟩ := hnew
          obtain ⟨h0, h1⟩ := hspan
          obtain ⟨hlo, hhi⟩ := offset_in_stored_span bytecodeOffset _ hoff h0 h1 hb he
          refine ⟨_, h.symm, ?_, rfl, rfl, rfl, hne, rfl, hlo, hhi, rfl, rfl, rfl, rfl⟩
          subst h
          simp [GetTopCallCounter]
        · simp at h
  · intro s1 h
    simp only [UpdateCurrentStatementInfo, htop] at h
    split at h
    · simp only [Outcome.ok.injEq, and_true] at h
      exact h.symm
    · split at h
      · simp at h
      · split at h
        · simp at h
        · simp only [Outcome.ok.injEq, and_true] at h
          exact h.symm
  · intro hout hidx hne hb he
    simp only [UpdateCurrentStatementInfo, htop, hout, if_false, hidx]
    simp [hne, hb, he]

/-- Witness for `UpdateCurrentStatementInfo_tracks`: the freshly pushed top frame of the sample
call stack (no current statement) at bytecode offset 25, which the sample host places in
statement 2 with span 20 to 29. -/
theorem UpdateCurrentStatementInfo_tracks_witness :
    UpdateCurrentStatementInfo sampleHost 25 sampleTwoFrames
      = .ok { sampleTwoFrames with
              m_callStack := sampleTwoFrames.m_callStack.dropLast ++
                [enterStatement { newCallCounter sampleTopLevel 2 with FunctionTime := 2 } 2
                  (20, 29)] } true ∧
    ∀ s1, UpdateCurrentStatementInfo sampleHost 25 sampleTwoFrames = .ok s1 false →
      s1 = sampleTwoFrames :=
  ⟨by decide,
    (UpdateCurrentStatementInfo_tracks sampleHost 25 sampleTwoFrames
      { newCallCounter sampleTopLevel 2 with FunctionTime := 2 } (by decide) (by decide)
      (by decide)).2.2.1⟩

end EventLog

end TTD
